import Mathlib

/-!
# Event envelope and durable delivery pipeline (go-eda-hexagonal)

A shallow embedding of the event envelope (`internal/platform/event`), the stream
router and NATS event bus (`internal/platform/adapter/bus`) and the audit subscriber
(`internal/contexts/audit`), followed by the properties established for them.

Conventions of the embedding:
* Go strings and byte slices are lists of Unicode code points (`Text`); a nil slice is
  `none`.
* Go `error` values are `GoError`; a function returning `(T, error)` returns
  `Except GoError T`, one returning `error` returns `Option GoError` (`none` is `nil`).
* Everything the code obtains from its environment (identifier generation, the wall
  clock, the broker, the repository) is an explicit argument.
* Calls made on collaborators are recorded in order in a trace.
* Tracing spans and trace-context propagation headers do not influence control flow
  and are left out.
-/

namespace EDA

/-! ## Text helpers -/

/-- Go strings and byte slices, as lists of code points. -/
abbrev Text := List Char

/-- The Go function `strings.HasPrefix`. -/
def hasPrefix (s p : Text) : Bool := p.isPrefixOf s

/-- The Go function `strings.HasSuffix`. -/
def hasSuffix (s p : Text) : Bool := p.isSuffixOf s

/-- The Go function `strings.TrimSuffix`: `s` without the trailing `suffix`, or `s`
itself when it does not end in `suffix`. -/
def trimSuffix (s suffix : Text) : Text :=
  if hasSuffix s suffix then s.take (s.length - suffix.length) else s

/-! ## Errors -/

/-- Error codes of package `msg` (the package is not among the sources; the three
codes are the ones the sources name: `CodeInvalid`, `CodeConflict`, `CodeInternal`). -/
inductive ErrorCode where
  | invalid
  | conflict
  | internal
  deriving DecidableEq, Repr

/-- Go `error` values as the code builds them. -/
inductive GoError where
  /-- The value of `errors.New(text)`, and errors raised by library calls. -/
  | new (text : String)
  /-- The value of `fmt.Errorf(text + ": %w", cause)`. -/
  | wrap (text : String) (cause : GoError)
  /-- A `*msg.MessageError` carrying a code, a message and a wrapped cause. -/
  | coded (code : ErrorCode) (text : String) (cause : GoError)
  /-- A `*msg.MessageError` built with a nil cause. -/
  | codedNoCause (code : ErrorCode) (text : String)
  deriving DecidableEq, Repr

/-- The method `Error()`: the message of an error. -/
def GoError.Error : GoError → String
  | .new text => text
  | .wrap text cause => text ++ ": " ++ cause.Error
  | .coded _ text _ => text
  | .codedNoCause _ text => text

/-! ## Identifiers and time -/

/-- Modelled from the spec: `types.UUID` of package `internal/platform/types`, which
is not among the sources. A 128-bit identifier, held as the five groups of its
canonical text form `8-4-4-4-12` (RFC 4122 field layout). -/
structure UUID where
  timeLow : Fin (16 ^ 8)
  timeMid : Fin (16 ^ 4)
  timeHiAndVersion : Fin (16 ^ 4)
  clockSeq : Fin (16 ^ 4)
  node : Fin (16 ^ 12)
  deriving DecidableEq

/-- Modelled from the spec: `types.Nil`, the nil (all-zero) UUID. -/
def UUID.Nil : UUID := ⟨0, 0, 0, 0, 0⟩

/-- Modelled from the spec: `UUID.IsNil`, whether the identifier is the nil UUID. -/
def UUID.IsNil (u : UUID) : Bool := decide (u = UUID.Nil)

/-- Modelled from the spec: `types.NullableUUID`, "a value plus a validity flag"
(the tests read the exported field `Valid` and build values with
`NewNullableUUID(value, valid)`). -/
structure NullableUUID where
  UUID : UUID
  Valid : Bool
  deriving DecidableEq

/-- Modelled from the spec: `types.NewNullUUID()`, the absent identifier; it is also
the zero value `var x types.NullableUUID`. -/
def NewNullUUID : NullableUUID := ⟨UUID.Nil, false⟩

/-- Modelled from the spec: `types.NewValidNullableUUID(u)`. -/
def NewValidNullableUUID (u : UUID) : NullableUUID := ⟨u, true⟩

/-- Modelled from the spec: `types.NewNullableUUID(u, valid)`. -/
def NewNullableUUID (u : UUID) (valid : Bool) : NullableUUID := ⟨u, valid⟩

/-- The `*time.Location` of a `time.Time`: `time.UTC`, or any other zone, of which
only the offset from UTC (in minutes) shows in the text form. -/
inductive Location where
  | utc
  | fixed (offsetMinutes : Int)
  deriving DecidableEq

/-- A `time.Time` as its wall-clock reading in its own location. -/
structure Time where
  year : Nat
  month : Nat
  day : Nat
  hour : Nat
  minute : Nat
  second : Nat
  nano : Nat
  loc : Location
  deriving DecidableEq

/-- The zero `time.Time` (January 1, year 1, 00:00:00 UTC). -/
def Time.zero : Time := ⟨1, 1, 1, 0, 0, 0, 0, .utc⟩

/-- The method `Time.Location`. -/
def Time.Location (t : Time) : Location := t.loc

/-- A reading of the wall clock, as civil date and time of day in UTC. -/
structure WallClock where
  year : Nat
  month : Nat
  day : Nat
  hour : Nat
  minute : Nat
  second : Nat
  nano : Nat
  deriving DecidableEq

/-- The expression `time.Now().UTC()` when the clock reads `w`. -/
def nowUTC (w : WallClock) : Time :=
  ⟨w.year, w.month, w.day, w.hour, w.minute, w.second, w.nano, .utc⟩

/-! ## JSON syntax (package `encoding/json`)

The library's scanner, as a recursive-descent recogniser of the RFC 8259 grammar that
also produces the compacted text of the value it reads: insignificant whitespace
dropped and, as `json.Marshal` asks of `compact`, the characters `<`, `>`, `&`,
U+2028 and U+2029 written as `\u` escapes. The scanner's cap on nesting depth
(`maxNestingDepth`) is the `depth` argument: the number of objects and arrays open
around the value being read. -/

/-- JSON insignificant whitespace: space, tab, carriage return, line feed. -/
def isSpace (c : Char) : Bool := c = ' ' || c = '\t' || c = '\r' || c = '\n'

/-- Drops leading insignificant whitespace. -/
def skipSpace : Text → Text
  | [] => []
  | c :: r => if isSpace c then skipSpace r else c :: r

/-- A decimal digit. -/
def isDigit (c : Char) : Bool := '0'.toNat ≤ c.toNat && c.toNat ≤ '9'.toNat

/-- A hexadecimal digit, either case. -/
def isHex (c : Char) : Bool :=
  isDigit c || ('a'.toNat ≤ c.toNat && c.toNat ≤ 'f'.toNat)
    || ('A'.toNat ≤ c.toNat && c.toNat ≤ 'F'.toNat)

/-- What `compact` with HTML escaping writes for one character. -/
def compactChar (c : Char) : Text :=
  if c = '<' then ['\\', 'u', '0', '0', '3', 'c']
  else if c = '>' then ['\\', 'u', '0', '0', '3', 'e']
  else if c = '&' then ['\\', 'u', '0', '0', '2', '6']
  else if c.toNat = 0x2028 then ['\\', 'u', '2', '0', '2', '8']
  else if c.toNat = 0x2029 then ['\\', 'u', '2', '0', '2', '9']
  else [c]

/-- Prepends output to a scan result. -/
def emit (out : Text) : Option (Text × Text) → Option (Text × Text)
  | some (o, r) => some (out ++ o, r)
  | none => none

/-- Scans the rest of a string literal, after its opening quote, up to and including
the closing quote. Control characters and malformed escapes are rejected. -/
def scanString : Text → Option (Text × Text)
  | [] => none
  | c :: r =>
    if c = '"' then some (['"'], r)
    else if c = '\\' then
      match r with
      | [] => none
      | e :: r1 =>
        if e = '"' || e = '\\' || e = '/' || e = 'b' || e = 'f' || e = 'n' || e = 'r'
            || e = 't' then
          emit ['\\', e] (scanString r1)
        else if e = 'u' then
          match r1 with
          | h1 :: h2 :: h3 :: h4 :: r2 =>
            if isHex h1 && isHex h2 && isHex h3 && isHex h4 then
              emit ['\\', 'u', h1, h2, h3, h4] (scanString r2)
            else none
          | _ => none
        else none
    else if c.toNat < 0x20 then none
    else emit (compactChar c) (scanString r)

/-- Splits off the leading run of decimal digits. -/
def spanDigits : Text → Text × Text
  | [] => ([], [])
  | c :: r => if isDigit c then ((spanDigits r).1.cons c, (spanDigits r).2) else ([], c :: r)

/-- The optional exponent part of a number. -/
def scanExp (acc : Text) (s : Text) : Option (Text × Text) :=
  match s with
  | [] => some (acc, [])
  | e :: r =>
    if e = 'e' || e = 'E' then
      match r with
      | [] => none
      | g :: r1 =>
        if g = '+' || g = '-' then
          if (spanDigits r1).1 = [] then none
          else some (acc ++ e :: g :: (spanDigits r1).1, (spanDigits r1).2)
        else if (spanDigits r).1 = [] then none
        else some (acc ++ e :: (spanDigits r).1, (spanDigits r).2)
    else some (acc, s)

/-- The optional fraction part of a number, then the exponent. -/
def scanFrac (acc : Text) (s : Text) : Option (Text × Text) :=
  match s with
  | [] => some (acc, [])
  | d :: r =>
    if d = '.' then
      if (spanDigits r).1 = [] then none
      else scanExp (acc ++ '.' :: (spanDigits r).1) (spanDigits r).2
    else scanExp acc s

/-- The integer part of a number after the optional sign: `0`, or a non-zero digit
followed by digits. -/
def scanInt (acc : Text) (s : Text) : Option (Text × Text) :=
  match s with
  | [] => none
  | c :: r =>
    if c = '0' then scanFrac (acc ++ ['0']) r
    else if isDigit c then scanFrac (acc ++ c :: (spanDigits r).1) (spanDigits r).2
    else none

/-- A JSON number. -/
def scanNumber (s : Text) : Option (Text × Text) :=
  match s with
  | [] => none
  | c :: r => if c = '-' then scanInt ['-'] r else scanInt [] s

/-- Expects the literal `lit` at the head of the input. -/
def scanLiteral (lit : Text) (s : Text) : Option (Text × Text) :=
  if hasPrefix s lit then some (lit, s.drop lit.length) else none

/-- The constant `maxNestingDepth` of the scanner: opening an object or array when
this many are already open is the error "exceeded max depth". -/
def maxNestingDepth : Nat := 10000

mutual
/-- Scans one JSON value at the head of the input (no leading whitespace), with `depth`
objects and arrays open around it, and returns its compacted text and the rest of the
input. -/
def scanValue : Nat → Nat → Text → Option (Text × Text)
  | 0, _, _ => none
  | _ + 1, _, [] => none
  | fuel + 1, depth, c :: r =>
    if c = '"' then emit ['"'] (scanString r)
    else if c = '{' then
      if depth < maxNestingDepth then
        match skipSpace r with
        | [] => none
        | d :: r1 =>
          if d = '}' then some (['{', '}'], r1)
          else emit ['{'] (scanMembers fuel (depth + 1) (d :: r1))
      else none
    else if c = '[' then
      if depth < maxNestingDepth then
        match skipSpace r with
        | [] => none
        | d :: r1 =>
          if d = ']' then some (['[', ']'], r1)
          else emit ['['] (scanElements fuel (depth + 1) (d :: r1))
      else none
    else if c = 't' then scanLiteral ['t', 'r', 'u', 'e'] (c :: r)
    else if c = 'f' then scanLiteral ['f', 'a', 'l', 's', 'e'] (c :: r)
    else if c = 'n' then scanLiteral ['n', 'u', 'l', 'l'] (c :: r)
    else scanNumber (c :: r)
/-- Scans the members of a non-empty object, from its first key (no leading
whitespace) to the closing brace; `depth` counts the object itself. -/
def scanMembers : Nat → Nat → Text → Option (Text × Text)
  | 0, _, _ => none
  | _ + 1, _, [] => none
  | fuel + 1, depth, c :: r =>
    if c = '"' then
      match scanString r with
      | none => none
      | some (key, r1) =>
        match skipSpace r1 with
        | [] => none
        | d :: r2 =>
          if d = ':' then
            match scanValue fuel depth (skipSpace r2) with
            | none => none
            | some (val, r3) =>
              match skipSpace r3 with
              | [] => none
              | e :: r4 =>
                if e = '}' then some ('"' :: key ++ ':' :: val ++ ['}'], r4)
                else if e = ',' then
                  emit ('"' :: key ++ ':' :: val ++ [','])
                    (scanMembers fuel depth (skipSpace r4))
                else none
          else none
    else none
/-- Scans the elements of a non-empty array, from its first element (no leading
whitespace) to the closing bracket; `depth` counts the array itself. -/
def scanElements : Nat → Nat → Text → Option (Text × Text)
  | 0, _, _ => none
  | fuel + 1, depth, s =>
    match scanValue fuel depth s with
    | none => none
    | some (val, r1) =>
      match skipSpace r1 with
      | [] => none
      | e :: r2 =>
        if e = ']' then some (val ++ [']'], r2)
        else if e = ',' then emit (val ++ [',']) (scanElements fuel depth (skipSpace r2))
        else none
end

/-- Scans a whole text as one value with `depth` objects and arrays open around it:
optional whitespace, one value, optional whitespace, end of input. Returns the
compacted text of the value. -/
def scanDocumentAt (depth : Nat) (s : Text) : Option Text :=
  match scanValue (s.length + 1) depth (skipSpace s) with
  | none => none
  | some (out, r) => if skipSpace r = [] then some out else none

/-- Scans a whole document: optional whitespace, one value, optional whitespace, end
of input. Returns the compacted text of the value. -/
def scanDocument (s : Text) : Option Text :=
  match scanValue (s.length + 1) 0 (skipSpace s) with
  | none => none
  | some (out, r) => if skipSpace r = [] then some out else none

/-- The Go function `json.Valid`. -/
def jsonValid (s : Text) : Bool := (scanDocument s).isSome

/-! ## The event envelope (`internal/platform/event/event.go`) -/

/-- The type `EventType`. -/
abbrev EventType := String

/-- The type `EventVersion`. -/
abbrev EventVersion := String

/-- The type `json.RawMessage`: `none` is the nil slice. -/
abbrev RawMessage := Option Text

/-- The struct `EventHeader`. -/
structure EventHeader where
  EventID : UUID
  EventType : EventType
  Timestamp : Time
  Source : String
  SchemaVersion : EventVersion
  deriving DecidableEq

/-- The struct `EventContext`. -/
structure EventContext where
  CorrelationID : UUID
  UserID : NullableUUID
  deriving DecidableEq

/-- The struct `EventMetadata`. -/
structure EventMetadata where
  TraceID : UUID
  PreviousEventID : NullableUUID
  CausationID : NullableUUID
  deriving DecidableEq

/-- The struct `EventInput`. -/
structure EventInput where
  EventType : EventType
  EventVersion : EventVersion
  Source : String
  CorrelationID : UUID
  UserID : NullableUUID
  TraceID : UUID
  PreviousEventID : NullableUUID
  CausationID : NullableUUID
  Payload : RawMessage
  deriving DecidableEq

/-- The struct `Event`. -/
structure Event where
  Header : EventHeader
  Context : EventContext
  Metadata : EventMetadata
  Payload : RawMessage
  deriving DecidableEq

/-- The zero value `Event{}`. -/
def Event.zero : Event :=
  { Header := ⟨UUID.Nil, "", Time.zero, "", ""⟩
    Context := ⟨UUID.Nil, NewNullUUID⟩
    Metadata := ⟨UUID.Nil, NewNullUUID, NewNullUUID⟩
    Payload := none }

/-- What a call of the envelope constructors takes from its environment: the outcome
of `types.NewUUID()` and the reading of the clock. -/
structure Env where
  newUUID : Except GoError UUID
  clock : WallClock

/-- The function `NewEventHeader`. -/
def NewEventHeader (env : Env) (eventType : EventType) (eventVersion : EventVersion)
    (source : String) : Except GoError EventHeader :=
  match env.newUUID with
  | .error err => .error (.wrap "failed to generate event header id" err)
  | .ok eventID =>
    .ok { EventID := eventID
          EventType := eventType
          Timestamp := nowUTC env.clock
          Source := source
          SchemaVersion := eventVersion }

/-- The function `NewEventContext`. -/
def NewEventContext (correlationID : UUID) (userID : NullableUUID) : EventContext :=
  { CorrelationID := correlationID, UserID := userID }

/-- The function `NewEventMetadata`. -/
def NewEventMetadata (traceID : UUID) (previousEventID causationID : NullableUUID) :
    EventMetadata :=
  { TraceID := traceID, PreviousEventID := previousEventID, CausationID := causationID }

/-- Whether a raw message is syntactically valid JSON; the nil slice is not. -/
def RawMessage.valid : RawMessage → Bool
  | none => false
  | some p => jsonValid p

/-- The function `NewEvent`. -/
def NewEvent (env : Env) (input : EventInput) : Except GoError Event :=
  if input.EventType = "" then .error (.new "event type cannot be empty")
  else if input.Source = "" then .error (.new "event source cannot be empty")
  else if input.EventVersion = "" then .error (.new "event version cannot be empty")
  else if input.CorrelationID.IsNil then .error (.new "correlation ID cannot be empty")
  else if input.TraceID.IsNil then .error (.new "trace ID cannot be empty")
  else match input.Payload with
    | none => .error (.new "event payload cannot be empty")
    | some p =>
      if !jsonValid p then .error (.new "event payload must be valid JSON")
      else
        match NewEventHeader env input.EventType input.EventVersion input.Source with
        | .error err => .error (.wrap "failed to create event" err)
        | .ok header =>
          .ok { Header := header
                Context := NewEventContext input.CorrelationID input.UserID
                Metadata := NewEventMetadata input.TraceID input.PreviousEventID
                  input.CausationID
                Payload := input.Payload }

/-! ## Text forms of numbers, identifiers and times -/

/-- The character of a digit value below 16 (lower-case hexadecimal). -/
def digitChar (d : Nat) : Char :=
  if d < 10 then Char.ofNat (48 + d) else Char.ofNat (87 + d)

/-- The value of a decimal digit character. -/
def decVal (c : Char) : Option Nat :=
  if isDigit c then some (c.toNat - 48) else none

/-- The value of a hexadecimal digit character, either case. -/
def hexVal (c : Char) : Option Nat :=
  if isDigit c then some (c.toNat - 48)
  else if 'a'.toNat ≤ c.toNat && c.toNat ≤ 'f'.toNat then some (c.toNat - 87)
  else if 'A'.toNat ≤ c.toNat && c.toNat ≤ 'F'.toNat then some (c.toNat - 55)
  else none

/-- The number `n` written with exactly `width` digits in the given base, most
significant digit first. -/
def digitsFixed (base : Nat) : Nat → Nat → Text
  | 0, _ => []
  | w + 1, n => digitChar (n / base ^ w % base) :: digitsFixed base w n

/-- Reads exactly `width` digits in the given base and returns their value, continued
from `acc`, with the rest of the input. -/
def readDigits (val : Char → Option Nat) (base : Nat) : Nat → Nat → Text → Option (Nat × Text)
  | 0, acc, s => some (acc, s)
  | _ + 1, _, [] => none
  | w + 1, acc, c :: r =>
    match val c with
    | some d => readDigits val base w (acc * base + d) r
    | none => none

/-- Expects the character `c` at the head of the input. -/
def expectChar (c : Char) : Text → Option Text
  | [] => none
  | d :: r => if d = c then some r else none

/-- Modelled from the spec: `UUID.String`, the canonical text form
`xxxxxxxx-xxxx-xxxx-xxxx-xxxxxxxxxxxx` in lower-case hexadecimal. -/
def UUID.String (u : UUID) : Text :=
  digitsFixed 16 8 u.timeLow.val ++ '-' :: digitsFixed 16 4 u.timeMid.val
    ++ '-' :: digitsFixed 16 4 u.timeHiAndVersion.val
    ++ '-' :: digitsFixed 16 4 u.clockSeq.val ++ '-' :: digitsFixed 16 12 u.node.val

/-- Modelled from the spec: `types.ParseUUID`, reading the canonical text form (either
case of the hexadecimal digits); any other text is an error. -/
def ParseUUID (s : Text) : Option UUID :=
  match readDigits hexVal 16 8 0 s with
  | none => none
  | some (a, s1) =>
  match expectChar '-' s1 with
  | none => none
  | some s2 =>
  match readDigits hexVal 16 4 0 s2 with
  | none => none
  | some (b, s3) =>
  match expectChar '-' s3 with
  | none => none
  | some s4 =>
  match readDigits hexVal 16 4 0 s4 with
  | none => none
  | some (c, s5) =>
  match expectChar '-' s5 with
  | none => none
  | some s6 =>
  match readDigits hexVal 16 4 0 s6 with
  | none => none
  | some (d, s7) =>
  match expectChar '-' s7 with
  | none => none
  | some s8 =>
  match readDigits hexVal 16 12 0 s8 with
  | none => none
  | some (e, s9) =>
    if s9 = [] then
      if h : a < 16 ^ 8 ∧ b < 16 ^ 4 ∧ c < 16 ^ 4 ∧ d < 16 ^ 4 ∧ e < 16 ^ 12 then
        some ⟨⟨a, h.1⟩, ⟨b, h.2.1⟩, ⟨c, h.2.2.1⟩, ⟨d, h.2.2.2.1⟩, ⟨e, h.2.2.2.2⟩⟩
      else none
    else none

/-- Whether a year is a leap year of the Gregorian calendar. -/
def isLeap (year : Nat) : Bool := year % 4 = 0 && (year % 100 ≠ 0 || year % 400 = 0)

/-- The number of days of a month (1 to 12) of a year; 0 for any other month. -/
def daysIn (month year : Nat) : Nat :=
  if month = 2 then (if isLeap year then 29 else 28)
  else if month = 4 || month = 6 || month = 9 || month = 11 then 30
  else if 1 ≤ month && month ≤ 12 then 31
  else 0

/-- A wall-clock reading that exists: the date is a date of the calendar, the time of
day is in range, and a zone offset is less than a day. -/
def Time.wellFormed (t : Time) : Bool :=
  1 ≤ t.month && t.month ≤ 12 && 1 ≤ t.day && t.day ≤ daysIn t.month t.year
    && t.hour < 24 && t.minute < 60 && t.second < 60 && t.nano < 1000000000
    && (match t.loc with
        | .utc => true
        | .fixed off => off.natAbs < 24 * 60)

/-- Drops the trailing zeros of a digit string. -/
def trimZeros (s : Text) : Text :=
  (s.reverse.dropWhile (fun c => c = '0')).reverse

/-- The fractional-second part of the layout `RFC3339Nano`: nothing when the
nanoseconds are zero, else a dot and the nine digits without trailing zeros. -/
def formatFraction (nano : Nat) : Text :=
  if nano % 1000000000 = 0 then [] else '.' :: trimZeros (digitsFixed 10 9 nano)

/-- The zone part of the layout `RFC3339Nano`: `Z` for a zero offset, else the signed
offset as `hh:mm`. -/
def formatZone : Location → Text
  | .utc => ['Z']
  | .fixed off =>
    if off = 0 then ['Z']
    else (if off < 0 then '-' else '+') :: digitsFixed 10 2 (off.natAbs / 60)
      ++ ':' :: digitsFixed 10 2 (off.natAbs % 60)

/-- The time in the layout `time.RFC3339Nano`. -/
def formatRFC3339Nano (t : Time) : Text :=
  digitsFixed 10 4 t.year ++ '-' :: digitsFixed 10 2 t.month ++ '-' :: digitsFixed 10 2 t.day
    ++ 'T' :: digitsFixed 10 2 t.hour ++ ':' :: digitsFixed 10 2 t.minute
    ++ ':' :: digitsFixed 10 2 t.second ++ formatFraction t.nano ++ formatZone t.loc

/-- The value in nanoseconds of the digits after the decimal point: the first nine
count, shorter runs are scaled up. -/
def fractionValue : Nat → Nat → Text → Nat
  | 0, acc, _ => acc
  | w + 1, acc, [] => fractionValue w (acc * 10) []
  | w + 1, acc, c :: r => fractionValue w (acc * 10 + (c.toNat - 48)) r

/-- Reads the optional fractional second: a dot followed by at least one digit. -/
def readFraction (s : Text) : Nat × Text :=
  match s with
  | [] => (0, [])
  | c :: r =>
    if c = '.' && (spanDigits r).1 ≠ [] then (fractionValue 9 0 (spanDigits r).1, (spanDigits r).2)
    else (0, s)

/-- Reads the zone: `Z`, or a signed offset `hh:mm` with the hour at most 23 and the
minute at most 59, and nothing after it. -/
def readZone (s : Text) : Option Location :=
  match s with
  | [] => none
  | c :: r =>
    if c = 'Z' then (if r = [] then some .utc else none)
    else if c = '+' || c = '-' then
      match readDigits decVal 10 2 0 r with
      | none => none
      | some (hh, r1) =>
      match expectChar ':' r1 with
      | none => none
      | some r2 =>
      match readDigits decVal 10 2 0 r2 with
      | none => none
      | some (mm, r3) =>
        if r3 = [] && hh ≤ 23 && mm ≤ 59 then
          some (.fixed (if c = '-' then - ((hh * 60 + mm : Nat) : Int) else ((hh * 60 + mm : Nat) : Int)))
        else none
    else none

/-- The library's function `parseRFC3339`, the strict fast path that
`parseStrictRFC3339` tries first. -/
def parseRFC3339 (s : Text) : Option Time :=
  match readDigits decVal 10 4 0 s with
  | none => none
  | some (year, s1) =>
  match expectChar '-' s1 with
  | none => none
  | some s2 =>
  match readDigits decVal 10 2 0 s2 with
  | none => none
  | some (month, s3) =>
  match expectChar '-' s3 with
  | none => none
  | some s4 =>
  match readDigits decVal 10 2 0 s4 with
  | none => none
  | some (day, s5) =>
  match expectChar 'T' s5 with
  | none => none
  | some s6 =>
  match readDigits decVal 10 2 0 s6 with
  | none => none
  | some (hour, s7) =>
  match expectChar ':' s7 with
  | none => none
  | some s8 =>
  match readDigits decVal 10 2 0 s8 with
  | none => none
  | some (minute, s9) =>
  match expectChar ':' s9 with
  | none => none
  | some s10 =>
  match readDigits decVal 10 2 0 s10 with
  | none => none
  | some (second, s11) =>
  match readZone (readFraction s11).2 with
  | none => none
  | some loc =>
    if 1 ≤ month && month ≤ 12 && 1 ≤ day && day ≤ daysIn month year && hour < 24
        && minute < 60 && second < 60 then
      some ⟨year, month, day, hour, minute, second, (readFraction s11).1, loc⟩
    else none

/-- The library's function `getnum`: one or two leading digits, two being required
when `fixed` is set. -/
def getnum (s : Text) (fixed : Bool) : Option (Nat × Text) :=
  match s with
  | [] => none
  | c :: r =>
    if isDigit c then
      match r with
      | [] => if fixed then none else some (c.toNat - 48, [])
      | d :: r1 =>
        if isDigit d then some ((c.toNat - 48) * 10 + (d.toNat - 48), r1)
        else if fixed then none else some (c.toNat - 48, d :: r1)
    else none

/-- The fractional second `time.Parse` reads after the seconds of the layout
`RFC3339`, which has none: a comma or a period followed by at least one digit; all the
digits are consumed and the first nine count. -/
def readLayoutFraction (s : Text) : Nat × Text :=
  match s with
  | [] => (0, [])
  | c :: r =>
    if (c = '.' || c = ',') && (spanDigits r).1 ≠ [] then
      (fractionValue 9 0 (spanDigits r).1, (spanDigits r).2)
    else (0, s)

/-- The zone `time.Parse` reads for the layout element `Z07:00`: `Z`, or a sign, two
digits, a colon and two digits; the hour may be up to 24 and the minute up to 60.
Nothing may follow. -/
def readLayoutZone (s : Text) : Option Location :=
  match s with
  | [] => none
  | c :: r =>
    if c = 'Z' then (if r = [] then some .utc else none)
    else
      match r with
      | h1 :: h2 :: colon :: m1 :: m2 :: rest =>
        if colon = ':' then
          match getnum [h1, h2] true with
          | none => none
          | some (hr, _) =>
            match getnum [m1, m2] true with
            | none => none
            | some (mm, _) =>
              if hr > 24 || mm > 60 then none
              else if c = '+' then
                (if rest = [] then some (.fixed ((hr * 60 + mm : Nat) : Int)) else none)
              else if c = '-' then
                (if rest = [] then some (.fixed (- ((hr * 60 + mm : Nat) : Int))) else none)
              else none
        else none
      | _ => none

/-- The call `time.Parse(time.RFC3339, s)`: the layout `2006-01-02T15:04:05Z07:00` read
element by element. The year has four digits; month, day, minute and second two; the
hour one or two; a fractional second may follow the seconds after a period or a comma;
the day is checked against the month once everything is read. -/
def parseLayoutRFC3339 (s : Text) : Option Time :=
  match readDigits decVal 10 4 0 s with
  | none => none
  | some (year, s1) =>
  match expectChar '-' s1 with
  | none => none
  | some s2 =>
  match getnum s2 true with
  | none => none
  | some (month, s3) =>
  if month = 0 || 12 < month then none else
  match expectChar '-' s3 with
  | none => none
  | some s4 =>
  match getnum s4 true with
  | none => none
  | some (day, s5) =>
  match expectChar 'T' s5 with
  | none => none
  | some s6 =>
  match getnum s6 false with
  | none => none
  | some (hour, s7) =>
  if 24 ≤ hour then none else
  match expectChar ':' s7 with
  | none => none
  | some s8 =>
  match getnum s8 true with
  | none => none
  | some (minute, s9) =>
  if 60 ≤ minute then none else
  match expectChar ':' s9 with
  | none => none
  | some s10 =>
  match getnum s10 true with
  | none => none
  | some (second, s11) =>
  if 60 ≤ second then none else
  match readLayoutZone (readLayoutFraction s11).2 with
  | none => none
  | some loc =>
    if day < 1 || day > daysIn month year then none
    else some ⟨year, month, day, hour, minute, second, (readLayoutFraction s11).1, loc⟩

/-- The library's function `parseStrictRFC3339`, which `Time.UnmarshalJSON` calls: the
fast path, and when it fails `time.Parse` with the layout `RFC3339`, whose result is
returned as it is (the stricter checks that follow in the library are behind a
`case true` that returns first). -/
def parseStrictRFC3339 (s : Text) : Option Time :=
  match parseRFC3339 s with
  | some t => some t
  | none => parseLayoutRFC3339 s

/-- Equality of results is decidable. -/
instance instDecidableEqExcept {ε α : Type} [DecidableEq ε] [DecidableEq α] :
    DecidableEq (Except ε α)
  | .ok a, .ok b =>
    if h : a = b then isTrue (by rw [h]) else isFalse (fun h1 => h (Except.ok.inj h1))
  | .error a, .error b =>
    if h : a = b then isTrue (by rw [h]) else isFalse (fun h1 => h (Except.error.inj h1))
  | .ok _, .error _ => isFalse (fun h => Except.noConfusion h)
  | .error _, .ok _ => isFalse (fun h => Except.noConfusion h)

/-! ## JSON encoding of values (`json.Marshal`) -/

/-- What the encoder writes for one character of a string (HTML escaping on, as in
`json.Marshal`): quote and backslash escaped, the control characters as `\b`, `\f`,
`\n`, `\r`, `\t` or `\u00XX`, and `<`, `>`, `&`, U+2028, U+2029 as `\uXXXX`. -/
def escapeChar (c : Char) : Text :=
  if c = '"' then ['\\', '"']
  else if c = '\\' then ['\\', '\\']
  else if c.toNat = 8 then ['\\', 'b']
  else if c.toNat = 12 then ['\\', 'f']
  else if c = '\n' then ['\\', 'n']
  else if c = '\r' then ['\\', 'r']
  else if c = '\t' then ['\\', 't']
  else if c.toNat < 0x20 || c = '<' || c = '>' || c = '&' || c.toNat = 0x2028
      || c.toNat = 0x2029 then
    '\\' :: 'u' :: digitsFixed 16 4 c.toNat
  else [c]

/-- The escaped body of a string. -/
def escapeText : Text → Text
  | [] => []
  | c :: r => escapeChar c ++ escapeText r

/-- A Go string as a JSON string literal. -/
def encodeString (s : Text) : Text := '"' :: escapeText s ++ ['"']

/-- Modelled from the spec: the JSON form of a `types.UUID`, its canonical text as a
string. -/
def marshalUUID (u : UUID) : Text := '"' :: u.String ++ ['"']

/-- Modelled from the spec: the JSON form of a `types.NullableUUID`, the UUID string
when valid and `null` when not. -/
def marshalNullableUUID (n : NullableUUID) : Text :=
  if n.Valid then marshalUUID n.UUID else ['n', 'u', 'l', 'l']

/-- The library's `isEmptyValue` at a `types.NullableUUID`. It decides whether a field
tagged `omitempty` is left out: false, 0, a nil pointer or interface and an empty
array, slice, map or string are empty; a value of struct kind, as here, never is. -/
def NullableUUID.isEmptyValue (_ : NullableUUID) : Bool := false

/-- The method `Time.MarshalJSON`: the quoted `RFC3339Nano` text; an error when the
year is outside `[0,9999]` or the zone offset is a day or more. -/
def marshalTime (t : Time) : Except GoError Text :=
  if t.year ≤ 9999 then
    if (match t.loc with
        | .utc => true
        | .fixed off => decide (off.natAbs < 24 * 60)) then
      .ok ('"' :: formatRFC3339Nano t ++ ['"'])
    else .error (.new "Time.MarshalJSON: timezone hour outside of range [0,23]")
  else .error (.new "Time.MarshalJSON: year outside of range [0,9999]")

/-- The encoding of a `json.RawMessage`: `null` for the nil slice, else the compacted
text, and an error when the text is not valid JSON. -/
def marshalRawMessage : RawMessage → Except GoError Text
  | none => .ok ['n', 'u', 'l', 'l']
  | some p =>
    match scanDocument p with
    | some out => .ok out
    | none => .error (.new "json: error calling MarshalJSON for type json.RawMessage")

/-- The members of a JSON object as the encoder writes the fields of a struct: each
field's JSON name and encoding, in order, separated by commas and closed by a brace. -/
def renderMembers : List (String × Text) → Text
  | [] => ['}']
  | (k, v) :: rest =>
    '"' :: k.data ++ '"' :: ':' :: v
      ++ (match rest with
          | [] => ['}']
          | _ :: _ => ',' :: renderMembers rest)

/-- The JSON object the encoder writes for a struct with the given fields. -/
def renderObject (fields : List (String × Text)) : Text := '{' :: renderMembers fields

/-- The encoding of an `EventHeader`, following its field tags. -/
def marshalEventHeader (h : EventHeader) : Except GoError Text :=
  match marshalTime h.Timestamp with
  | .error err => .error err
  | .ok ts =>
    .ok (renderObject
      [("eventId", marshalUUID h.EventID),
       ("eventType", encodeString h.EventType.data),
       ("timestamp", ts),
       ("source", encodeString h.Source.data),
       ("jsonSchemaVersion", encodeString h.SchemaVersion.data)])

/-- The encoding of an `EventContext`, following its field tags: `userId` is tagged
`omitempty`. -/
def marshalEventContext (c : EventContext) : Text :=
  renderObject
    (("correlationId", marshalUUID c.CorrelationID)
      :: (if c.UserID.isEmptyValue then []
          else [("userId", marshalNullableUUID c.UserID)]))

/-- The encoding of an `EventMetadata`, following its field tags: `previousEventId`
and `causationId` are tagged `omitempty`. -/
def marshalEventMetadata (m : EventMetadata) : Text :=
  renderObject
    (("traceId", marshalUUID m.TraceID)
      :: (if m.PreviousEventID.isEmptyValue then []
          else [("previousEventId", marshalNullableUUID m.PreviousEventID)])
      ++ (if m.CausationID.isEmptyValue then []
          else [("causationId", marshalNullableUUID m.CausationID)]))

/-- The call `json.Marshal(evt)` on an `Event`. -/
def jsonMarshalEvent (e : Event) : Except GoError Text :=
  match marshalEventHeader e.Header with
  | .error err => .error err
  | .ok header =>
    match marshalRawMessage e.Payload with
    | .error err => .error err
    | .ok payload =>
      .ok (renderObject
        [("header", header),
         ("context", marshalEventContext e.Context),
         ("metadata", marshalEventMetadata e.Metadata),
         ("payload", payload)])

/-! ## JSON decoding of values (`json.Unmarshal`) -/

/-- The character an escape letter stands for. -/
def unescape (e : Char) : Option Char :=
  if e = '"' || e = '\\' || e = '/' then some e
  else if e = 'b' then some (Char.ofNat 8)
  else if e = 'f' then some (Char.ofNat 12)
  else if e = 'n' then some '\n'
  else if e = 'r' then some '\r'
  else if e = 't' then some '\t'
  else none

/-- The value of four hexadecimal digits. -/
def hex4 (h1 h2 h3 h4 : Char) : Option Nat :=
  match hexVal h1, hexVal h2, hexVal h3, hexVal h4 with
  | some a, some b, some c, some d => some (((a * 16 + b) * 16 + c) * 16 + d)
  | _, _, _, _ => none

/-- Puts a decoded character in front of a decoded string. -/
def consChar (c : Char) : Option (Text × Text) → Option (Text × Text)
  | some (s, r) => some (c :: s, r)
  | none => none

/-- Closes a pending high surrogate half that no low half followed: it decodes to
U+FFFD. -/
def flushPending (pending : Option Nat) (res : Option (Text × Text)) : Option (Text × Text) :=
  match pending with
  | none => res
  | some _ => consChar (Char.ofNat 0xFFFD) res

/-- Decodes the rest of a string literal, after its opening quote: returns the string
and the input after the closing quote. `pending` holds the high surrogate half a
`\u` escape has just named: a `\u` escape of a low half right after it completes the
pair, anything else makes the half decode to U+FFFD, as does a low half on its own. -/
def readStringFrom (pending : Option Nat) : Text → Option (Text × Text)
  | [] => none
  | c :: r =>
    if c = '"' then flushPending pending (some ([], r))
    else if c = '\\' then
      match r with
      | [] => none
      | e :: r1 =>
        if e = 'u' then
          match r1 with
          | h1 :: h2 :: h3 :: h4 :: r2 =>
            match hex4 h1 h2 h3 h4 with
            | none => none
            | some v =>
              if 0xDC00 ≤ v && v < 0xE000 then
                match pending with
                | some hi =>
                  consChar (Char.ofNat (0x10000 + (hi - 0xD800) * 0x400 + (v - 0xDC00)))
                    (readStringFrom none r2)
                | none => consChar (Char.ofNat 0xFFFD) (readStringFrom none r2)
              else if 0xD800 ≤ v && v < 0xDC00 then
                flushPending pending (readStringFrom (some v) r2)
              else flushPending pending (consChar (Char.ofNat v) (readStringFrom none r2))
          | _ => none
        else
          match unescape e with
          | some d => flushPending pending (consChar d (readStringFrom none r1))
          | none => none
    else if c.toNat < 0x20 then none
    else flushPending pending (consChar c (readStringFrom none r))

/-- Decodes the rest of a string literal, after its opening quote. -/
def readString (s : Text) : Option (Text × Text) := readStringFrom none s

/-- The text of the JSON value at the head of the input, verbatim, and the rest of the
input. -/
def rawValue (s : Text) : Option (Text × Text) :=
  match scanValue (s.length + 1) 0 s with
  | some (_, rest) => some (s.take (s.length - rest.length), rest)
  | none => none

/-- The library's folding of one character of an object key: ASCII letters to lower
case, and the two non-ASCII characters that fold to an ASCII letter (the Kelvin sign
and the long s). -/
def foldChar (c : Char) : Char :=
  if 'A'.toNat ≤ c.toNat && c.toNat ≤ 'Z'.toNat then Char.ofNat (c.toNat + 32)
  else if c.toNat = 0x212A then 'k'
  else if c.toNat = 0x17F then 's'
  else c

/-- Whether an object key names the struct field with the given JSON name: the match
is exact or case-insensitive. -/
def keyMatches (key : Text) (name : String) : Bool :=
  key.map foldChar = name.data.map foldChar

/-- The error of a JSON value that does not fit the Go type it is decoded into. -/
def unmarshalTypeError (goType : String) : GoError :=
  .new ("json: cannot unmarshal value into Go value of type " ++ goType)

/-- The error of malformed JSON text. -/
def syntaxError : GoError := .new "json: syntax error"

/-- Decodes the members of an object into a struct value: `dec key` is the decoder of
the field an object key names, applied to the text of the member's value; members
naming no field are skipped, and a key met twice is decoded twice. The input starts at
the first key. -/
def decodeMembers {α : Type} (dec : Text → Option (Text → α → Except GoError α)) :
    Nat → Text → α → Except GoError α
  | 0, _, _ => .error syntaxError
  | _ + 1, [], _ => .error syntaxError
  | fuel + 1, c :: r, a =>
    if c = '"' then
      match readString r with
      | none => .error syntaxError
      | some (key, r1) =>
        match skipSpace r1 with
        | [] => .error syntaxError
        | d :: r2 =>
          if d = ':' then
            match rawValue (skipSpace r2) with
            | none => .error syntaxError
            | some (raw, r3) =>
              match (match dec key with
                     | some f => f raw a
                     | none => .ok a) with
              | .error err => .error err
              | .ok a1 =>
                match skipSpace r3 with
                | [] => .error syntaxError
                | e :: r4 =>
                  if e = ',' then decodeMembers dec fuel (skipSpace r4) a1
                  else if e = '}' then .ok a1
                  else .error syntaxError
          else .error syntaxError
    else .error syntaxError

/-- Decodes a JSON value into a struct value: an object fills the fields its keys
name, `null` leaves the value as it is, anything else is a type error. -/
def decodeStruct {α : Type} (goType : String)
    (dec : Text → Option (Text → α → Except GoError α)) (raw : Text) (a : α) :
    Except GoError α :=
  match raw with
  | [] => .error syntaxError
  | c :: r =>
    if c = '{' then
      match skipSpace r with
      | [] => .error syntaxError
      | d :: r1 => if d = '}' then .ok a else decodeMembers dec (r1.length + 1) (d :: r1) a
    else if c = 'n' then .ok a
    else .error (unmarshalTypeError goType)

/-- Decodes a JSON value into a Go string: a string literal is decoded, `null` leaves
the value as it is, anything else is a type error. -/
def decodeString (raw : Text) (cur : String) : Except GoError String :=
  match raw with
  | [] => .error syntaxError
  | c :: r =>
    if c = '"' then
      match readString r with
      | some (s, _) => .ok (String.mk s)
      | none => .error syntaxError
    else if c = 'n' then .ok cur
    else .error (unmarshalTypeError "string")

/-- The method `Time.UnmarshalJSON`: `null` leaves the value as it is; otherwise the
text between the quotes, taken verbatim, is handed to `parseStrictRFC3339`. -/
def decodeTime (raw : Text) (cur : Time) : Except GoError Time :=
  if raw = ['n', 'u', 'l', 'l'] then .ok cur
  else
    match raw with
    | [] => .error syntaxError
    | c :: r =>
      if c = '"' && r.getLast? = some '"' then
        match parseStrictRFC3339 r.dropLast with
        | some t => .ok t
        | none => .error (.new "parsing time: cannot parse as RFC 3339")
      else .error (.new "Time.UnmarshalJSON: input is not a JSON string")

/-- Modelled from the spec: decoding a JSON value into a `types.UUID`: a string holding
the canonical text; `null` leaves the value as it is; anything else is an error. -/
def decodeUUID (raw : Text) (cur : UUID) : Except GoError UUID :=
  match raw with
  | [] => .error syntaxError
  | c :: r =>
    if c = '"' then
      match readString r with
      | some (s, _) =>
        match ParseUUID s with
        | some u => .ok u
        | none => .error (.new "invalid UUID format")
      | none => .error syntaxError
    else if c = 'n' then .ok cur
    else .error (unmarshalTypeError "types.UUID")

/-- Modelled from the spec: decoding a JSON value into a `types.NullableUUID`: `null`
gives the absent identifier, a string holding the canonical text a valid one; anything
else is an error. -/
def decodeNullableUUID (raw : Text) (_ : NullableUUID) : Except GoError NullableUUID :=
  match raw with
  | [] => .error syntaxError
  | c :: r =>
    if c = '"' then
      match readString r with
      | some (s, _) =>
        match ParseUUID s with
        | some u => .ok ⟨u, true⟩
        | none => .error (.new "invalid UUID format")
      | none => .error syntaxError
    else if c = 'n' then .ok NewNullUUID
    else .error (unmarshalTypeError "types.NullableUUID")

/-- The field decoders of `EventHeader`, by JSON name. -/
def headerField (key : Text) : Option (Text → EventHeader → Except GoError EventHeader) :=
  if keyMatches key "eventId" then
    some (fun raw h => (decodeUUID raw h.EventID).map (fun v => { h with EventID := v }))
  else if keyMatches key "eventType" then
    some (fun raw h => (decodeString raw h.EventType).map (fun v => { h with EventType := v }))
  else if keyMatches key "timestamp" then
    some (fun raw h => (decodeTime raw h.Timestamp).map (fun v => { h with Timestamp := v }))
  else if keyMatches key "source" then
    some (fun raw h => (decodeString raw h.Source).map (fun v => { h with Source := v }))
  else if keyMatches key "jsonSchemaVersion" then
    some (fun raw h =>
      (decodeString raw h.SchemaVersion).map (fun v => { h with SchemaVersion := v }))
  else none

/-- The field decoders of `EventContext`, by JSON name. -/
def contextField (key : Text) : Option (Text → EventContext → Except GoError EventContext) :=
  if keyMatches key "correlationId" then
    some (fun raw c =>
      (decodeUUID raw c.CorrelationID).map (fun v => { c with CorrelationID := v }))
  else if keyMatches key "userId" then
    some (fun raw c => (decodeNullableUUID raw c.UserID).map (fun v => { c with UserID := v }))
  else none

/-- The field decoders of `EventMetadata`, by JSON name. -/
def metadataField (key : Text) :
    Option (Text → EventMetadata → Except GoError EventMetadata) :=
  if keyMatches key "traceId" then
    some (fun raw m => (decodeUUID raw m.TraceID).map (fun v => { m with TraceID := v }))
  else if keyMatches key "previousEventId" then
    some (fun raw m =>
      (decodeNullableUUID raw m.PreviousEventID).map (fun v => { m with PreviousEventID := v }))
  else if keyMatches key "causationId" then
    some (fun raw m =>
      (decodeNullableUUID raw m.CausationID).map (fun v => { m with CausationID := v }))
  else none

/-- The field decoders of `Event`, by JSON name; the payload keeps the text of its
value verbatim. -/
def eventField (key : Text) : Option (Text → Event → Except GoError Event) :=
  if keyMatches key "header" then
    some (fun raw e =>
      (decodeStruct "event.EventHeader" headerField raw e.Header).map
        (fun v => { e with Header := v }))
  else if keyMatches key "context" then
    some (fun raw e =>
      (decodeStruct "event.EventContext" contextField raw e.Context).map
        (fun v => { e with Context := v }))
  else if keyMatches key "metadata" then
    some (fun raw e =>
      (decodeStruct "event.EventMetadata" metadataField raw e.Metadata).map
        (fun v => { e with Metadata := v }))
  else if keyMatches key "payload" then
    some (fun raw e => .ok { e with Payload := some raw })
  else none

/-- The call `json.Unmarshal(data, &evt)` on a fresh `var evt event.Event`: the text
must be one valid JSON document, which is then decoded into the zero value. -/
def jsonUnmarshalEvent (data : Text) : Except GoError Event :=
  match scanDocument data with
  | none => .error syntaxError
  | some _ => decodeStruct "event.Event" eventField (skipSpace data) Event.zero

/-! ## Errors of package `msg` -/

/-- Modelled from the spec: the fixed message of `msg.NewInternalError`, which the
tests of `NewUser` expect to hold "An unexpected internal error occurred."; package
`msg` is not among the sources. -/
def internalErrorMessage : String := "An unexpected internal error occurred."

/-- Modelled from the spec: `msg.NewInternalError(err, context)`, a `*msg.MessageError`
with code `CodeInternal` wrapping `err`. The context map is not modelled. -/
def NewInternalError (cause : GoError) : GoError :=
  .coded .internal internalErrorMessage cause

/-- Modelled from the spec: `msg.NewValidationError(err, context, message)`, a
`*msg.MessageError` with code `CodeInvalid` wrapping `err`. -/
def NewValidationError (cause : GoError) (message : String) : GoError :=
  .coded .invalid message cause

/-! ## The audit record (`internal/contexts/audit/domain/audit/audit_log.go`) -/

/-- The struct `NewAuditLogInput`. -/
structure NewAuditLogInput where
  EventID : UUID
  EventType : EventType
  EventVersion : EventVersion
  EventContext : EventContext
  TraceID : UUID
  UserAuthorID : NullableUUID
  Payload : RawMessage
  deriving DecidableEq

/-- The struct `AuditLog`. -/
structure AuditLog where
  ID : UUID
  EventID : UUID
  EventType : EventType
  EventVersion : EventVersion
  EventContext : RawMessage
  TraceID : UUID
  UserAuthorID : NullableUUID
  Payload : RawMessage
  CreatedAt : Time
  deriving DecidableEq

/-- The function `NewAuditLog`. The call `json.Marshal(input.EventContext)` has no
failing case: the encoding of an `EventContext` is total. -/
def NewAuditLog (env : Env) (input : NewAuditLogInput) : Except GoError AuditLog :=
  if input.EventID.IsNil then .error (.new "audit log validation: event ID cannot be nil")
  else if input.EventType = "" then
    .error (.new "audit log validation: event type cannot be empty")
  else if input.TraceID.IsNil then
    .error (.new "audit log validation: trace id cannot be nil")
  else
    match env.newUUID with
    | .error err => .error err
    | .ok id =>
      .ok { ID := id
            EventID := input.EventID
            EventType := input.EventType
            EventVersion := input.EventVersion
            EventContext := some (marshalEventContext input.EventContext)
            TraceID := input.TraceID
            UserAuthorID := input.UserAuthorID
            Payload := input.Payload
            CreatedAt := nowUTC env.clock }

/-! ## The stream router (`internal/platform/adapter/bus/streams.go`) -/

/-- A `time.Duration`, in nanoseconds. -/
abbrev Duration := Int

/-- The constant `time.Second`. -/
def Second : Duration := 1000000000

/-- The constant `time.Hour`. -/
def Hour : Duration := 3600 * Second

/-- The storage classes of `nats.StorageType`. -/
inductive StorageType where
  | file
  | memory
  deriving DecidableEq

/-- The fields of `nats.StreamConfig` that the stream definitions set. -/
structure NatsStreamConfig where
  Name : String
  Subjects : List String
  Storage : StorageType
  Replicas : Int
  MaxMsgs : Int
  MaxAge : Duration
  deriving DecidableEq

/-- The struct `StreamConfig`. -/
structure StreamConfig where
  Name : String
  Subjects : List String
  Config : NatsStreamConfig
  deriving DecidableEq

/-- The function `GetStreamConfigs`. -/
def GetStreamConfigs : List StreamConfig :=
  [ { Name := "identity-stream"
      Subjects := ["user.*"]
      Config :=
        { Name := "identity-stream", Subjects := ["user.*"], Storage := .file
          Replicas := 3, MaxMsgs := 10000, MaxAge := 24 * Hour } },
    { Name := "wallet-stream"
      Subjects := ["wallet.*"]
      Config :=
        { Name := "wallet-stream", Subjects := ["wallet.*"], Storage := .file
          Replicas := 3, MaxMsgs := 10000, MaxAge := 24 * Hour } },
    { Name := "notification-stream"
      Subjects := ["notification.*"]
      Config :=
        { Name := "notification-stream", Subjects := ["notification.*"], Storage := .file
          Replicas := 3, MaxMsgs := 10000, MaxAge := 24 * Hour } },
    { Name := "dlq-stream"
      Subjects := ["dlq.*"]
      Config :=
        { Name := "dlq-stream", Subjects := ["dlq.*"], Storage := .file
          Replicas := 3, MaxMsgs := 10000, MaxAge := 24 * Hour } } ]

/-- The test of the inner loop body of `findStreamNameForSubject`: the subject starts
with the pattern stripped of its `.*` suffix. -/
def patternMatches (subject : String) (s : String) : Bool :=
  hasPrefix subject.data (trimSuffix s.data ".*".data)

/-- The inner loop of `findStreamNameForSubject` over the subjects of one stream:
whether it returns. -/
def matchesAnySubject (subject : String) : List String → Bool
  | [] => false
  | s :: rest => if patternMatches subject s then true else matchesAnySubject subject rest

/-- The outer loop of `findStreamNameForSubject` over stream definitions. -/
def findStreamIn (subject : String) : List StreamConfig → Option String
  | [] => none
  | sc :: rest =>
    if matchesAnySubject subject sc.Subjects then some sc.Name else findStreamIn subject rest

/-- The function `findStreamNameForSubject`. -/
def findStreamNameForSubject (subject : String) : Except GoError String :=
  match findStreamIn subject GetStreamConfigs with
  | some name => .ok name
  | none => .error (.new ("no stream configured for subject: " ++ subject))

/-! ## The NATS event bus (`internal/platform/adapter/bus/nats.go`) -/

/-- The acknowledgment policies of `jetstream.AckPolicy`. -/
inductive AckPolicy where
  | explicit
  | all
  | none
  deriving DecidableEq

/-- The fields of `jetstream.ConsumerConfig` that `Subscribe` sets. -/
structure ConsumerConfig where
  Durable : String
  FilterSubject : String
  AckPolicy : AckPolicy
  MaxDeliver : Int
  AckWait : Duration
  BackOff : List Duration
  deriving DecidableEq

/-- A `nats.Msg` as `Publish` builds it; the header carries only the trace context. -/
structure Msg where
  Subject : String
  Data : Text
  deriving DecidableEq

/-- The levels of the logger. -/
inductive LogLevel where
  | debug
  | info
  | warn
  | error
  deriving DecidableEq

/-- A call made on a collaborator: the logger, the broker, a delivered message, the
subscription handler, or the audit repository. -/
inductive Call where
  | log (level : LogLevel) (message : String)
  | publishMsg (m : Msg)
  | createOrUpdateConsumer (stream : String) (cfg : ConsumerConfig)
  | consume
  | handler (evt : Event)
  | ack
  | term
  | registerAuditLog (record : AuditLog)
  deriving DecidableEq

/-- The type `EventHandler` of package `port/bus`: the calls the handler makes and the
error it returns. -/
abbrev EventHandler := Event → List Call × Option GoError

/-- The JetStream broker as the bus sees it: the outcome of each of its calls. -/
structure JetStream where
  publishMsg : Msg → Option GoError
  createOrUpdateConsumer : String → ConsumerConfig → Option GoError
  consume : Option GoError

/-- A delivered `jetstream.Msg`: its body and the outcomes of `Ack` and `Term`. -/
structure NatsMsg where
  Data : Text
  ackResult : Option GoError
  termResult : Option GoError

/-- The constant `logFailedToMarshalEvent`. -/
def logFailedToMarshalEvent : String := "Failed to marshal event"
/-- The constant `logFailedToPublishEvent`. -/
def logFailedToPublishEvent : String := "Failed to publish event"
/-- The constant `logEventPublished`. -/
def logEventPublished : String := "Event successfully published"
/-- The constant `logNoStreamForSubject`. -/
def logNoStreamForSubject : String :=
  "Configuration error: could not find a stream for the subject"
/-- The constant `logFoundStreamForSub`. -/
def logFoundStreamForSub : String := "Found matching stream for subscription"
/-- The constant `logFailedToCreateConsumer`. -/
def logFailedToCreateConsumer : String := "Failed to create or update consumer"
/-- The constant `logFailedToUnmarshalMsg`. -/
def logFailedToUnmarshalMsg : String :=
  "Failed to unmarshal NATS message into event struct, terminating message"
/-- The constant `logFailedToTermMsg`. -/
def logFailedToTermMsg : String := "Failed to terminate message"
/-- The constant `logEventHandlerFailed`. -/
def logEventHandlerFailed : String := "Event handler failed, will allow retry"
/-- The constant `logFailedToAckMsg`. -/
def logFailedToAckMsg : String := "Failed to acknowledge message"
/-- The constant `logEventProcessed`. -/
def logEventProcessed : String := "Event successfully processed"
/-- The constant `consumerNameSuffix`. -/
def consumerNameSuffix : String := "-processor"

/-- The method `NatsEventBus.Publish`: the calls it makes and the error it returns. -/
def Publish (js : JetStream) (evt : Event) : List Call × Option GoError :=
  match jsonMarshalEvent evt with
  | .error err =>
    ([.log .error logFailedToMarshalEvent], some (NewValidationError err "Invalid event data"))
  | .ok data =>
    let msgToPublish : Msg := { Subject := evt.Header.EventType, Data := data }
    match js.publishMsg msgToPublish with
    | some err =>
      ([.publishMsg msgToPublish, .log .error logFailedToPublishEvent],
        some (NewInternalError err))
    | none => ([.publishMsg msgToPublish, .log .debug logEventPublished], none)

/-- The callback `Subscribe` hands to `consumer.Consume`, run on one delivered
message: the calls it makes, in order. -/
def consumeCallback (handler : EventHandler) (natsMsg : NatsMsg) : List Call :=
  match jsonUnmarshalEvent natsMsg.Data with
  | .error _ =>
    [.log .error logFailedToUnmarshalMsg, .term]
      ++ (match natsMsg.termResult with
          | some _ => [.log .error logFailedToTermMsg]
          | none => [])
  | .ok evt =>
    match handler evt with
    | (calls, some _) => .handler evt :: calls ++ [.log .error logEventHandlerFailed]
    | (calls, none) =>
      .handler evt :: calls ++ [.ack]
        ++ (match natsMsg.ackResult with
            | some _ => [.log .error logFailedToAckMsg]
            | none => [])
        ++ [.log .debug logEventProcessed]

/-- The Go function `strings.ReplaceAll(s, ".", "-")`. -/
def replaceDots (s : Text) : Text := s.map (fun c => if c = '.' then '-' else c)

/-- The consumer configuration `Subscribe` requests for an event type. -/
def consumerConfigFor (eventType : EventType) : ConsumerConfig :=
  { Durable := String.mk (replaceDots eventType.data) ++ consumerNameSuffix
    FilterSubject := eventType
    AckPolicy := .explicit
    MaxDeliver := 5
    AckWait := 30 * Second
    BackOff := [1 * Second, 2 * Second, 4 * Second, 8 * Second, 16 * Second] }

/-- The method `NatsEventBus.Subscribe`: the calls it makes and the error it returns.
The callback registered by the `consume` call is `consumeCallback handler`; the error
of `consumer.Consume` is assigned and not looked at. -/
def Subscribe (js : JetStream) (eventType : EventType) (_handler : EventHandler) :
    List Call × Option GoError :=
  match findStreamNameForSubject eventType with
  | .error err => ([.log .error logNoStreamForSubject], some err)
  | .ok streamName =>
    match js.createOrUpdateConsumer streamName (consumerConfigFor eventType) with
    | some err =>
      ([.log .info logFoundStreamForSub,
        .createOrUpdateConsumer streamName (consumerConfigFor eventType),
        .log .error logFailedToCreateConsumer], some (NewInternalError err))
    | none =>
      ([.log .info logFoundStreamForSub,
        .createOrUpdateConsumer streamName (consumerConfigFor eventType),
        .consume], none)

/-! ## The audit subscriber
(`internal/contexts/audit/app/subscriber/user_created_subscriber.go`) -/

/-- The struct `UserCreatedPayload` of the identity domain. -/
structure UserCreatedPayload where
  UserID : UUID
  Name : String
  Email : String
  Phone : String
  deriving DecidableEq

/-- The field decoders of `UserCreatedPayload`, by JSON name. -/
def userCreatedPayloadField (key : Text) :
    Option (Text → UserCreatedPayload → Except GoError UserCreatedPayload) :=
  if keyMatches key "userId" then
    some (fun raw p => (decodeUUID raw p.UserID).map (fun v => { p with UserID := v }))
  else if keyMatches key "name" then
    some (fun raw p => (decodeString raw p.Name).map (fun v => { p with Name := v }))
  else if keyMatches key "email" then
    some (fun raw p => (decodeString raw p.Email).map (fun v => { p with Email := v }))
  else if keyMatches key "phone" then
    some (fun raw p => (decodeString raw p.Phone).map (fun v => { p with Phone := v }))
  else none

/-- The call `json.Unmarshal(e.Payload, &payload)` on a fresh
`var payload UserCreatedPayload`; a nil payload is empty input. -/
def jsonUnmarshalUserCreatedPayload (data : RawMessage) : Except GoError UserCreatedPayload :=
  match scanDocument (data.getD []) with
  | none => .error syntaxError
  | some _ =>
    decodeStruct "user.UserCreatedPayload" userCreatedPayloadField (skipSpace (data.getD []))
      ⟨UUID.Nil, "", "", ""⟩

/-- The method `UserCreatedSubscriber.Handle`, given the outcome `repo` of
`RegisterAuditLog` on a record: the calls it makes and the error it returns. -/
def Handle (env : Env) (repo : AuditLog → Option GoError) (e : Event) :
    List Call × Option GoError :=
  match jsonUnmarshalUserCreatedPayload e.Payload with
  | .error err =>
    ([.log .error "failed to unmarshal user.created event payload for auditing"], some err)
  | .ok _ =>
    match NewAuditLog env
        { EventID := e.Header.EventID
          EventType := e.Header.EventType
          EventVersion := e.Header.SchemaVersion
          EventContext := e.Context
          TraceID := e.Metadata.TraceID
          UserAuthorID := e.Context.UserID
          Payload := e.Payload } with
    | .error err => ([.log .error "failed to create audit log entity from event"], some err)
    | .ok auditLog =>
      match repo auditLog with
      | some err =>
        ([.registerAuditLog auditLog, .log .error "failed to save audit log to repository"],
          some err)
      | none =>
        ([.registerAuditLog auditLog, .log .info "user.created event audited successfully"],
          none)

/-! ## Vocabulary of the round-trip properties -/

/-- Whether a text starts with a character that closes a value inside a container: a
comma, a closing bracket or a closing brace. -/
def startsWithDelimiter : Text → Bool
  | [] => false
  | c :: _ => c = ',' || c = ']' || c = '}'

/-- Whether a character can start a JSON value. -/
def isValueStart (c : Char) : Bool :=
  c = '"' || c = '{' || c = '[' || c = 't' || c = 'f' || c = 'n' || c = '-' || isDigit c

/-- The scanner with fuel `f` returns compacted values that scan to themselves: the
output starts a value and, placed before a delimiter, is read back whole by any scan
at the same depth with fuel above its length. -/
def RescanValue (f : Nat) : Prop :=
  ∀ d s out rest, scanValue f d s = some (out, rest) →
    (∃ c r, out = c :: r ∧ isValueStart c = true) ∧
    ∀ g tail, startsWithDelimiter tail = true → out.length < g →
      scanValue g d (out ++ tail) = some (out, tail)

/-- The same for the members of an object, which end with their closing brace. -/
def RescanMembers (f : Nat) : Prop :=
  ∀ d s out rest, scanMembers f d s = some (out, rest) →
    (∃ r, out = '"' :: r) ∧
    ∀ g tail, out.length < g → scanMembers g d (out ++ tail) = some (out, tail)

/-- The same for the elements of an array, which end with their closing bracket. -/
def RescanElements (f : Nat) : Prop :=
  ∀ d s out rest, scanElements f d s = some (out, rest) →
    (∃ c r, out = c :: r ∧ isValueStart c = true) ∧
    ∀ g tail, out.length < g → scanElements g d (out ++ tail) = some (out, tail)

/-- The scanner with fuel `f` accepts at a lesser depth, with the same outcome, what it
accepts at a depth. -/
def ShallowerValue (f : Nat) : Prop :=
  ∀ d s res, scanValue f (d + 1) s = some res → scanValue f d s = some res

/-- The same for the members of an object. -/
def ShallowerMembers (f : Nat) : Prop :=
  ∀ d s res, scanMembers f (d + 1) s = some res → scanMembers f d s = some res

/-- The same for the elements of an array. -/
def ShallowerElements (f : Nat) : Prop :=
  ∀ d s res, scanElements f (d + 1) s = some res → scanElements f d s = some res

/-- A text that is one compact JSON value fitting under `depth` open objects and
arrays: it starts a value and, placed before a delimiter, is read back whole by any
scan at that depth or a lesser one with fuel above its length. -/
def Scannable (depth : Nat) (v : Text) : Prop :=
  (∃ c r, v = c :: r ∧ isValueStart c = true) ∧
  ∀ d, d ≤ depth → ∀ g tail, startsWithDelimiter tail = true → v.length < g →
    scanValue g d (v ++ tail) = some (v, tail)

/-- A character the encoder writes as it is. -/
def plainChar (c : Char) : Bool :=
  !(c = '"' || c = '\\' || c.toNat < 0x20 || c = '<' || c = '>' || c = '&'
    || c.toNat = 0x2028 || c.toNat = 0x2029)

/-- A text of characters the encoder writes as they are. -/
def isPlainText (s : Text) : Bool := s.all plainChar

/-- What decoding an object amounts to, member by member: the decoder of the field
each key names is applied, in order, to the text of the member's value. -/
def applyMembers {α : Type} (dec : Text → Option (Text → α → Except GoError α)) :
    List (String × Text) → α → Except GoError α
  | [], a => .ok a
  | (k, v) :: rest, a =>
    match (match dec k.data with
           | some f => f v a
           | none => .ok a) with
    | .error err => .error err
    | .ok a1 => applyMembers dec rest a1

/-! ## What the callers take from identifier generation -/

/-- Modelled from the spec: `types.NewUUID`, which is not among the sources, "generates
a fresh event identifier": when it succeeds, what it yields is not the nil UUID. -/
def Env.generatesIdentifier (env : Env) : Bool := decide (env.newUUID ≠ .ok UUID.Nil)

/-- The value `input` that `UserCreatedSubscriber.Handle` builds from the envelope and
passes to `NewAuditLog`. -/
def Handle.input (e : Event) : NewAuditLogInput :=
  { EventID := e.Header.EventID
    EventType := e.Header.EventType
    EventVersion := e.Header.SchemaVersion
    EventContext := e.Context
    TraceID := e.Metadata.TraceID
    UserAuthorID := e.Context.UserID
    Payload := e.Payload }

/-! ## The user aggregate (`internal/contexts/identity/domain/user`) -/

/-- Modelled from the spec: the type `types.Email`, an e-mail address held as text;
package `types` is not among the sources. -/
structure Email where
  text : String
  deriving DecidableEq

/-- Modelled from the spec: the method `types.Email.String`. -/
def Email.String (e : Email) : String := e.text

/-- Modelled from the spec: the type `types.Phone`, a phone number held as text. -/
structure Phone where
  text : String
  deriving DecidableEq

/-- Modelled from the spec: the method `types.Phone.String`. -/
def Phone.String (p : Phone) : String := p.text

/-- The type `types.HashedPassword`, a string. -/
abbrev HashedPassword := String

/-- Modelled from the spec: the type `types.Version`, a counter of the changes of an
aggregate. -/
structure Version where
  n : Nat
  deriving DecidableEq

/-- The struct `User`. `CreatedAt` and `UpdatedAt` are conversions of a `time.Time`;
`ArchivedAt` and `DeletedAt` are nullable times. -/
structure User where
  ID : UUID
  Name : String
  Email : Email
  Phone : Phone
  Password : HashedPassword
  Preferences : RawMessage
  CreatedAt : Time
  UpdatedAt : Time
  Version : Version
  ArchivedAt : Option Time
  DeletedAt : Option Time
  deriving DecidableEq

/-- The struct `NewUserInput`. -/
structure NewUserInput where
  Name : String
  Email : String
  Phone : String
  Password : String
  Preferences : RawMessage
  deriving DecidableEq

/-- The struct `CreateUserOutput`; its field is a pointer, `none` being nil. -/
structure CreateUserOutput where
  User : Option User
  deriving DecidableEq

/-- The struct `CreateUserCommandInput`. -/
structure CreateUserCommandInput where
  CorrelationID : UUID
  TraceID : UUID
  UserAuthorID : NullableUUID
  PreviousEventID : NullableUUID
  CausationID : NullableUUID
  NewUserInput : NewUserInput
  deriving DecidableEq

/-- The struct `USerCreatedEventInput`. -/
structure USerCreatedEventInput where
  CorrelationID : UUID
  UserID : NullableUUID
  TraceID : UUID
  PreviousEventID : NullableUUID
  CausationID : NullableUUID
  Payload : UserCreatedPayload
  deriving DecidableEq

/-! ## The create-user command
(`internal/contexts/identity/app/command/create_user_command.go`) -/

/-- A call the command makes on a collaborator: the logger, the use case or the
publisher. -/
inductive CommandCall where
  | log (level : LogLevel) (message : String)
  | useCase (input : NewUserInput)
  | publishUserCreatedEvent (input : USerCreatedEventInput)
  deriving DecidableEq

/-- The method `createUserCommand.Execute`, given the outcomes of the use case and of
the publisher: the calls it makes, and what it returns. The second component is `none`
when the call does not return: `output.User.ID` on a nil `output.User` is a nil
pointer dereference. -/
def createUserCommand.Execute (useCase : NewUserInput → Except GoError CreateUserOutput)
    (publisher : USerCreatedEventInput → Option GoError) (input : CreateUserCommandInput) :
    List CommandCall × Option (CreateUserOutput × Option GoError) :=
  match useCase input.NewUserInput with
  | .error err =>
    ([.log .info "starting create user command", .useCase input.NewUserInput,
      .log .error "failed to execute create user use case"], some (⟨none⟩, some err))
  | .ok output =>
    match output.User with
    | none => ([.log .info "starting create user command", .useCase input.NewUserInput], none)
    | some u =>
      let payload : UserCreatedPayload :=
        { UserID := u.ID, Name := u.Name, Email := u.Email.String, Phone := u.Phone.String }
      let eventInput : USerCreatedEventInput :=
        { CorrelationID := input.CorrelationID
          UserID := input.UserAuthorID
          TraceID := input.TraceID
          PreviousEventID := input.PreviousEventID
          CausationID := input.CausationID
          Payload := payload }
      match publisher eventInput with
      | some _ =>
        ([.log .info "starting create user command", .useCase input.NewUserInput,
          .publishUserCreatedEvent eventInput,
          .log .error "failed to publish user created event",
          .log .info "create user command finished successfully"], some (output, none))
      | none =>
        ([.log .info "starting create user command", .useCase input.NewUserInput,
          .publishUserCreatedEvent eventInput,
          .log .info "create user command finished successfully"], some (output, none))

/-! ## The broker's reading of a subject pattern -/

/-- The broker's wildcard match of a subject against a pattern `<aggregate>.*`, as the
naming convention words it: the subject is the aggregate, a dot, and exactly one
further non-empty dot-free token. -/
def wildcardMatches (subject pattern : String) : Bool :=
  let aggregate := trimSuffix pattern.data ".*".data
  let token := subject.data.drop (aggregate.length + 1)
  hasSuffix pattern.data ".*".data && hasPrefix subject.data (aggregate ++ ['.'])
    && !token.isEmpty && !token.contains '.'

/-! ## More of package `msg` -/

/-- Modelled from the spec: `msg.NewValidationError(nil, context, message)`, a
`*msg.MessageError` with code `CodeInvalid` and no cause. -/
def NewValidationErrorNoCause (message : String) : GoError := .codedNoCause .invalid message

/-- Modelled from the spec: `msg.NewMessageError(nil, message, code, context)`, a
`*msg.MessageError` with the given code and no cause. -/
def NewMessageErrorNoCause (message : String) (code : ErrorCode) : GoError :=
  .codedNoCause code message

/-- Modelled from the spec: the field `Code` of the `*msg.MessageError` an error is,
when it is one. -/
def GoError.Code : GoError → Option ErrorCode
  | .coded code _ _ => some code
  | .codedNoCause code _ => some code
  | _ => none

/-- The call `errors.As(err, &msgErr)`: the first `*msg.MessageError` in the chain of
an error. -/
def GoError.asMessageError : GoError → Option GoError
  | .new _ => none
  | .wrap _ cause => cause.asMessageError
  | .coded code text cause => some (.coded code text cause)
  | .codedNoCause code text => some (.codedNoCause code text)

/-- The error the user aggregate returns for a rejected field: the
`*msg.MessageError` found in the cause (`msgErr.WithContext` adds context only), or a
validation error wrapping the cause. -/
def fieldError (err : GoError) (message : String) : GoError :=
  match err.asMessageError with
  | some msgErr => msgErr
  | none => NewValidationError err message

/-! ## Passwords (`internal/platform/types/password.go`) -/

/-- The constant `MinPasswordLength`. -/
def MinPasswordLength : Nat := 10

/-- The type `Password`, a string. -/
abbrev Password := String

/-- The method `Password.String`. -/
def Password.String (p : Password) : String := p

/-- Whether a character is in `A-Z`. -/
def isUpperASCII (c : Char) : Bool := 'A'.toNat ≤ c.toNat && c.toNat ≤ 'Z'.toNat

/-- Whether a character is in `a-z`. -/
def isLowerASCII (c : Char) : Bool := 'a'.toNat ≤ c.toNat && c.toNat ≤ 'z'.toNat

/-- The call `hasNumberRegex.MatchString`, for the pattern `[0-9]`. -/
def hasNumber (s : String) : Bool := s.data.any isDigit

/-- The call `hasUpperRegex.MatchString`, for the pattern `[A-Z]`. -/
def hasUpper (s : String) : Bool := s.data.any isUpperASCII

/-- The call `hasLowerRegex.MatchString`, for the pattern `[a-z]`. -/
def hasLower (s : String) : Bool := s.data.any isLowerASCII

/-- The call `hasSymbolRegex.MatchString`, for the pattern `[^a-zA-Z0-9]`. -/
def hasSymbol (s : String) : Bool :=
  s.data.any (fun c => !(isLowerASCII c || isUpperASCII c || isDigit c))

/-- The function `validatePassword`; `utf8.RuneCountInString` is the number of code
points. -/
def validatePassword (passwordStr : String) : Option GoError :=
  if passwordStr = "" then some (NewValidationErrorNoCause "Password cannot be empty.")
  else if passwordStr.data.length < MinPasswordLength then
    some (NewValidationErrorNoCause
      ("Password must be at least " ++ toString MinPasswordLength ++ " characters long."))
  else if !hasNumber passwordStr then
    some (NewValidationErrorNoCause
      "Password must contain at least one numeric character (0-9).")
  else if !hasUpper passwordStr then
    some (NewValidationErrorNoCause "Password must contain at least one uppercase letter (A-Z).")
  else if !hasLower passwordStr then
    some (NewValidationErrorNoCause "Password must contain at least one lowercase letter (a-z).")
  else if !hasSymbol passwordStr then
    some (NewValidationErrorNoCause "Password must contain at least one symbol.")
  else none

/-- The function `NewPassword`. -/
def NewPassword (passwordStr : String) : Except GoError Password :=
  match validatePassword passwordStr with
  | some err => .error err
  | none => .ok passwordStr

/-! ## What the user aggregate takes from package `types` and its environment -/

/-- Modelled from the spec: the method `types.Email.IsEmpty`. -/
def Email.IsEmpty (e : Email) : Bool := decide (e.text = "")

/-- Modelled from the spec: the method `types.Phone.IsEmpty`. -/
def Phone.IsEmpty (p : Phone) : Bool := decide (p.text = "")

/-- Modelled from the spec: `types.NewVersion()`, the version of a new aggregate; the
tests of `NewUser` expect `types.Version(1)`. -/
def NewVersion : Version := ⟨1⟩

/-- Modelled from the spec: the method `types.Version.Increment`, which the tests of
`Update` expect to add one. -/
def Version.Increment (v : Version) : Version := ⟨v.n + 1⟩

/-- Modelled from the spec: the type `types.ArchivedAt`, a nullable time. -/
abbrev ArchivedAt := Option Time

/-- Modelled from the spec: the method `types.ArchivedAt.IsNullable`; the lifecycle
tests expect it false when the time "has a value" and true when it "is null". -/
def ArchivedAt.IsNullable (a : ArchivedAt) : Bool := a.isNone

/-- Modelled from the spec: `types.NewArchivedAtNow()`, the archival time set to the
current time. -/
def NewArchivedAtNow (now : Time) : ArchivedAt := some now

/-- Modelled from the spec: `types.NewNilArchivedAt()` and `types.NewNilDeletedAt()`. -/
def NewNilArchivedAt : ArchivedAt := none

/-- What a call on the user aggregate takes from its environment: the outcome of
`types.NewUUID()`, the validating constructors `types.NewEmail` and `types.NewPhone`
(package `types` is not among the sources), the hasher, and the current time
(`time.Now()`, `types.NewUpdatedAt()`). -/
structure UserEnv where
  newUUID : Except GoError UUID
  NewEmail : String → Except GoError Email
  NewPhone : String → Except GoError Phone
  Hash : String → Except GoError String
  now : Time

/-! ## The user aggregate: construction and lifecycle
(`internal/contexts/identity/domain/user/user.go`) -/

/-- The constant `UserNameMaxLength`. -/
def UserNameMaxLength : Nat := 100

/-- The constant `ErrUserNameRequired`. -/
def ErrUserNameRequired : String := "Name cannot be empty."
/-- The constant `ErrUserNameTooLong`. -/
def ErrUserNameTooLong : String := "Name is too long (max 100 characters)."
/-- The constant `ErrUserEmailRequired`. -/
def ErrUserEmailRequired : String := "Email cannot be empty."
/-- The constant `ErrUserPhoneRequired`. -/
def ErrUserPhoneRequired : String := "Phone cannot be empty."
/-- The constant `ErrUserPreferencesInvalidJSON`. -/
def ErrUserPreferencesInvalidJSON : String := "Preferences field contains invalid JSON."
/-- The constant `ErrUserEmailInvalid`. -/
def ErrUserEmailInvalid : String := "Invalid email provided."
/-- The constant `ErrUserPhoneInvalid`. -/
def ErrUserPhoneInvalid : String := "Invalid phone number provided."
/-- The constant `ErrUserPasswordRequired`. -/
def ErrUserPasswordRequired : String := "Password is required."
/-- The constant `ErrUserPreferencesNotValidJSON`. -/
def ErrUserPreferencesNotValidJSON : String := "User preferences is not valid JSON."
/-- The constant `ErrUserEmailInvalidUpdate`. -/
def ErrUserEmailInvalidUpdate : String := "Invalid email provided for update."
/-- The constant `ErrUserPhoneInvalidUpdate`. -/
def ErrUserPhoneInvalidUpdate : String := "Invalid phone number provided for update."
/-- The constant `ErrUserPreferencesNotValidJSONUpdate`. -/
def ErrUserPreferencesNotValidJSONUpdate : String :=
  "User preferences is not valid JSON during update."
/-- The constant `ErrUserAlreadyExists`. -/
def ErrUserAlreadyExists : String := "A user with the given email or phone already exists."

/-- The Go function `unicode.IsSpace`. -/
def unicodeIsSpace (c : Char) : Bool :=
  c = '\t' || c = '\n' || c.toNat = 0x0B || c.toNat = 0x0C || c = '\r' || c = ' '
    || c.toNat = 0x85 || c.toNat = 0xA0 || c.toNat = 0x1680
    || (0x2000 ≤ c.toNat && c.toNat ≤ 0x200A)
    || c.toNat = 0x2028 || c.toNat = 0x2029 || c.toNat = 0x202F || c.toNat = 0x205F
    || c.toNat = 0x3000

/-- The Go function `strings.TrimSpace`. -/
def trimSpace (s : String) : String :=
  String.mk ((s.data.dropWhile unicodeIsSpace).reverse.dropWhile unicodeIsSpace).reverse

/-- The struct `UpdateUserInput`. -/
structure UpdateUserInput where
  Name : String
  Email : String
  Phone : String
  Preferences : RawMessage
  deriving DecidableEq

/-- The method `User.validate`: the user after the call (the name is replaced by its
trimmed form once it has passed its two checks) and the error returned. -/
def User.validate (u : User) : User × Option GoError :=
  let nameTrimmed := trimSpace u.Name
  if nameTrimmed = "" then (u, some (NewValidationErrorNoCause ErrUserNameRequired))
  else if nameTrimmed.data.length > UserNameMaxLength then
    (u, some (NewValidationErrorNoCause ErrUserNameTooLong))
  else
    let u1 := { u with Name := nameTrimmed }
    if u1.Email.IsEmpty then (u1, some (NewValidationErrorNoCause ErrUserEmailRequired))
    else if u1.Phone.IsEmpty then (u1, some (NewValidationErrorNoCause ErrUserPhoneRequired))
    else if u1.Preferences.isSome && !u1.Preferences.valid then
      (u1, some (NewValidationErrorNoCause ErrUserPreferencesInvalidJSON))
    else (u1, none)

/-- The function `NewUser`. -/
def NewUser (env : UserEnv) (input : NewUserInput) : Except GoError User :=
  if input.Password = "" then .error (NewValidationErrorNoCause ErrUserPasswordRequired)
  else
    match env.newUUID with
    | .error err => .error (NewInternalError err)
    | .ok id =>
      match env.NewEmail input.Email with
      | .error err => .error (fieldError err ErrUserEmailInvalid)
      | .ok email =>
        match env.NewPhone input.Phone with
        | .error err => .error (fieldError err ErrUserPhoneInvalid)
        | .ok phone =>
          match NewPassword input.Password with
          | .error err => .error err
          | .ok password =>
            match env.Hash (Password.String password) with
            | .error err => .error (NewInternalError err)
            | .ok hashedPassword =>
              if input.Preferences.isSome && !input.Preferences.valid then
                .error (NewValidationErrorNoCause ErrUserPreferencesNotValidJSON)
              else
                let preferencesValue : RawMessage :=
                  match input.Preferences with
                  | some p => if p ≠ "null".data ∧ p.length > 0 then some p else none
                  | none => none
                match User.validate
                    { ID := id
                      Name := input.Name
                      Email := email
                      Phone := phone
                      Password := hashedPassword
                      Preferences := preferencesValue
                      CreatedAt := env.now
                      UpdatedAt := env.now
                      Version := NewVersion
                      ArchivedAt := NewNilArchivedAt
                      DeletedAt := NewNilArchivedAt } with
                | (_, some err) => .error err
                | (user, none) => .ok user

/-- The last part of `User.Update`, from `if !changed` on. -/
def User.updateFinish (env : UserEnv) (u : User) (changed : Bool) : User × Option GoError :=
  if !changed then (u, none)
  else
    match u.validate with
    | (u1, some err) => (u1, some err)
    | (u1, none) => ({ u1 with UpdatedAt := env.now, Version := u1.Version.Increment }, none)

/-- The part of `User.Update` from the preferences block on. -/
def User.updatePreferences (env : UserEnv) (input : UpdateUserInput) (u : User)
    (changed : Bool) : User × Option GoError :=
  match input.Preferences with
  | some p =>
    if !jsonValid p then
      (u, some (NewValidationErrorNoCause ErrUserPreferencesNotValidJSONUpdate))
    else if p = "null".data ∨ p.length = 0 then
      User.updateFinish env { u with Preferences := none } true
    else User.updateFinish env { u with Preferences := some p } true
  | none => User.updateFinish env u changed

/-- The part of `User.Update` from the phone block on. -/
def User.updatePhone (env : UserEnv) (input : UpdateUserInput) (u : User) (changed : Bool) :
    User × Option GoError :=
  if input.Phone ≠ "" then
    match env.NewPhone input.Phone with
    | .error err => (u, some (fieldError err ErrUserPhoneInvalidUpdate))
    | .ok phone => User.updatePreferences env input { u with Phone := phone } true
  else User.updatePreferences env input u changed

/-- The part of `User.Update` from the e-mail block on. -/
def User.updateEmail (env : UserEnv) (input : UpdateUserInput) (u : User) (changed : Bool) :
    User × Option GoError :=
  if input.Email ≠ "" then
    match env.NewEmail input.Email with
    | .error err => (u, some (fieldError err ErrUserEmailInvalidUpdate))
    | .ok email => User.updatePhone env input { u with Email := email } true
  else User.updatePhone env input u changed

/-- The method `User.Update`: the user after the call and the error returned. The
blocks of the method run in order on the same user, each assigning its field before
the next one is checked. -/
def User.Update (env : UserEnv) (u : User) (input : UpdateUserInput) : User × Option GoError :=
  if input.Name ≠ "" then User.updateEmail env input { u with Name := input.Name } true
  else User.updateEmail env input u false

/-- The method `User.IsArchived`. -/
def User.IsArchived (u : User) : Bool := !ArchivedAt.IsNullable u.ArchivedAt

/-- The method `User.Archive`: the user after the call. -/
def User.Archive (env : UserEnv) (u : User) : User :=
  if !u.IsArchived then
    { u with
      ArchivedAt := NewArchivedAtNow env.now
      UpdatedAt := env.now
      Version := u.Version.Increment }
  else u

/-! ## The create-user use case
(`internal/contexts/identity/app/usecase/create_user_usecase.go`) -/

/-- The interface `CreateUserRepository`: the outcomes of `UserExists` and of
`CreateUser`. -/
structure CreateUserRepository where
  UserExists : Email → Phone → Except GoError Bool
  CreateUser : User → Option GoError

/-- A call the use case makes on the repository. -/
inductive RepositoryCall where
  | userExists (email : Email) (phone : Phone)
  | createUser (user : User)
  deriving DecidableEq

/-- The method `createUserUseCase.Execute`: the calls it makes on the repository and
what it returns. -/
def createUserUseCase.Execute (env : UserEnv) (repo : CreateUserRepository)
    (input : NewUserInput) : List RepositoryCall × Except GoError CreateUserOutput :=
  match env.NewEmail input.Email with
  | .error err => ([], .error err)
  | .ok email =>
    match env.NewPhone input.Phone with
    | .error err => ([], .error err)
    | .ok phone =>
      match repo.UserExists email phone with
      | .error err => ([.userExists email phone], .error (NewInternalError err))
      | .ok true =>
        ([.userExists email phone],
          .error (NewMessageErrorNoCause ErrUserAlreadyExists .conflict))
      | .ok false =>
        match NewUser env input with
        | .error err => ([.userExists email phone], .error err)
        | .ok newUser =>
          match repo.CreateUser newUser with
          | some err =>
            ([.userExists email phone, .createUser newUser], .error (NewInternalError err))
          | none => ([.userExists email phone, .createUser newUser], .ok ⟨some newUser⟩)

/-! ## The `user.created` event
(`internal/contexts/identity/domain/user/user_created.go`) -/

/-- The constant `UserCreatedEventType`. -/
def UserCreatedEventType : EventType := "user.created"
/-- The constant `UserCreatedEventVersion`. -/
def UserCreatedEventVersion : EventVersion := "v1.0.0"
/-- The constant `UserEventSource`. -/
def UserEventSource : String := "IdentityService"

/-- The call `json.Marshal(payload)` on a `UserCreatedPayload`: an object of its four
fields under their JSON names; it has no failing case. -/
def marshalUserCreatedPayload (p : UserCreatedPayload) : Text :=
  renderObject
    [("userId", marshalUUID p.UserID), ("name", encodeString p.Name.data),
      ("email", encodeString p.Email.data), ("phone", encodeString p.Phone.data)]

/-- The function `NewUserCreatedEvent`; the error branch of `json.Marshal` is never
taken, the encoding of the payload being total. -/
def NewUserCreatedEvent (env : Env) (input : USerCreatedEventInput) : Except GoError Event :=
  NewEvent env
    { EventType := UserCreatedEventType
      EventVersion := UserCreatedEventVersion
      Source := UserEventSource
      CorrelationID := input.CorrelationID
      UserID := input.UserID
      TraceID := input.TraceID
      PreviousEventID := input.PreviousEventID
      CausationID := input.CausationID
      Payload := some (marshalUserCreatedPayload input.Payload) }

/-- The text of `n` arrays nested in one another, the innermost empty: `n` opening
brackets followed by `n` closing brackets. -/
def nestedArrays : Nat → Text
  | 0 => []
  | n + 1 => '[' :: nestedArrays n ++ [']']

/-! ## Sample values -/

/-- An environment in which identifier generation yields the given identifier. -/
def Env.sample : Env :=
  { newUUID := .ok ⟨0x9f1c2b3a, 0x4d5e, 0x4f60, 0x8a7b, 0x0c1d2e3f4a5b⟩
    clock := ⟨2025, 6, 1, 12, 30, 45, 123456789⟩ }

/-- A well-formed input of `NewEvent`. -/
def EventInput.sample : EventInput :=
  { EventType := "test.event"
    EventVersion := "v1"
    Source := "TestService"
    CorrelationID := ⟨1, 2, 3, 4, 5⟩
    UserID := NewNullUUID
    TraceID := ⟨6, 7, 8, 9, 10⟩
    PreviousEventID := NewNullUUID
    CausationID := NewNullUUID
    Payload := some "\x7b\"key\":\"value\"\x7d".data }

/-- A broker that accepts every call. -/
def JetStream.accepting : JetStream :=
  { publishMsg := fun _ => none
    createOrUpdateConsumer := fun _ _ => none
    consume := none }

/-- An envelope whose event type `unknown.thing` matches no declared stream pattern. -/
def Event.unrouted : Event :=
  { Header := ⟨⟨0x9f1c2b3a, 0x4d5e, 0x4f60, 0x8a7b, 0x0c1d2e3f4a5b⟩, "unknown.thing",
      ⟨2025, 6, 1, 12, 30, 45, 0, .utc⟩, "TestService", "v1"⟩
    Context := ⟨⟨1, 2, 3, 4, 5⟩, NewNullUUID⟩
    Metadata := ⟨⟨6, 7, 8, 9, 10⟩, NewNullUUID, NewNullUUID⟩
    Payload := some "\x7b\x7d".data }

/-- A handler that makes no call and succeeds. -/
def EventHandler.succeeding : EventHandler := fun _ => ([], none)

/-- A handler that makes no call and fails. -/
def EventHandler.failing : EventHandler := fun _ => ([], some (.new "handler failed"))

/-- Whether a call is a `PublishMsg` on the broker. -/
def Call.isPublishMsg : Call → Bool
  | .publishMsg _ => true
  | _ => false

/-- Whether a call is a `RegisterAuditLog` on the repository. -/
def Call.isRegisterAuditLog : Call → Bool
  | .registerAuditLog _ => true
  | _ => false

/-- An envelope with no actor, previous-event or causation identifier: the three
nullable UUIDs are absent (`Valid = false`). -/
def Event.withoutOptionalIDs : Event :=
  { Header := ⟨⟨0x9f1c2b3a, 0x4d5e, 0x4f60, 0x8a7b, 0x0c1d2e3f4a5b⟩, "user.created",
      ⟨2025, 6, 1, 12, 30, 45, 0, .utc⟩, "IdentityService", "v1.0.0"⟩
    Context := ⟨⟨1, 2, 3, 4, 5⟩, NewNullUUID⟩
    Metadata := ⟨⟨6, 7, 8, 9, 10⟩, NewNullUUID, NewNullUUID⟩
    Payload := some "\x7b\x7d".data }

/-- A `user.created` envelope as the identity service publishes it. -/
def Event.userCreated : Event :=
  { Header := ⟨⟨0x9f1c2b3a, 0x4d5e, 0x4f60, 0x8a7b, 0x0c1d2e3f4a5b⟩, "user.created",
      ⟨2025, 6, 1, 12, 30, 45, 0, .utc⟩, "IdentityService", "v1.0.0"⟩
    Context := ⟨⟨1, 2, 3, 4, 5⟩, NewNullUUID⟩
    Metadata := ⟨⟨6, 7, 8, 9, 10⟩, NewNullUUID, NewNullUUID⟩
    Payload := some ("\x7b\"userId\":\"0000000b-000c-000d-000e-00000000000f\",\"name\":\"Ada\","
      ++ "\"email\":\"ada@example.com\",\"phone\":\"+15550100\"\x7d").data }

/-- The message body carrying `Event.userCreated`. -/
def userCreatedBody : Text :=
  ("\x7b\"header\":\x7b\"eventId\":\"9f1c2b3a-4d5e-4f60-8a7b-0c1d2e3f4a5b\","
    ++ "\"eventType\":\"user.created\",\"timestamp\":\"2025-06-01T12:30:45Z\","
    ++ "\"source\":\"IdentityService\",\"jsonSchemaVersion\":\"v1.0.0\"\x7d,"
    ++ "\"context\":\x7b\"correlationId\":\"00000001-0002-0003-0004-000000000005\","
    ++ "\"userId\":null\x7d,"
    ++ "\"metadata\":\x7b\"traceId\":\"00000006-0007-0008-0009-00000000000a\","
    ++ "\"previousEventId\":null,\"causationId\":null\x7d,"
    ++ "\"payload\":\x7b\"userId\":\"0000000b-000c-000d-000e-00000000000f\",\"name\":\"Ada\","
    ++ "\"email\":\"ada@example.com\",\"phone\":\"+15550100\"\x7d\x7d").data

/-- An environment in which identifier generation fails. -/
def Env.failing : Env :=
  { newUUID := .error (.new "failed to read random bytes")
    clock := ⟨2025, 6, 1, 12, 30, 46, 0⟩ }

/-- A repository whose `RegisterAuditLog` fails. -/
def repoFailing : AuditLog → Option GoError := fun _ => some (.new "failed to save audit log")

/-- A repository whose `RegisterAuditLog` succeeds. -/
def repoSucceeding : AuditLog → Option GoError := fun _ => none

/-- A well-formed input whose payload is valid JSON with insignificant whitespace and
a `<` character. -/
def EventInput.spacedPayload : EventInput :=
  { EventInput.sample with Payload := some "\x7b \"note\" : \"a<b\" \x7d".data }

/-- The envelope `NewEvent` builds from `EventInput.spacedPayload` in `Env.sample`. -/
def Event.spacedPayload : Event :=
  { Header := ⟨⟨0x9f1c2b3a, 0x4d5e, 0x4f60, 0x8a7b, 0x0c1d2e3f4a5b⟩, "test.event",
      ⟨2025, 6, 1, 12, 30, 45, 123456789, .utc⟩, "TestService", "v1"⟩
    Context := ⟨⟨1, 2, 3, 4, 5⟩, NewNullUUID⟩
    Metadata := ⟨⟨6, 7, 8, 9, 10⟩, NewNullUUID, NewNullUUID⟩
    Payload := some "\x7b \"note\" : \"a<b\" \x7d".data }

/-- Whether a call is a `PublishUserCreatedEvent` on the publisher. -/
def CommandCall.isPublishUserCreatedEvent : CommandCall → Bool
  | .publishUserCreatedEvent _ => true
  | _ => false

/-- A user as the use case returns it. -/
def User.sample : User :=
  { ID := ⟨0xb, 0xc, 0xd, 0xe, 0xf⟩
    Name := "Test User"
    Email := ⟨"test@example.com"⟩
    Phone := ⟨"+15551234567"⟩
    Password := "$2a$10$hash"
    Preferences := none
    CreatedAt := ⟨2025, 6, 1, 12, 30, 45, 0, .utc⟩
    UpdatedAt := ⟨2025, 6, 1, 12, 30, 45, 0, .utc⟩
    Version := ⟨1⟩
    ArchivedAt := none
    DeletedAt := none }

/-- The command input of the command's tests. -/
def CreateUserCommandInput.sample : CreateUserCommandInput :=
  { CorrelationID := ⟨1, 2, 3, 4, 5⟩
    TraceID := ⟨6, 7, 8, 9, 10⟩
    UserAuthorID := NewNullableUUID ⟨11, 12, 13, 14, 15⟩ true
    PreviousEventID := NewNullableUUID ⟨16, 17, 18, 19, 20⟩ true
    CausationID := NewNullableUUID ⟨21, 22, 23, 24, 25⟩ true
    NewUserInput := ⟨"Test User", "test@example.com", "+15551234567", "ValidPassword123!", none⟩ }

/-- A use case that succeeds with the sample user. -/
def useCaseSucceeding : NewUserInput → Except GoError CreateUserOutput :=
  fun _ => .ok ⟨some User.sample⟩

/-- A use case that fails. -/
def useCaseFailing : NewUserInput → Except GoError CreateUserOutput :=
  fun _ => .error (.new "use case failed")

/-- The use case double of the command's tests with no behaviour set: it returns
`user.CreateUserOutput{}, nil`, a success whose output holds no user. -/
def useCaseEmptyOutput : NewUserInput → Except GoError CreateUserOutput :=
  fun _ => .ok ⟨none⟩

/-- A publisher that fails. -/
def publisherFailing : USerCreatedEventInput → Option GoError :=
  fun _ => some (.new "event bus publish failed (simulated)")

/-- A publisher that succeeds. -/
def publisherSucceeding : USerCreatedEventInput → Option GoError := fun _ => none

/-- A broker that creates the consumer and then fails to start the consume loop. -/
def JetStream.consumeFailing : JetStream :=
  { publishMsg := fun _ => none
    createOrUpdateConsumer := fun _ _ => none
    consume := some (.new "nats: consumer closed") }

/-- An environment of the user aggregate whose `types.NewEmail` accepts the texts
holding an `@` and whose `types.NewPhone` accepts the texts starting with `+`. -/
def UserEnv.sample : UserEnv :=
  { newUUID := .ok ⟨0xb, 0xc, 0xd, 0xe, 0xf⟩
    NewEmail := fun s =>
      if s.data.contains '@' then .ok ⟨s⟩
      else .error (NewValidationErrorNoCause "Invalid email format.")
    NewPhone := fun s =>
      if s.data.head? = some '+' then .ok ⟨s⟩
      else .error (NewValidationErrorNoCause "Invalid phone format.")
    Hash := fun s => .ok ("$2a$10$" ++ s)
    now := ⟨2025, 6, 2, 9, 0, 0, 0, .utc⟩ }

/-- Whether a call is a `CreateUser` on the repository. -/
def RepositoryCall.isCreateUser : RepositoryCall → Bool
  | .createUser _ => true
  | _ => false

/-- The valid input of the use case's tests. -/
def NewUserInput.sample : NewUserInput :=
  ⟨"Test User", "test@example.com", "+5562999998888", "ValidPassword123!", none⟩

/-- A repository that reports the user as existing. -/
def repoUserExists : CreateUserRepository :=
  { UserExists := fun _ _ => .ok true, CreateUser := fun _ => none }

/-- A repository whose `UserExists` fails. -/
def repoUserExistsFailing : CreateUserRepository :=
  { UserExists := fun _ _ => .error (.new "database connection error")
    CreateUser := fun _ => none }

/-- The input of `NewUserCreatedEvent` for the sample user. -/
def USerCreatedEventInput.sample : USerCreatedEventInput :=
  { CorrelationID := ⟨1, 2, 3, 4, 5⟩
    UserID := NewNullableUUID ⟨11, 12, 13, 14, 15⟩ true
    TraceID := ⟨6, 7, 8, 9, 10⟩
    PreviousEventID := NewNullUUID
    CausationID := NewNullUUID
    Payload := ⟨⟨0xb, 0xc, 0xd, 0xe, 0xf⟩, "Ada", "ada@example.com", "+15550100"⟩ }

/-- The input of the tests with a payload of `maxNestingDepth` arrays nested in one
another. -/
def EventInput.deepPayload : EventInput :=
  { EventInput.sample with Payload := some (nestedArrays maxNestingDepth) }

/-! # Properties -/

set_option maxRecDepth 100000

theorem UUID.IsNil_iff (u : UUID) : u.IsNil = true ↔ u = UUID.Nil := by
  simp [UUID.IsNil]

/-- C1. Assuming event-identifier generation succeeds, `NewEvent` returns an error if
and only if the event type is empty, or the source is empty, or the version is empty,
or the correlation ID is the nil UUID, or the trace ID is the nil UUID, or the payload
is nil, or the payload is not syntactically valid JSON. -/
theorem C1_NewEvent_error_iff (env : Env) (input : EventInput) (id : UUID)
    (hgen : env.newUUID = .ok id) :
    (∃ err, NewEvent env input = .error err) ↔
      (input.EventType = "" ∨ input.Source = "" ∨ input.EventVersion = "" ∨
        input.CorrelationID = UUID.Nil ∨ input.TraceID = UUID.Nil ∨
        input.Payload = none ∨ ∃ p, input.Payload = some p ∧ jsonValid p = false) := by
  unfold NewEvent NewEventHeader
  by_cases h1 : input.EventType = ""
  · simp [h1]
  by_cases h2 : input.Source = ""
  · simp [h1, h2]
  by_cases h3 : input.EventVersion = ""
  · simp [h1, h2, h3]
  by_cases h4 : input.CorrelationID = UUID.Nil
  · simp [h1, h2, h3, h4, UUID.IsNil]
  by_cases h5 : input.TraceID = UUID.Nil
  · simp [h1, h2, h3, h4, h5, UUID.IsNil]
  cases hp : input.Payload with
  | none => simp [h1, h2, h3, h4, h5, UUID.IsNil]
  | some p =>
    by_cases h7 : jsonValid p = true
    · simp [h1, h2, h3, h4, h5, UUID.IsNil, h7, hgen]
    · simp [h1, h2, h3, h4, h5, UUID.IsNil, h7]

/-- C1 at a concrete input with a truncated JSON payload. -/
theorem C1_NewEvent_error_iff_witness :
    Env.sample.newUUID = .ok ⟨0x9f1c2b3a, 0x4d5e, 0x4f60, 0x8a7b, 0x0c1d2e3f4a5b⟩ ∧
    ((∃ err, NewEvent Env.sample { EventInput.sample with Payload := some "\x7b\"key\":\"value".data }
        = .error err) ↔
      (("test.event" : String) = "" ∨ ("TestService" : String) = "" ∨ ("v1" : String) = "" ∨
        (⟨1, 2, 3, 4, 5⟩ : UUID) = UUID.Nil ∨ (⟨6, 7, 8, 9, 10⟩ : UUID) = UUID.Nil ∨
        (some "\x7b\"key\":\"value".data : RawMessage) = none ∨
        ∃ p, (some "\x7b\"key\":\"value".data : RawMessage) = some p ∧ jsonValid p = false)) :=
  ⟨rfl, C1_NewEvent_error_iff Env.sample _ _ rfl⟩

/-- C2. For each of the five required fields, when exactly that field is empty or nil
and every other field is valid, `NewEvent` fails with the fixed message of that field;
the five messages are pairwise distinct. -/
theorem C2_required_field_messages (env : Env) (input : EventInput) :
    (input.EventType = "" → input.Source ≠ "" → input.EventVersion ≠ "" →
        input.CorrelationID ≠ UUID.Nil → input.TraceID ≠ UUID.Nil →
        input.Payload.valid = true →
        NewEvent env input = .error (.new "event type cannot be empty")) ∧
    (input.EventType ≠ "" → input.Source = "" → input.EventVersion ≠ "" →
        input.CorrelationID ≠ UUID.Nil → input.TraceID ≠ UUID.Nil →
        input.Payload.valid = true →
        NewEvent env input = .error (.new "event source cannot be empty")) ∧
    (input.EventType ≠ "" → input.Source ≠ "" → input.EventVersion = "" →
        input.CorrelationID ≠ UUID.Nil → input.TraceID ≠ UUID.Nil →
        input.Payload.valid = true →
        NewEvent env input = .error (.new "event version cannot be empty")) ∧
    (input.EventType ≠ "" → input.Source ≠ "" → input.EventVersion ≠ "" →
        input.CorrelationID = UUID.Nil → input.TraceID ≠ UUID.Nil →
        input.Payload.valid = true →
        NewEvent env input = .error (.new "correlation ID cannot be empty")) ∧
    (input.EventType ≠ "" → input.Source ≠ "" → input.EventVersion ≠ "" →
        input.CorrelationID ≠ UUID.Nil → input.TraceID = UUID.Nil →
        input.Payload.valid = true →
        NewEvent env input = .error (.new "trace ID cannot be empty")) ∧
    List.Pairwise (fun a b : String => a ≠ b)
      ["event type cannot be empty", "event source cannot be empty",
       "event version cannot be empty", "correlation ID cannot be empty",
       "trace ID cannot be empty"] := by
  refine ⟨?_, ?_, ?_, ?_, ?_, by decide⟩
  · intro h1 _ _ _ _ _
    simp [NewEvent, h1]
  · intro h1 h2 _ _ _ _
    simp [NewEvent, h1, h2]
  · intro h1 h2 h3 _ _ _
    simp [NewEvent, h1, h2, h3]
  · intro h1 h2 h3 h4 _ _
    simp [NewEvent, h1, h2, h3, h4, UUID.IsNil]
  · intro h1 h2 h3 h4 h5 _
    simp [NewEvent, h1, h2, h3, h4, h5, UUID.IsNil]

/-- C2 at the five inputs of the test suite, each leaving one required field empty. -/
theorem C2_required_field_messages_witness :
    NewEvent Env.sample { EventInput.sample with EventType := "" }
        = .error (.new "event type cannot be empty") ∧
    NewEvent Env.sample { EventInput.sample with Source := "" }
        = .error (.new "event source cannot be empty") ∧
    NewEvent Env.sample { EventInput.sample with EventVersion := "" }
        = .error (.new "event version cannot be empty") ∧
    NewEvent Env.sample { EventInput.sample with CorrelationID := UUID.Nil }
        = .error (.new "correlation ID cannot be empty") ∧
    NewEvent Env.sample { EventInput.sample with TraceID := UUID.Nil }
        = .error (.new "trace ID cannot be empty") :=
  ⟨(C2_required_field_messages Env.sample _).1 rfl (by decide) (by decide) (by decide)
      (by decide) (by decide),
   (C2_required_field_messages Env.sample _).2.1 (by decide) rfl (by decide) (by decide)
      (by decide) (by decide),
   (C2_required_field_messages Env.sample _).2.2.1 (by decide) (by decide) rfl (by decide)
      (by decide) (by decide),
   (C2_required_field_messages Env.sample _).2.2.2.1 (by decide) (by decide) (by decide) rfl
      (by decide) (by decide),
   (C2_required_field_messages Env.sample _).2.2.2.2.1 (by decide) (by decide) (by decide)
      (by decide) rfl (by decide)⟩

/-! ## The stream router -/

theorem matchesAnySubject_iff (subject : String) (subs : List String) :
    matchesAnySubject subject subs = true ↔
      ∃ p ∈ subs, hasPrefix subject.data (trimSuffix p.data ".*".data) = true := by
  induction subs with
  | nil => simp [matchesAnySubject]
  | cons p rest ih =>
    unfold matchesAnySubject
    by_cases h : patternMatches subject p = true
    · simp only [h, if_true, true_iff]
      exact ⟨p, List.mem_cons_self _ _, h⟩
    · simp only [h, Bool.false_eq_true, if_false, ih, List.mem_cons, exists_eq_or_imp]
      constructor
      · intro hr
        exact Or.inr hr
      · rintro (hl | hr)
        · exact absurd hl h
        · exact hr

theorem matchesAnySubject_eq_false_iff (subject : String) (subs : List String) :
    matchesAnySubject subject subs = false ↔
      ∀ p ∈ subs, hasPrefix subject.data (trimSuffix p.data ".*".data) = false := by
  rw [← Bool.not_eq_true, matchesAnySubject_iff]
  simp

theorem findStreamIn_eq_some_iff (subject : String) (configs : List StreamConfig)
    (name : String) :
    findStreamIn subject configs = some name ↔
      ∃ pre sc post, configs = pre ++ sc :: post ∧ sc.Name = name ∧
        matchesAnySubject subject sc.Subjects = true ∧
        ∀ sc' ∈ pre, matchesAnySubject subject sc'.Subjects = false := by
  induction configs with
  | nil => simp [findStreamIn]
  | cons c rest ih =>
    unfold findStreamIn
    by_cases h : matchesAnySubject subject c.Subjects = true
    · simp only [h, if_true, Option.some.injEq]
      constructor
      · intro hn
        exact ⟨[], c, rest, rfl, hn, h, by simp⟩
      · rintro ⟨pre, sc, post, heq, hname, _, hpre⟩
        cases pre with
        | nil =>
          simp only [List.nil_append, List.cons.injEq] at heq
          rw [heq.1]
          exact hname
        | cons d pre' =>
          simp only [List.cons_append, List.cons.injEq] at heq
          have := hpre d (List.mem_cons_self _ _)
          rw [← heq.1, h] at this
          exact absurd this (by simp)
    · simp only [h, Bool.false_eq_true, if_false, ih]
      constructor
      · rintro ⟨pre, sc, post, heq, hname, hm, hpre⟩
        refine ⟨c :: pre, sc, post, by simp [heq], hname, hm, ?_⟩
        intro sc' hsc'
        rcases List.mem_cons.mp hsc' with rfl | hin
        · simpa using h
        · exact hpre sc' hin
      · rintro ⟨pre, sc, post, heq, hname, hm, hpre⟩
        cases pre with
        | nil =>
          simp only [List.nil_append, List.cons.injEq] at heq
          rw [heq.1] at h
          exact absurd hm h
        | cons d pre' =>
          simp only [List.cons_append, List.cons.injEq] at heq
          exact ⟨pre', sc, post, heq.2, hname, hm,
            fun sc' hsc' => hpre sc' (List.mem_cons_of_mem _ hsc')⟩

theorem findStreamIn_eq_none_iff (subject : String) (configs : List StreamConfig) :
    findStreamIn subject configs = none ↔
      ∀ sc ∈ configs, matchesAnySubject subject sc.Subjects = false := by
  induction configs with
  | nil => simp [findStreamIn]
  | cons c rest ih =>
    unfold findStreamIn
    by_cases h : matchesAnySubject subject c.Subjects = true
    · simp [h]
    · simp only [h, Bool.false_eq_true, if_false, ih, List.mem_cons, forall_eq_or_imp]
      simp only [Bool.not_eq_true] at h
      simp [h]

/-- C6. `findStreamNameForSubject` returns the name of the first stream definition, in
the declaration order of `GetStreamConfigs`, that owns a pattern whose text without the
`.*` suffix is a prefix of the subject; it returns an error exactly when no definition
owns such a pattern; `user.created` resolves to `identity-stream`, the stream declared
for `user.*`, and `unknown.thing` fails. -/
theorem C6_findStream_first_match (s : String) :
    (∀ name, findStreamNameForSubject s = .ok name ↔
      ∃ pre sc post, GetStreamConfigs = pre ++ sc :: post ∧ sc.Name = name ∧
        (∃ p ∈ sc.Subjects, hasPrefix s.data (trimSuffix p.data ".*".data) = true) ∧
        ∀ sc' ∈ pre, ∀ p ∈ sc'.Subjects,
          hasPrefix s.data (trimSuffix p.data ".*".data) = false) ∧
    ((∃ err, findStreamNameForSubject s = .error err) ↔
      ∀ sc ∈ GetStreamConfigs, ∀ p ∈ sc.Subjects,
        hasPrefix s.data (trimSuffix p.data ".*".data) = false) ∧
    findStreamNameForSubject "user.created" = .ok "identity-stream" ∧
    (∃ sc ∈ GetStreamConfigs, "user.*" ∈ sc.Subjects ∧
      findStreamNameForSubject "user.created" = .ok sc.Name) ∧
    (∃ err, findStreamNameForSubject "unknown.thing" = .error err) := by
  refine ⟨?_, ?_, by decide, ?_, ?_⟩
  · intro name
    have key := findStreamIn_eq_some_iff s GetStreamConfigs name
    simp only [matchesAnySubject_iff, matchesAnySubject_eq_false_iff] at key
    rw [← key]
    unfold findStreamNameForSubject
    cases findStreamIn s GetStreamConfigs <;> simp
  · have key := findStreamIn_eq_none_iff s GetStreamConfigs
    simp only [matchesAnySubject_eq_false_iff] at key
    rw [← key]
    unfold findStreamNameForSubject
    cases findStreamIn s GetStreamConfigs <;> simp
  · exact ⟨_, List.mem_cons_self _ _, by decide, by decide⟩
  · exact ⟨.new "no stream configured for subject: unknown.thing", by decide⟩

/-! ## The consume callback -/

/-- C3. For every message body that `json.Unmarshal` cannot deserialize into an
`Event`, the consume callback never invokes the handler, calls `Term` on the message
exactly once, and never calls `Ack`. -/
theorem C3_undecodable_body_terminated (handler : EventHandler) (natsMsg : NatsMsg)
    (err : GoError) (h : jsonUnmarshalEvent natsMsg.Data = .error err) :
    (∀ evt, Call.handler evt ∉ consumeCallback handler natsMsg) ∧
    (consumeCallback handler natsMsg).count .term = 1 ∧
    Call.ack ∉ consumeCallback handler natsMsg := by
  unfold consumeCallback
  rw [h]
  cases natsMsg.termResult <;> simp [List.count_cons]

/-- C3 at a body that is not JSON, with a handler that would succeed. -/
theorem C3_undecodable_body_terminated_witness :
    jsonUnmarshalEvent "not json".data = .error syntaxError ∧
    (∀ evt, Call.handler evt ∉
      consumeCallback EventHandler.succeeding ⟨"not json".data, none, none⟩) ∧
    (consumeCallback EventHandler.succeeding ⟨"not json".data, none, none⟩).count .term = 1 ∧
    Call.ack ∉ consumeCallback EventHandler.succeeding ⟨"not json".data, none, none⟩ :=
  ⟨by decide,
    C3_undecodable_body_terminated EventHandler.succeeding ⟨"not json".data, none, none⟩
      syntaxError (by decide)⟩

/-- C4. For every delivered message whose body deserializes into an `Event`, the
consume callback invokes the handler exactly once, with that event, and the calls it
makes after the handler's own are: `Ack` exactly once when the handler returned nil,
and neither `Ack` nor `Term` when the handler returned an error. -/
theorem C4_decodable_body_dispatched (handler : EventHandler) (natsMsg : NatsMsg)
    (evt : Event) (h : jsonUnmarshalEvent natsMsg.Data = .ok evt) :
    ∃ after, consumeCallback handler natsMsg = .handler evt :: (handler evt).1 ++ after ∧
      (∀ e, Call.handler e ∉ after) ∧
      ((handler evt).2 = none → after.count .ack = 1 ∧ Call.term ∉ after) ∧
      (∀ err, (handler evt).2 = some err → Call.ack ∉ after ∧ Call.term ∉ after) := by
  unfold consumeCallback
  rw [h]
  rcases hh : handler evt with ⟨calls, res⟩
  cases res with
  | some e =>
    exact ⟨[.log .error logEventHandlerFailed], by simp [hh], by simp, by simp, by simp⟩
  | none =>
    cases natsMsg.ackResult with
    | none =>
      exact ⟨[.ack, .log .debug logEventProcessed], by simp [hh], by simp,
        by simp [List.count_cons], by simp⟩
    | some e =>
      exact ⟨[.ack, .log .error logFailedToAckMsg, .log .debug logEventProcessed],
        by simp [hh], by simp, by simp [List.count_cons], by simp⟩

/-- C4 at the body `{}`, which decodes into the zero envelope, with a handler that
succeeds: the handler is invoked and the message acknowledged. -/
theorem C4_decodable_body_dispatched_witness :
    jsonUnmarshalEvent "\x7b\x7d".data = .ok Event.zero ∧
    ∃ after, consumeCallback EventHandler.succeeding ⟨"\x7b\x7d".data, none, none⟩
        = .handler Event.zero :: (EventHandler.succeeding Event.zero).1 ++ after ∧
      (∀ e, Call.handler e ∉ after) ∧
      ((EventHandler.succeeding Event.zero).2 = none →
        after.count .ack = 1 ∧ Call.term ∉ after) ∧
      (∀ err, (EventHandler.succeeding Event.zero).2 = some err →
        Call.ack ∉ after ∧ Call.term ∉ after) :=
  ⟨by decide,
    C4_decodable_body_dispatched EventHandler.succeeding ⟨"\x7b\x7d".data, none, none⟩ Event.zero
      (by decide)⟩

/-! ## Publish -/

/-- C7, as stated, fails: the event type `unknown.thing` matches no declared stream
pattern, yet with a broker that accepts the message `Publish` appends it and returns
nil. -/
theorem C7_unrouted_publish_counterexample :
    (∃ err, findStreamNameForSubject Event.unrouted.Header.EventType = .error err) ∧
    Publish JetStream.accepting Event.unrouted =
      ([.publishMsg ⟨"unknown.thing",
          ("\x7b\"header\":\x7b\"eventId\":\"9f1c2b3a-4d5e-4f60-8a7b-0c1d2e3f4a5b\","
            ++ "\"eventType\":\"unknown.thing\",\"timestamp\":\"2025-06-01T12:30:45Z\","
            ++ "\"source\":\"TestService\",\"jsonSchemaVersion\":\"v1\"\x7d,"
            ++ "\"context\":\x7b\"correlationId\":\"00000001-0002-0003-0004-000000000005\","
            ++ "\"userId\":null\x7d,"
            ++ "\"metadata\":\x7b\"traceId\":\"00000006-0007-0008-0009-00000000000a\","
            ++ "\"previousEventId\":null,\"causationId\":null\x7d,\"payload\":\x7b\x7d\x7d").data⟩,
        .log .debug logEventPublished], none) := by
  refine ⟨⟨.new "no stream configured for subject: unknown.thing", by decide⟩, ?_⟩
  decide!

/-- C7, amended. For every envelope whose event type matches no declared stream
pattern, `Publish` makes no routing check of its own: it returns an error exactly when
serialization fails or the broker rejects the append, and whenever serialization
succeeds it hands the message, with the event type as subject, to the broker. -/
theorem C7_unrouted_publish_left_to_broker (js : JetStream) (evt : Event)
    (_hroute : ∃ err, findStreamNameForSubject evt.Header.EventType = .error err) :
    ((Publish js evt).2 ≠ none ↔
      ((∃ err, jsonMarshalEvent evt = .error err) ∨
        ∃ data err, jsonMarshalEvent evt = .ok data ∧
          js.publishMsg ⟨evt.Header.EventType, data⟩ = some err)) ∧
    (∀ data, jsonMarshalEvent evt = .ok data →
      Call.publishMsg ⟨evt.Header.EventType, data⟩ ∈ (Publish js evt).1) := by
  unfold Publish
  cases hm : jsonMarshalEvent evt with
  | error e => simp
  | ok data =>
    cases hp : js.publishMsg ⟨evt.Header.EventType, data⟩ with
    | none => simp [hp]
    | some e => simp [hp]

/-- C7, amended, at the unroutable envelope and a broker that accepts: no error. -/
theorem C7_unrouted_publish_left_to_broker_witness :
    (∃ err, findStreamNameForSubject Event.unrouted.Header.EventType = .error err) ∧
    ((Publish JetStream.accepting Event.unrouted).2 ≠ none ↔
      ((∃ err, jsonMarshalEvent Event.unrouted = .error err) ∨
        ∃ data err, jsonMarshalEvent Event.unrouted = .ok data ∧
          JetStream.accepting.publishMsg ⟨Event.unrouted.Header.EventType, data⟩ = some err)) ∧
    (∀ data, jsonMarshalEvent Event.unrouted = .ok data →
      Call.publishMsg ⟨Event.unrouted.Header.EventType, data⟩
        ∈ (Publish JetStream.accepting Event.unrouted).1) :=
  ⟨⟨.new "no stream configured for subject: unknown.thing", by decide⟩,
    C7_unrouted_publish_left_to_broker JetStream.accepting Event.unrouted
      ⟨.new "no stream configured for subject: unknown.thing", by decide⟩⟩

/-- C8. `Publish` attempts the broker append at most once per call and never when
serialization of the envelope fails; it returns a non-nil error whenever serialization
fails or the append fails; and when it does append, the message subject is the
envelope's event type and the body is the envelope's JSON serialization. -/
theorem C8_publish_single_attempt (js : JetStream) (evt : Event) :
    (Publish js evt).1.countP Call.isPublishMsg ≤ 1 ∧
    (∀ err, jsonMarshalEvent evt = .error err →
      (∀ m, Call.publishMsg m ∉ (Publish js evt).1) ∧ (Publish js evt).2 ≠ none) ∧
    (∀ data err, jsonMarshalEvent evt = .ok data →
      js.publishMsg ⟨evt.Header.EventType, data⟩ = some err → (Publish js evt).2 ≠ none) ∧
    (∀ m, Call.publishMsg m ∈ (Publish js evt).1 →
      m.Subject = evt.Header.EventType ∧ jsonMarshalEvent evt = .ok m.Data) := by
  unfold Publish
  cases hm : jsonMarshalEvent evt with
  | error e => simp [Call.isPublishMsg]
  | ok data =>
    cases hp : js.publishMsg ⟨evt.Header.EventType, data⟩ with
    | none =>
      simp only [hp]
      refine ⟨by simp [Call.isPublishMsg, List.countP_cons], by simp, ?_, ?_⟩
      · intro d e hd
        cases hd
        simp [hp]
      intro m hmem
      simp at hmem
      simp [hmem]
    | some e =>
      simp only [hp]
      refine ⟨by simp [Call.isPublishMsg, List.countP_cons], by simp, by simp, ?_⟩
      intro m hmem
      simp at hmem
      simp [hmem]

/-! ## The wire format -/

/-- C10, at an envelope whose three optional identifiers are absent: the serialized
object still carries the keys `userId`, `previousEventId` and `causationId`, each with
the value `null`; the `omitempty` tag does not leave out a struct-valued field. -/
theorem C10_absent_ids_are_serialized :
    jsonMarshalEvent Event.withoutOptionalIDs =
      .ok ("\x7b\"header\":\x7b\"eventId\":\"9f1c2b3a-4d5e-4f60-8a7b-0c1d2e3f4a5b\","
        ++ "\"eventType\":\"user.created\",\"timestamp\":\"2025-06-01T12:30:45Z\","
        ++ "\"source\":\"IdentityService\",\"jsonSchemaVersion\":\"v1.0.0\"\x7d,"
        ++ "\"context\":\x7b\"correlationId\":\"00000001-0002-0003-0004-000000000005\","
        ++ "\"userId\":null\x7d,"
        ++ "\"metadata\":\x7b\"traceId\":\"00000006-0007-0008-0009-00000000000a\","
        ++ "\"previousEventId\":null,\"causationId\":null\x7d,\"payload\":\x7b\x7d\x7d").data ∧
    marshalEventContext Event.withoutOptionalIDs.Context =
      "\x7b\"correlationId\":\"00000001-0002-0003-0004-000000000005\",\"userId\":null\x7d".data ∧
    marshalEventMetadata Event.withoutOptionalIDs.Metadata =
      ("\x7b\"traceId\":\"00000006-0007-0008-0009-00000000000a\","
        ++ "\"previousEventId\":null,\"causationId\":null\x7d").data := by
  decide!

/-! ## Redelivery of a message to the audit subscriber -/

/-- The audit record `Handle` builds from an envelope once validation has passed and
identifier generation has yielded `id`. -/
theorem NewAuditLog_eq_ok (env : Env) (input : NewAuditLogInput) (id : UUID)
    (h1 : input.EventID.IsNil = false) (h2 : input.EventType ≠ "")
    (h3 : input.TraceID.IsNil = false) (hg : env.newUUID = .ok id) :
    ∃ record, NewAuditLog env input = .ok record := by
  simp [NewAuditLog, h1, h2, h3, hg]

theorem NewAuditLog_ok_valid (env : Env) (input : NewAuditLogInput) (record : AuditLog)
    (h : NewAuditLog env input = .ok record) :
    input.EventID.IsNil = false ∧ input.EventType ≠ "" ∧ input.TraceID.IsNil = false ∧
      ∃ id, env.newUUID = .ok id := by
  unfold NewAuditLog at h
  by_cases h1 : input.EventID.IsNil = true
  · simp [h1] at h
  by_cases h2 : input.EventType = ""
  · simp [h1, h2] at h
  by_cases h3 : input.TraceID.IsNil = true
  · simp [h1, h2, h3] at h
  simp only [Bool.not_eq_true] at h1 h3
  refine ⟨h1, h2, h3, ?_⟩
  cases hg : env.newUUID with
  | error err => simp [h1, h2, h3, hg] at h
  | ok id => exact ⟨id, rfl⟩

/-- When `Handle` succeeds on an envelope, its payload decodes and the audit record
passes validation. -/
theorem Handle_ok_inv (env : Env) (repo : AuditLog → Option GoError) (e : Event)
    (h : (Handle env repo e).2 = none) :
    (∃ p, jsonUnmarshalUserCreatedPayload e.Payload = .ok p) ∧
    e.Header.EventID.IsNil = false ∧ e.Header.EventType ≠ "" ∧
    e.Metadata.TraceID.IsNil = false ∧ ∃ id, env.newUUID = .ok id := by
  unfold Handle at h
  cases hp : jsonUnmarshalUserCreatedPayload e.Payload with
  | error err => simp [hp] at h
  | ok p =>
    refine ⟨⟨p, rfl⟩, ?_⟩
    simp only [hp] at h
    cases hl : NewAuditLog env ⟨e.Header.EventID, e.Header.EventType, e.Header.SchemaVersion,
        e.Context, e.Metadata.TraceID, e.Context.UserID, e.Payload⟩ with
    | error err => simp [hl] at h
    | ok record => exact NewAuditLog_ok_valid _ _ _ hl

/-- On an envelope whose payload decodes and whose audit record passes validation,
with identifier generation succeeding, `Handle` reaches the repository: it calls
`RegisterAuditLog` once and returns what the repository returned. -/
theorem Handle_reaches_repository (env : Env) (repo : AuditLog → Option GoError)
    (e : Event) (p : UserCreatedPayload) (id : UUID)
    (hp : jsonUnmarshalUserCreatedPayload e.Payload = .ok p)
    (h1 : e.Header.EventID.IsNil = false) (h2 : e.Header.EventType ≠ "")
    (h3 : e.Metadata.TraceID.IsNil = false) (hg : env.newUUID = .ok id) :
    ∃ record msg, Handle env repo e = ([.registerAuditLog record, msg], repo record) ∧
      msg.isRegisterAuditLog = false ∧ msg ≠ .ack := by
  obtain ⟨record, hr⟩ := NewAuditLog_eq_ok env ⟨e.Header.EventID, e.Header.EventType,
    e.Header.SchemaVersion, e.Context, e.Metadata.TraceID, e.Context.UserID, e.Payload⟩ id
    h1 h2 h3 hg
  unfold Handle
  simp only [hp, hr]
  cases hrepo : repo record with
  | none =>
    exact ⟨record, .log .info "user.created event audited successfully", by simp [hrepo], rfl,
      by simp⟩
  | some err =>
    exact ⟨record, .log .error "failed to save audit log to repository", by simp [hrepo], rfl,
      by simp⟩

theorem isRegisterAuditLog_registerAuditLog (r : AuditLog) :
    (Call.registerAuditLog r).isRegisterAuditLog = true := rfl

theorem isRegisterAuditLog_handler (e : Event) : (Call.handler e).isRegisterAuditLog = false :=
  rfl

theorem isRegisterAuditLog_log (l : LogLevel) (m : String) :
    (Call.log l m).isRegisterAuditLog = false := rfl

theorem isRegisterAuditLog_ack : Call.ack.isRegisterAuditLog = false := rfl

/-- One delivery to the audit subscriber of a message that decodes into an envelope
on which `Handle` reaches the repository: one `RegisterAuditLog` call; no `Ack` when
`Handle` fails; and when it succeeds exactly one `Ack`, placed after the handler's own
calls. -/
theorem delivery_trace (env : Env) (repo : AuditLog → Option GoError) (natsMsg : NatsMsg)
    (e : Event) (p : UserCreatedPayload) (id : UUID)
    (hdec : jsonUnmarshalEvent natsMsg.Data = .ok e)
    (hp : jsonUnmarshalUserCreatedPayload e.Payload = .ok p)
    (h1 : e.Header.EventID.IsNil = false) (h2 : e.Header.EventType ≠ "")
    (h3 : e.Metadata.TraceID.IsNil = false) (hg : env.newUUID = .ok id) :
    (consumeCallback (Handle env repo) natsMsg).countP Call.isRegisterAuditLog = 1 ∧
    ((Handle env repo e).2 ≠ none → Call.ack ∉ consumeCallback (Handle env repo) natsMsg) ∧
    ((Handle env repo e).2 = none →
      (consumeCallback (Handle env repo) natsMsg).count .ack = 1 ∧
      ∃ after, consumeCallback (Handle env repo) natsMsg
        = .handler e :: (Handle env repo e).1 ++ .ack :: after ∧ Call.ack ∉ after) := by
  obtain ⟨record, msg, hH, hmsg, hne⟩ := Handle_reaches_repository env repo e p id hp h1 h2 h3 hg
  unfold consumeCallback
  simp only [hdec, hH]
  cases hrepo : repo record with
  | some err =>
    simp [List.countP_cons, isRegisterAuditLog_registerAuditLog, isRegisterAuditLog_handler,
      isRegisterAuditLog_log, hmsg, Ne.symm hne]
  | none =>
    cases natsMsg.ackResult with
    | none =>
      simp [List.countP_cons, List.count_cons, isRegisterAuditLog_registerAuditLog,
        isRegisterAuditLog_handler, isRegisterAuditLog_log, isRegisterAuditLog_ack, hmsg, hne,
        Ne.symm hne]
    | some err =>
      simp [List.countP_cons, List.count_cons, isRegisterAuditLog_registerAuditLog,
        isRegisterAuditLog_handler, isRegisterAuditLog_log, isRegisterAuditLog_ack, hmsg, hne,
        Ne.symm hne]

/-- C5, as stated, fails: on three deliveries of the same well-formed `user.created`
message on which `Handle` fails twice and then succeeds, the first delivery, whose
failure is the failure of identifier generation, attempts no `RegisterAuditLog` at
all. -/
theorem C5_redelivery_counterexample :
    jsonUnmarshalEvent userCreatedBody = .ok Event.userCreated ∧
    (Handle Env.failing repoSucceeding Event.userCreated).2 ≠ none ∧
    (Handle Env.sample repoFailing Event.userCreated).2 ≠ none ∧
    (Handle Env.sample repoSucceeding Event.userCreated).2 = none ∧
    (consumeCallback (Handle Env.failing repoSucceeding) ⟨userCreatedBody, none, none⟩).countP
      Call.isRegisterAuditLog = 0 := by
  decide!

/-- C5, amended. Three successive deliveries of the same message, whose body decodes
into an envelope, to the consume callback with `UserCreatedSubscriber.Handle` as
handler, where identifier generation succeeds on the first two deliveries and the
handler fails on the first two and succeeds on the third: exactly one
`RegisterAuditLog` call is made per delivery, `Ack` is not called during either of the
first two deliveries, and `Ack` is called exactly once during the third, after the
handler has returned nil. -/
theorem C5_redelivery_until_success (body : Text) (e : Event) (m1 m2 m3 : NatsMsg)
    (env1 env2 env3 : Env) (repo1 repo2 repo3 : AuditLog → Option GoError) (id1 id2 : UUID)
    (hm1 : m1.Data = body) (hm2 : m2.Data = body) (hm3 : m3.Data = body)
    (hdec : jsonUnmarshalEvent body = .ok e)
    (hg1 : env1.newUUID = .ok id1) (hg2 : env2.newUUID = .ok id2)
    (hf1 : (Handle env1 repo1 e).2 ≠ none) (hf2 : (Handle env2 repo2 e).2 ≠ none)
    (hs3 : (Handle env3 repo3 e).2 = none) :
    (consumeCallback (Handle env1 repo1) m1).countP Call.isRegisterAuditLog = 1 ∧
    (consumeCallback (Handle env2 repo2) m2).countP Call.isRegisterAuditLog = 1 ∧
    (consumeCallback (Handle env3 repo3) m3).countP Call.isRegisterAuditLog = 1 ∧
    Call.ack ∉ consumeCallback (Handle env1 repo1) m1 ∧
    Call.ack ∉ consumeCallback (Handle env2 repo2) m2 ∧
    (consumeCallback (Handle env3 repo3) m3).count .ack = 1 ∧
    ∃ after, consumeCallback (Handle env3 repo3) m3
      = .handler e :: (Handle env3 repo3 e).1 ++ .ack :: after ∧ Call.ack ∉ after := by
  obtain ⟨⟨p, hp⟩, h1, h2, h3, id3, hg3⟩ := Handle_ok_inv env3 repo3 e hs3
  have d1 := delivery_trace env1 repo1 m1 e p id1 (hm1 ▸ hdec) hp h1 h2 h3 hg1
  have d2 := delivery_trace env2 repo2 m2 e p id2 (hm2 ▸ hdec) hp h1 h2 h3 hg2
  have d3 := delivery_trace env3 repo3 m3 e p id3 (hm3 ▸ hdec) hp h1 h2 h3 hg3
  exact ⟨d1.1, d2.1, d3.1, d1.2.1 hf1, d2.2.1 hf2, (d3.2.2 hs3).1, (d3.2.2 hs3).2⟩

/-- C5, amended, at the sample `user.created` message: the repository fails on the
first two deliveries and succeeds on the third. -/
theorem C5_redelivery_until_success_witness :
    (consumeCallback (Handle Env.sample repoFailing) ⟨userCreatedBody, none, none⟩).countP
      Call.isRegisterAuditLog = 1 ∧
    (consumeCallback (Handle Env.sample repoFailing) ⟨userCreatedBody, none, none⟩).countP
      Call.isRegisterAuditLog = 1 ∧
    (consumeCallback (Handle Env.sample repoSucceeding) ⟨userCreatedBody, none, none⟩).countP
      Call.isRegisterAuditLog = 1 ∧
    Call.ack ∉ consumeCallback (Handle Env.sample repoFailing) ⟨userCreatedBody, none, none⟩ ∧
    Call.ack ∉ consumeCallback (Handle Env.sample repoFailing) ⟨userCreatedBody, none, none⟩ ∧
    (consumeCallback (Handle Env.sample repoSucceeding) ⟨userCreatedBody, none, none⟩).count
      .ack = 1 ∧
    ∃ after, consumeCallback (Handle Env.sample repoSucceeding) ⟨userCreatedBody, none, none⟩
      = .handler Event.userCreated :: (Handle Env.sample repoSucceeding Event.userCreated).1
          ++ .ack :: after ∧ Call.ack ∉ after :=
  C5_redelivery_until_success userCreatedBody Event.userCreated
    ⟨userCreatedBody, none, none⟩ ⟨userCreatedBody, none, none⟩ ⟨userCreatedBody, none, none⟩
    Env.sample Env.sample Env.sample repoFailing repoFailing repoSucceeding
    ⟨0x9f1c2b3a, 0x4d5e, 0x4f60, 0x8a7b, 0x0c1d2e3f4a5b⟩
    ⟨0x9f1c2b3a, 0x4d5e, 0x4f60, 0x8a7b, 0x0c1d2e3f4a5b⟩
    rfl rfl rfl (by decide!) rfl rfl (by decide!) (by decide!) (by decide!)

/-! ## The scanner on its own output -/

theorem emit_eq_some_iff (o : Text) (x : Option (Text × Text)) (out rest : Text) :
    emit o x = some (out, rest) ↔ ∃ o1, x = some (o1, rest) ∧ out = o ++ o1 := by
  cases x with
  | none => simp [emit]
  | some p =>
    rcases p with ⟨a, b⟩
    simp only [emit, Option.some.injEq, Prod.mk.injEq]
    constructor
    · rintro ⟨h1, h2⟩
      exact ⟨a, ⟨rfl, h2⟩, h1.symm⟩
    · rintro ⟨o1, ⟨h1, h2⟩, h3⟩
      exact ⟨by rw [h3, h1], h2⟩

theorem emit_some (o a b : Text) : emit o (some (a, b)) = some (o ++ a, b) := rfl

/-- Rescanning what `compact` wrote for a character of a string body gives the same
text back. -/
theorem scanString_compactChar (c : Char) (h1 : c ≠ '"') (h2 : c ≠ '\\')
    (h3 : ¬ c.toNat < 0x20) (x : Text) :
    scanString (compactChar c ++ x) = emit (compactChar c) (scanString x) := by
  unfold compactChar
  split_ifs with a1 a2 a3 a4 a5
  · simp [scanString, isHex, isDigit]
  · simp [scanString, isHex, isDigit]
  · simp [scanString, isHex, isDigit]
  · simp [scanString, isHex, isDigit]
  · simp [scanString, isHex, isDigit]
  · have e : compactChar c = [c] := by simp [compactChar, a1, a2, a3, a4, a5]
    simp only [List.singleton_append]
    rw [scanString.eq_def]
    simp [h1, h2, h3, e]

/-- A successfully scanned string body rescans to itself, whatever follows it. -/
theorem scanString_rescan_aux : ∀ (n : Nat) (s : Text), s.length ≤ n →
    ∀ out rest, scanString s = some (out, rest) →
      ∀ tail, scanString (out ++ tail) = some (out, tail) := by
  intro n
  induction n with
  | zero =>
    intro s hs out rest h
    have : s = [] := List.length_eq_zero.mp (Nat.le_zero.mp hs)
    subst this
    simp [scanString] at h
  | succ n ih =>
    intro s hs out rest h tail
    cases s with
    | nil => simp [scanString] at h
    | cons c r =>
      rw [scanString.eq_def] at h
      simp only at h
      by_cases h1 : c = '"'
      · simp only [h1, if_true, Option.some.injEq, Prod.mk.injEq] at h
        rw [← h.1, List.singleton_append, scanString.eq_def]
        simp
      by_cases h2 : c = '\\'
      · simp only [h1, h2, if_false, if_true] at h
        cases r with
        | nil => simp at h
        | cons e r1 =>
          simp only at h
          by_cases he : (e = '"' || e = '\\' || e = '/' || e = 'b' || e = 'f' || e = 'n'
              || e = 'r' || e = 't') = true
          · simp only [he, if_true] at h
            obtain ⟨o1, ho1, hout⟩ := (emit_eq_some_iff _ _ _ _).mp h
            have hrec := ih r1 (by simp at hs ⊢; omega) o1 rest ho1 tail
            rw [hout]
            simp only [List.cons_append, List.nil_append]
            rw [scanString.eq_def]
            simp only [he, if_true]
            rw [hrec]
            simp [emit]
          · simp only [he, Bool.false_eq_true, if_false] at h
            by_cases hu : e = 'u'
            · simp only [hu, if_true] at h
              match r1, h, hs with
              | h1' :: h2' :: h3' :: h4' :: r2, h, hs =>
                simp only at h
                by_cases hx : (isHex h1' && isHex h2' && isHex h3' && isHex h4') = true
                · simp only [hx, if_true] at h
                  obtain ⟨o1, ho1, hout⟩ := (emit_eq_some_iff _ _ _ _).mp h
                  have hrec := ih r2 (by simp at hs ⊢; omega) o1 rest ho1 tail
                  rw [hout]
                  simp only [List.cons_append, List.nil_append]
                  rw [scanString.eq_def]
                  simp only [hx, if_true]
                  rw [hrec]
                  simp [emit]
                · simp [hx] at h
              | [], h, _ => simp at h
              | [_], h, _ => simp at h
              | [_, _], h, _ => simp at h
              | [_, _, _], h, _ => simp at h
            · simp [hu] at h
      · simp only [h1, h2, if_false] at h
        by_cases h3 : c.toNat < 0x20
        · simp [h3] at h
        · simp only [h3, if_false] at h
          obtain ⟨o1, ho1, hout⟩ := (emit_eq_some_iff _ _ _ _).mp h
          have hrec := ih r (by simp at hs ⊢; omega) o1 rest ho1 tail
          rw [hout, List.append_assoc, scanString_compactChar c h1 h2 h3, hrec]
          simp [emit]

theorem scanString_rescan (s out rest : Text) (h : scanString s = some (out, rest))
    (tail : Text) : scanString (out ++ tail) = some (out, tail) :=
  scanString_rescan_aux s.length s (Nat.le_refl _) out rest h tail

theorem spanDigits_fst_digits (s : Text) : ∀ c ∈ (spanDigits s).1, isDigit c = true := by
  induction s with
  | nil => simp [spanDigits]
  | cons d r ih =>
    unfold spanDigits
    by_cases hd : isDigit d = true
    · simp only [hd, if_true, List.cons_eq_cons, List.mem_cons]
      rintro c (rfl | hc)
      · exact hd
      · exact ih c hc
    · simp [hd]

theorem spanDigits_append (ds tail : Text) (hds : ∀ c ∈ ds, isDigit c = true)
    (ht : ∀ c r, tail = c :: r → isDigit c = false) :
    spanDigits (ds ++ tail) = (ds, tail) := by
  induction ds with
  | nil =>
    cases tail with
    | nil => simp [spanDigits]
    | cons c r =>
      simp only [List.nil_append]
      unfold spanDigits
      simp [ht c r rfl]
  | cons d r ih =>
    have hd : isDigit d = true := hds d (List.mem_cons_self _ _)
    have hr := ih (fun c hc => hds c (List.mem_cons_of_mem _ hc))
    simp only [List.cons_append]
    unfold spanDigits
    simp [hd, hr]

theorem delimiter_not_digit (tail : Text) (h : startsWithDelimiter tail = true) :
    ∀ c r, tail = c :: r → isDigit c = false := by
  intro c r hc
  subst hc
  simp only [startsWithDelimiter, Bool.or_eq_true, decide_eq_true_eq] at h
  rcases h with (rfl | rfl) | rfl <;> decide

/-- The exponent part of a number rescans to itself before a delimiter. -/
theorem scanExp_rescan (acc s out rest : Text) (h : scanExp acc s = some (out, rest)) :
    ∃ sfx, out = acc ++ sfx ∧
      (∀ c r, sfx = c :: r → c = 'e' ∨ c = 'E') ∧
      ∀ acc1 tail, startsWithDelimiter tail = true →
        scanExp acc1 (sfx ++ tail) = some (acc1 ++ sfx, tail) := by
  have rescan_nil : ∀ acc1 tail, startsWithDelimiter tail = true →
      scanExp acc1 ([] ++ tail) = some (acc1 ++ [], tail) := by
    intro acc1 tail ht
    cases tail with
    | nil => simp [startsWithDelimiter] at ht
    | cons c r =>
      simp only [startsWithDelimiter, Bool.or_eq_true, decide_eq_true_eq] at ht
      rcases ht with (rfl | rfl) | rfl <;> simp [scanExp]
  unfold scanExp at h
  cases s with
  | nil =>
    simp only [Option.some.injEq, Prod.mk.injEq] at h
    exact ⟨[], by simp [h.1], by simp, rescan_nil⟩
  | cons e r =>
    simp only at h
    by_cases he : (e = 'e' || e = 'E') = true
    · simp only [he, if_true] at h
      have he' : e = 'e' ∨ e = 'E' := by simpa using he
      cases r with
      | nil => simp at h
      | cons g r1 =>
        simp only at h
        by_cases hg : (g = '+' || g = '-') = true
        · simp only [hg, if_true] at h
          by_cases hd : (spanDigits r1).1 = []
          · simp [hd] at h
          · simp only [hd, if_false, Option.some.injEq, Prod.mk.injEq] at h
            refine ⟨e :: g :: (spanDigits r1).1, h.1.symm, ?_, ?_⟩
            · intro c r hc
              simp only [List.cons.injEq] at hc
              rw [← hc.1]
              exact he'
            · intro acc1 tail ht
              have hsp := spanDigits_append (spanDigits r1).1 tail (spanDigits_fst_digits r1)
                (delimiter_not_digit tail ht)
              simp only [List.cons_append]
              unfold scanExp
              simp [he, hg, hsp, hd]
        · simp only [hg, Bool.false_eq_true, if_false] at h
          by_cases hd : (spanDigits (g :: r1)).1 = []
          · simp [hd] at h
          · simp only [hd, if_false, Option.some.injEq, Prod.mk.injEq] at h
            refine ⟨e :: (spanDigits (g :: r1)).1, h.1.symm, ?_, ?_⟩
            · intro c r hc
              simp only [List.cons.injEq] at hc
              rw [← hc.1]
              exact he'
            · intro acc1 tail ht
              have hsp := spanDigits_append (spanDigits (g :: r1)).1 tail
                (spanDigits_fst_digits (g :: r1)) (delimiter_not_digit tail ht)
              -- the digit run starts with `g`
              have hgd : isDigit g = true := by
                by_contra hnd
                apply hd
                unfold spanDigits
                simp [hnd]
              have hrun : (spanDigits (g :: r1)).1 = g :: (spanDigits r1).1 := by
                conv_lhs => unfold spanDigits
                simp [hgd]
              rw [hrun] at hsp ⊢
              simp only [List.cons_append] at hsp ⊢
              unfold scanExp
              simp [he, hg, hsp]
    · simp only [he, Bool.false_eq_true, if_false, Option.some.injEq, Prod.mk.injEq] at h
      exact ⟨[], by simp [h.1], by simp, rescan_nil⟩

theorem head_after_number_part (sfx tail : Text)
    (hs : ∀ c r, sfx = c :: r → c = '.' ∨ c = 'e' ∨ c = 'E')
    (ht : startsWithDelimiter tail = true) :
    ∀ c r, sfx ++ tail = c :: r → isDigit c = false := by
  intro c r hc
  cases sfx with
  | nil => exact delimiter_not_digit tail ht c r hc
  | cons d s1 =>
    simp only [List.cons_append, List.cons.injEq] at hc
    rw [← hc.1]
    rcases hs d s1 rfl with rfl | rfl | rfl <;> decide

theorem delimiter_ne_dot (tail : Text) (ht : startsWithDelimiter tail = true) :
    ∃ c r, tail = c :: r ∧ c ≠ '.' ∧ c ≠ '-' ∧ isDigit c = false := by
  cases tail with
  | nil => simp [startsWithDelimiter] at ht
  | cons c r =>
    refine ⟨c, r, rfl, ?_⟩
    simp only [startsWithDelimiter, Bool.or_eq_true, decide_eq_true_eq] at ht
    rcases ht with (rfl | rfl) | rfl <;> decide

/-- The fraction and exponent parts of a number rescan to themselves before a
delimiter. -/
theorem scanFrac_rescan (acc s out rest : Text) (h : scanFrac acc s = some (out, rest)) :
    ∃ sfx, out = acc ++ sfx ∧
      (∀ c r, sfx = c :: r → c = '.' ∨ c = 'e' ∨ c = 'E') ∧
      ∀ acc1 tail, startsWithDelimiter tail = true →
        scanFrac acc1 (sfx ++ tail) = some (acc1 ++ sfx, tail) := by
  -- the case where the fraction is absent: the exponent scanner decides
  have viaExp : ∀ s1, (∀ c r, s1 = c :: r → c ≠ '.') → scanExp acc s1 = some (out, rest) →
      ∃ sfx, out = acc ++ sfx ∧
        (∀ c r, sfx = c :: r → c = '.' ∨ c = 'e' ∨ c = 'E') ∧
        ∀ acc1 tail, startsWithDelimiter tail = true →
          scanFrac acc1 (sfx ++ tail) = some (acc1 ++ sfx, tail) := by
    intro s1 _ hexp
    obtain ⟨sfx, hout, hhead, hre⟩ := scanExp_rescan acc s1 out rest hexp
    refine ⟨sfx, hout, fun c r hc => Or.inr (hhead c r hc), ?_⟩
    intro acc1 tail ht
    have := hre acc1 tail ht
    obtain ⟨c, r, hc, hdot, _, _⟩ := delimiter_ne_dot tail ht
    cases sfx with
    | nil =>
      rw [hc] at this ⊢
      simp only [List.nil_append] at this ⊢
      unfold scanFrac
      simp only [hdot, if_false]
      exact this
    | cons d s2 =>
      simp only [List.cons_append] at this ⊢
      have hd : d ≠ '.' := by
        rcases hhead d s2 rfl with rfl | rfl <;> decide
      unfold scanFrac
      simp only [hd, if_false]
      exact this
  unfold scanFrac at h
  cases s with
  | nil =>
    simp only [Option.some.injEq, Prod.mk.injEq] at h
    exact viaExp [] (by simp) (by simp [scanExp, h.1, h.2])
  | cons d r =>
    simp only at h
    by_cases hd : d = '.'
    · simp only [hd, if_true] at h
      by_cases hds : (spanDigits r).1 = []
      · simp [hds] at h
      · simp only [hds, if_false] at h
        obtain ⟨sfx, hout, hhead, hre⟩ := scanExp_rescan _ _ out rest h
        refine ⟨'.' :: (spanDigits r).1 ++ sfx, by simp [hout], ?_, ?_⟩
        · intro c r1 hc
          simp only [List.cons_append, List.cons.injEq] at hc
          exact Or.inl hc.1.symm
        · intro acc1 tail ht
          have hsp := spanDigits_append (spanDigits r).1 (sfx ++ tail) (spanDigits_fst_digits r)
            (head_after_number_part sfx tail (fun c r hc => Or.inr (hhead c r hc)) ht)
          have := hre (acc1 ++ '.' :: (spanDigits r).1) tail ht
          simp only [List.cons_append, List.append_assoc]
          unfold scanFrac
          simp only [if_true, hsp, hds, if_false]
          rw [this]
          simp
    · simp only [hd, if_false] at h
      exact viaExp (d :: r) (by intro c r1 hc; simp only [List.cons.injEq] at hc; rw [← hc.1]; exact hd) h

/-- The digits, fraction and exponent of a number rescan to themselves before a
delimiter. -/
theorem scanInt_rescan (acc s out rest : Text) (h : scanInt acc s = some (out, rest)) :
    ∃ sfx, out = acc ++ sfx ∧
      (∃ c r, sfx = c :: r ∧ isDigit c = true) ∧
      ∀ acc1 tail, startsWithDelimiter tail = true →
        scanInt acc1 (sfx ++ tail) = some (acc1 ++ sfx, tail) := by
  unfold scanInt at h
  cases s with
  | nil => simp at h
  | cons c r =>
    simp only at h
    by_cases hc : c = '0'
    · simp only [hc, if_true] at h
      obtain ⟨sfx, hout, hhead, hre⟩ := scanFrac_rescan _ _ out rest h
      refine ⟨'0' :: sfx, by simp [hout], ⟨'0', sfx, rfl, by decide⟩, ?_⟩
      intro acc1 tail ht
      have := hre (acc1 ++ ['0']) tail ht
      simp only [List.cons_append]
      unfold scanInt
      simp only [if_true]
      rw [this]
      simp
    · simp only [hc, if_false] at h
      by_cases hd : isDigit c = true
      · simp only [hd, if_true] at h
        obtain ⟨sfx, hout, hhead, hre⟩ := scanFrac_rescan _ _ out rest h
        refine ⟨c :: (spanDigits r).1 ++ sfx, by simp [hout], ⟨c, _, rfl, hd⟩, ?_⟩
        intro acc1 tail ht
        have hsp := spanDigits_append (spanDigits r).1 (sfx ++ tail) (spanDigits_fst_digits r)
          (head_after_number_part sfx tail hhead ht)
        have := hre (acc1 ++ c :: (spanDigits r).1) tail ht
        simp only [List.cons_append, List.append_assoc]
        unfold scanInt
        simp only [hc, if_false, hd, if_true, hsp]
        rw [this]
        simp
      · simp [hd] at h

/-- A number rescans to itself before a delimiter; it starts with a minus sign or a
digit. -/
theorem scanNumber_rescan (s out rest : Text) (h : scanNumber s = some (out, rest)) :
    (∃ c r, out = c :: r ∧ (c = '-' ∨ isDigit c = true)) ∧
      ∀ tail, startsWithDelimiter tail = true →
        scanNumber (out ++ tail) = some (out, tail) := by
  unfold scanNumber at h
  cases s with
  | nil => simp at h
  | cons c r =>
    simp only at h
    by_cases hc : c = '-'
    · simp only [hc, if_true] at h
      obtain ⟨sfx, hout, _, hre⟩ := scanInt_rescan _ _ out rest h
      refine ⟨⟨'-', sfx, by simp [hout], Or.inl rfl⟩, ?_⟩
      intro tail ht
      have := hre ['-'] tail ht
      rw [hout]
      simp only [List.singleton_append, List.cons_append] at this ⊢
      unfold scanNumber
      simp only [if_true]
      exact this
    · simp only [hc, if_false] at h
      obtain ⟨sfx, hout, ⟨d, r1, hsfx, hd⟩, hre⟩ := scanInt_rescan _ _ out rest h
      simp only [List.nil_append] at hout
      refine ⟨⟨d, r1, by rw [hout, hsfx], Or.inr hd⟩, ?_⟩
      intro tail ht
      have := hre [] tail ht
      simp only [List.nil_append] at this
      have hdm : d ≠ '-' := by
        rintro rfl
        revert hd
        decide
      subst hout
      subst hsfx
      simp only [List.cons_append] at this ⊢
      unfold scanNumber
      simp only [hdm, if_false]
      exact this

theorem skipSpace_cons_of_not_space (c : Char) (r : Text) (h : isSpace c = false) :
    skipSpace (c :: r) = c :: r := by
  simp [skipSpace, h]

theorem isValueStart_not_space (c : Char) (h : isValueStart c = true) : isSpace c = false := by
  unfold isValueStart at h
  simp only [Bool.or_eq_true, decide_eq_true_eq] at h
  rcases h with ((((((rfl | rfl) | rfl) | rfl) | rfl) | rfl) | rfl) | hd
  all_goals first
    | decide
    | (unfold isDigit at hd
       simp only [Bool.and_eq_true, decide_eq_true_eq] at hd
       unfold isSpace
       simp only [Bool.or_eq_false_iff, decide_eq_false_iff_not]
       refine ⟨⟨⟨?_, ?_⟩, ?_⟩, ?_⟩ <;> (rintro rfl; revert hd; decide))

theorem isValueStart_not_close (c : Char) (h : isValueStart c = true) :
    c ≠ ']' ∧ c ≠ '}' := by
  unfold isValueStart at h
  simp only [Bool.or_eq_true, decide_eq_true_eq] at h
  rcases h with ((((((rfl | rfl) | rfl) | rfl) | rfl) | rfl) | rfl) | hd
  all_goals first
    | decide
    | (unfold isDigit at hd
       simp only [Bool.and_eq_true, decide_eq_true_eq] at hd
       constructor <;> (rintro rfl; revert hd; decide))

theorem scanValue_zero (d : Nat) (s : Text) : scanValue 0 d s = none := by
  unfold scanValue
  rfl

theorem scanMembers_zero (d : Nat) (s : Text) : scanMembers 0 d s = none := by
  unfold scanMembers
  rfl

theorem scanElements_zero (d : Nat) (s : Text) : scanElements 0 d s = none := by
  unfold scanElements
  rfl

theorem scanValue_succ_cons (f depth : Nat) (c : Char) (r : Text) :
    scanValue (f + 1) depth (c :: r) =
      if c = '"' then emit ['"'] (scanString r)
      else if c = '{' then
        if depth < maxNestingDepth then
          match skipSpace r with
          | [] => none
          | d :: r1 =>
            if d = '}' then some (['{', '}'], r1)
            else emit ['{'] (scanMembers f (depth + 1) (d :: r1))
        else none
      else if c = '[' then
        if depth < maxNestingDepth then
          match skipSpace r with
          | [] => none
          | d :: r1 =>
            if d = ']' then some (['[', ']'], r1)
            else emit ['['] (scanElements f (depth + 1) (d :: r1))
        else none
      else if c = 't' then scanLiteral ['t', 'r', 'u', 'e'] (c :: r)
      else if c = 'f' then scanLiteral ['f', 'a', 'l', 's', 'e'] (c :: r)
      else if c = 'n' then scanLiteral ['n', 'u', 'l', 'l'] (c :: r)
      else scanNumber (c :: r) := by
  rw [scanValue]

theorem scanValue_succ_nil (f d : Nat) : scanValue (f + 1) d [] = none := by
  rw [scanValue]

theorem scanMembers_succ_cons (f depth : Nat) (c : Char) (r : Text) :
    scanMembers (f + 1) depth (c :: r) =
      if c = '"' then
        match scanString r with
        | none => none
        | some (key, r1) =>
          match skipSpace r1 with
          | [] => none
          | d :: r2 =>
            if d = ':' then
              match scanValue f depth (skipSpace r2) with
              | none => none
              | some (val, r3) =>
                match skipSpace r3 with
                | [] => none
                | e :: r4 =>
                  if e = '}' then some ('"' :: key ++ ':' :: val ++ ['}'], r4)
                  else if e = ',' then
                    emit ('"' :: key ++ ':' :: val ++ [','])
                      (scanMembers f depth (skipSpace r4))
                  else none
            else none
      else none := by
  rw [scanMembers]

theorem scanMembers_succ_nil (f d : Nat) : scanMembers (f + 1) d [] = none := by
  rw [scanMembers]

theorem scanElements_succ (f depth : Nat) (s : Text) :
    scanElements (f + 1) depth s =
      match scanValue f depth s with
      | none => none
      | some (val, r1) =>
        match skipSpace r1 with
        | [] => none
        | e :: r2 =>
          if e = ']' then some (val ++ [']'], r2)
          else if e = ',' then emit (val ++ [',']) (scanElements f depth (skipSpace r2))
          else none := by
  rw [scanElements]

theorem scanLiteral_rescan (lit s out rest : Text) (h : scanLiteral lit s = some (out, rest))
    (tail : Text) : out = lit ∧ scanLiteral lit (out ++ tail) = some (out, tail) := by
  unfold scanLiteral at h
  by_cases hp : hasPrefix s lit = true
  · simp only [hp, if_true, Option.some.injEq, Prod.mk.injEq] at h
    refine ⟨h.1.symm, ?_⟩
    rw [← h.1]
    unfold scanLiteral hasPrefix
    simp
  · simp [hp] at h

theorem rescanValue_succ (f : Nat) (hm : RescanMembers f) (he : RescanElements f) :
    RescanValue (f + 1) := by
  intro dep s out rest h
  cases s with
  | nil => simp [scanValue_succ_nil] at h
  | cons c r =>
    rw [scanValue_succ_cons] at h
    by_cases h1 : c = '"'
    · rw [if_pos h1] at h
      obtain ⟨o1, ho1, hout⟩ := (emit_eq_some_iff _ _ _ _).mp h
      simp only [List.cons_append, List.nil_append] at hout
      refine ⟨⟨'"', o1, hout, by decide⟩, ?_⟩
      intro g tail _ hg
      cases g with
      | zero => simp at hg
      | succ g =>
        rw [hout]
        simp only [List.cons_append]
        rw [scanValue_succ_cons, if_pos rfl, scanString_rescan r o1 rest ho1 tail]
        rfl
    rw [if_neg h1] at h
    by_cases h2 : c = '{'
    · rw [if_pos h2] at h
      by_cases hdep : dep < maxNestingDepth
      swap
      · rw [if_neg hdep] at h
        cases h
      rw [if_pos hdep] at h
      cases hsk : skipSpace r with
      | nil => simp [hsk] at h
      | cons d r1 =>
        simp only [hsk] at h
        by_cases hd : d = '}'
        · rw [if_pos hd] at h
          simp only [Option.some.injEq, Prod.mk.injEq] at h
          refine ⟨⟨'{', ['}'], h.1.symm, by decide⟩, ?_⟩
          intro g tail _ hg
          cases g with
          | zero => simp at hg
          | succ g =>
            rw [← h.1]
            simp only [List.cons_append, List.nil_append]
            rw [scanValue_succ_cons, if_neg (by decide), if_pos rfl, if_pos hdep,
              skipSpace_cons_of_not_space _ _ (by decide)]
            simp
        · rw [if_neg hd] at h
          obtain ⟨o1, ho1, hout⟩ := (emit_eq_some_iff _ _ _ _).mp h
          simp only [List.cons_append, List.nil_append] at hout
          obtain ⟨⟨m1, hm1⟩, hre⟩ := hm _ _ _ _ ho1
          refine ⟨⟨'{', o1, hout, by decide⟩, ?_⟩
          intro g tail _ hg
          cases g with
          | zero => simp at hg
          | succ g =>
            have hlen : o1.length < g := by
              rw [hout] at hg
              simp at hg ⊢
              omega
            have := hre g tail hlen
            rw [hout]
            simp only [List.cons_append]
            rw [scanValue_succ_cons, if_neg (by decide), if_pos rfl, if_pos hdep]
            rw [hm1] at this ⊢
            simp only [List.cons_append] at this ⊢
            rw [skipSpace_cons_of_not_space _ _ (by decide)]
            simp only [if_neg (show ¬ ('"' : Char) = '}' by decide)]
            rw [this]
            rfl
    rw [if_neg h2] at h
    by_cases h3 : c = '['
    · rw [if_pos h3] at h
      by_cases hdep : dep < maxNestingDepth
      swap
      · rw [if_neg hdep] at h
        cases h
      rw [if_pos hdep] at h
      cases hsk : skipSpace r with
      | nil => simp [hsk] at h
      | cons d r1 =>
        simp only [hsk] at h
        by_cases hd : d = ']'
        · rw [if_pos hd] at h
          simp only [Option.some.injEq, Prod.mk.injEq] at h
          refine ⟨⟨'[', [']'], h.1.symm, by decide⟩, ?_⟩
          intro g tail _ hg
          cases g with
          | zero => simp at hg
          | succ g =>
            rw [← h.1]
            simp only [List.cons_append, List.nil_append]
            rw [scanValue_succ_cons, if_neg (by decide), if_neg (by decide), if_pos rfl,
              if_pos hdep, skipSpace_cons_of_not_space _ _ (by decide)]
            simp
        · rw [if_neg hd] at h
          obtain ⟨o1, ho1, hout⟩ := (emit_eq_some_iff _ _ _ _).mp h
          simp only [List.cons_append, List.nil_append] at hout
          obtain ⟨⟨e1, r2, he1, hstart⟩, hre⟩ := he _ _ _ _ ho1
          refine ⟨⟨'[', o1, hout, by decide⟩, ?_⟩
          intro g tail _ hg
          cases g with
          | zero => simp at hg
          | succ g =>
            have hlen : o1.length < g := by
              rw [hout] at hg
              simp at hg ⊢
              omega
            have := hre g tail hlen
            rw [hout]
            simp only [List.cons_append]
            rw [scanValue_succ_cons, if_neg (by decide), if_neg (by decide), if_pos rfl,
              if_pos hdep]
            rw [he1] at this ⊢
            simp only [List.cons_append] at this ⊢
            rw [skipSpace_cons_of_not_space _ _ (isValueStart_not_space e1 hstart)]
            simp only [if_neg (isValueStart_not_close e1 hstart).1]
            rw [this]
            rfl
    rw [if_neg h3] at h
    -- the three literals
    have literal : ∀ lit : Text, (∃ l0 ls, lit = l0 :: ls ∧ isValueStart l0 = true ∧
          ∀ g tl, scanValue (g + 1) dep (l0 :: (ls ++ tl))
            = scanLiteral lit (l0 :: (ls ++ tl))) →
        scanLiteral lit (c :: r) = some (out, rest) →
        (∃ c r, out = c :: r ∧ isValueStart c = true) ∧
          ∀ g tail, startsWithDelimiter tail = true → out.length < g →
            scanValue g dep (out ++ tail) = some (out, tail) := by
      rintro lit ⟨l0, ls, hlit, hstart, hdisp⟩ hscan
      subst hlit
      refine ⟨⟨l0, ls, (scanLiteral_rescan _ _ _ _ hscan []).1, hstart⟩, ?_⟩
      intro g tail _ hg
      cases g with
      | zero => simp at hg
      | succ g =>
        obtain ⟨ho, hre⟩ := scanLiteral_rescan _ _ _ _ hscan tail
        rw [ho] at hre ⊢
        simp only [List.cons_append] at hre ⊢
        rw [hdisp g tail]
        exact hre
    by_cases h4 : c = 't'
    · rw [if_pos h4] at h
      exact literal _ ⟨'t', ['r', 'u', 'e'], rfl, by decide, fun g tl => by
        rw [scanValue_succ_cons, if_neg (by decide), if_neg (by decide), if_neg (by decide),
          if_pos rfl]⟩ h
    rw [if_neg h4] at h
    by_cases h5 : c = 'f'
    · rw [if_pos h5] at h
      exact literal _ ⟨'f', ['a', 'l', 's', 'e'], rfl, by decide, fun g tl => by
        rw [scanValue_succ_cons, if_neg (by decide), if_neg (by decide), if_neg (by decide),
          if_neg (by decide), if_pos rfl]⟩ h
    rw [if_neg h5] at h
    by_cases h6 : c = 'n'
    · rw [if_pos h6] at h
      exact literal _ ⟨'n', ['u', 'l', 'l'], rfl, by decide, fun g tl => by
        rw [scanValue_succ_cons, if_neg (by decide), if_neg (by decide), if_neg (by decide),
          if_neg (by decide), if_neg (by decide), if_pos rfl]⟩ h
    rw [if_neg h6] at h
    -- a number
    obtain ⟨⟨d, r1, hd, hstart⟩, hre⟩ := scanNumber_rescan _ _ _ h
    have hvs : isValueStart d = true := by
      unfold isValueStart
      rcases hstart with rfl | hdig
      · decide
      · simp [hdig]
    have hnot : d ≠ '"' ∧ d ≠ '{' ∧ d ≠ '[' ∧ d ≠ 't' ∧ d ≠ 'f' ∧ d ≠ 'n' := by
      rcases hstart with rfl | hdig
      · decide
      · refine ⟨?_, ?_, ?_, ?_, ?_, ?_⟩ <;> (rintro rfl; revert hdig; decide)
    refine ⟨⟨d, r1, hd, hvs⟩, ?_⟩
    intro g tail ht hg
    cases g with
    | zero => simp at hg
    | succ g =>
      have := hre tail ht
      rw [hd] at this ⊢
      simp only [List.cons_append] at this ⊢
      rw [scanValue_succ_cons, if_neg hnot.1, if_neg hnot.2.1, if_neg hnot.2.2.1,
        if_neg hnot.2.2.2.1, if_neg hnot.2.2.2.2.1, if_neg hnot.2.2.2.2.2]
      exact this

theorem rescanMembers_succ (f : Nat) (hv : RescanValue f) (hm : RescanMembers f) :
    RescanMembers (f + 1) := by
  intro dep s out rest h
  cases s with
  | nil => simp [scanMembers_succ_nil] at h
  | cons c r =>
    rw [scanMembers_succ_cons] at h
    by_cases hc : c = '"'
    swap
    · simp [hc] at h
    rw [if_pos hc] at h
    cases hkey : scanString r with
    | none => simp [hkey] at h
    | some kr =>
      rcases kr with ⟨key, r1⟩
      simp only [hkey] at h
      cases hsk : skipSpace r1 with
      | nil => simp [hsk] at h
      | cons d r2 =>
        simp only [hsk] at h
        by_cases hd : d = ':'
        swap
        · simp [hd] at h
        rw [if_pos hd] at h
        cases hval : scanValue f dep (skipSpace r2) with
        | none => simp [hval] at h
        | some vr =>
          rcases vr with ⟨val, r3⟩
          simp only [hval] at h
          obtain ⟨⟨v0, vs, hvs, hstart⟩, hvre⟩ := hv _ _ _ _ hval
          cases hsk3 : skipSpace r3 with
          | nil => simp [hsk3] at h
          | cons e r4 =>
            simp only [hsk3] at h
            -- rescanning the key, the colon and the value, whatever follows
            have front : ∀ g (after : Text), startsWithDelimiter after = true →
                val.length < g →
                scanMembers (g + 1) dep ('"' :: key ++ ':' :: val ++ after) =
                  match skipSpace after with
                  | [] => none
                  | e :: r4 =>
                    if e = '}' then some ('"' :: key ++ ':' :: val ++ ['}'], r4)
                    else if e = ',' then
                      emit ('"' :: key ++ ':' :: val ++ [','])
                        (scanMembers g dep (skipSpace r4))
                    else none := by
              intro g after hafter hg
              have hk := scanString_rescan r key r1 hkey (':' :: val ++ after)
              have hvr := hvre g after hafter hg
              have hskv : skipSpace (val ++ after) = val ++ after := by
                rw [hvs]
                exact skipSpace_cons_of_not_space _ _ (isValueStart_not_space v0 hstart)
              simp only [List.cons_append, List.append_assoc]
              rw [scanMembers_succ_cons, if_pos rfl]
              simp only [List.cons_append, List.append_assoc] at hk
              rw [hk]
              simp only []
              rw [skipSpace_cons_of_not_space _ _ (by decide)]
              simp only [if_true]
              rw [hskv, hvr]
              simp only [List.cons_append, List.append_assoc]
            by_cases he : e = '}'
            · rw [if_pos he] at h
              simp only [Option.some.injEq, Prod.mk.injEq] at h
              refine ⟨⟨key ++ ':' :: val ++ ['}'], by rw [← h.1]; simp⟩, ?_⟩
              intro g tail hg
              cases g with
              | zero => simp at hg
              | succ g =>
                have := front g ('}' :: tail) (by simp [startsWithDelimiter]) (by
                  rw [← h.1] at hg
                  simp at hg
                  omega)
                rw [← h.1]
                simp only [List.cons_append, List.append_assoc, List.nil_append] at this ⊢
                rw [this, skipSpace_cons_of_not_space _ _ (by decide)]
                simp
            · rw [if_neg he] at h
              by_cases hcomma : e = ','
              swap
              · simp [hcomma] at h
              rw [if_pos hcomma] at h
              obtain ⟨o1, ho1, hout⟩ := (emit_eq_some_iff _ _ _ _).mp h
              obtain ⟨⟨m1, hm1⟩, hmre⟩ := hm _ _ _ _ ho1
              refine ⟨⟨key ++ ':' :: val ++ [','] ++ o1, by rw [hout]; simp⟩, ?_⟩
              intro g tail hg
              cases g with
              | zero => simp at hg
              | succ g =>
                have := front g (',' :: (o1 ++ tail)) (by simp [startsWithDelimiter]) (by
                  rw [hout] at hg
                  simp at hg
                  omega)
                have hlen : o1.length < g := by
                  rw [hout] at hg
                  simp at hg
                  omega
                have hrec := hmre g tail hlen
                rw [hout]
                simp only [List.cons_append, List.append_assoc, List.nil_append] at this ⊢
                rw [this, skipSpace_cons_of_not_space _ _ (by decide)]
                simp only [if_neg (show ¬ (',' : Char) = '}' by decide), if_true]
                rw [hm1] at hrec ⊢
                simp only [List.cons_append] at hrec ⊢
                rw [skipSpace_cons_of_not_space _ _ (by decide), hrec]
                simp [emit]

theorem rescanElements_succ (f : Nat) (hv : RescanValue f) (he : RescanElements f) :
    RescanElements (f + 1) := by
  intro dep s out rest h
  rw [scanElements_succ] at h
  cases hval : scanValue f dep s with
  | none => simp [hval] at h
  | some vr =>
    rcases vr with ⟨val, r1⟩
    simp only [hval] at h
    obtain ⟨⟨v0, vs, hvs, hstart⟩, hvre⟩ := hv _ _ _ _ hval
    cases hsk : skipSpace r1 with
    | nil => simp [hsk] at h
    | cons e r2 =>
      simp only [hsk] at h
      have front : ∀ g (after : Text), startsWithDelimiter after = true →
          val.length < g →
          scanElements (g + 1) dep (val ++ after) =
            match skipSpace after with
            | [] => none
            | e :: r2 =>
              if e = ']' then some (val ++ [']'], r2)
              else if e = ',' then emit (val ++ [',']) (scanElements g dep (skipSpace r2))
              else none := by
        intro g after hafter hg
        rw [scanElements_succ, hvre g after hafter hg]
      by_cases hclose : e = ']'
      · rw [if_pos hclose] at h
        simp only [Option.some.injEq, Prod.mk.injEq] at h
        refine ⟨⟨v0, vs ++ [']'], by rw [← h.1, hvs]; simp, hstart⟩, ?_⟩
        intro g tail hg
        cases g with
        | zero => simp at hg
        | succ g =>
          have := front g (']' :: tail) (by simp [startsWithDelimiter]) (by
            rw [← h.1] at hg
            simp at hg
            omega)
          rw [← h.1]
          simp only [List.append_assoc, List.cons_append, List.nil_append] at this ⊢
          rw [this, skipSpace_cons_of_not_space _ _ (by decide)]
          simp
      · rw [if_neg hclose] at h
        by_cases hcomma : e = ','
        swap
        · simp [hcomma] at h
        rw [if_pos hcomma] at h
        obtain ⟨o1, ho1, hout⟩ := (emit_eq_some_iff _ _ _ _).mp h
        obtain ⟨⟨e1, es, he1, hestart⟩, here⟩ := he _ _ _ _ ho1
        refine ⟨⟨v0, vs ++ [','] ++ o1, by rw [hout, hvs]; simp, hstart⟩, ?_⟩
        intro g tail hg
        cases g with
        | zero => simp at hg
        | succ g =>
          have := front g (',' :: (o1 ++ tail)) (by simp [startsWithDelimiter]) (by
            rw [hout] at hg
            simp at hg
            omega)
          have hlen : o1.length < g := by
            rw [hout] at hg
            simp at hg
            omega
          have hrec := here g tail hlen
          rw [hout]
          simp only [List.append_assoc, List.cons_append, List.nil_append] at this ⊢
          rw [this, skipSpace_cons_of_not_space _ _ (by decide)]
          simp only [if_neg (show ¬ (',' : Char) = ']' by decide), if_true]
          rw [he1] at hrec ⊢
          simp only [List.cons_append] at hrec ⊢
          rw [skipSpace_cons_of_not_space _ _ (isValueStart_not_space e1 hestart), hrec]
          simp [emit]

/-- Whatever the fuel, the scanner returns compacted text that scans to itself. -/
theorem rescan_all (f : Nat) : RescanValue f ∧ RescanMembers f ∧ RescanElements f := by
  induction f with
  | zero =>
    refine ⟨?_, ?_, ?_⟩
    · intro d s out rest h
      simp [scanValue_zero] at h
    · intro d s out rest h
      simp [scanMembers_zero] at h
    · intro d s out rest h
      simp [scanElements_zero] at h
  | succ f ih =>
    exact ⟨rescanValue_succ f ih.2.1 ih.2.2, rescanMembers_succ f ih.1 ih.2.1,
      rescanElements_succ f ih.1 ih.2.2⟩

theorem shallowerValue_succ (f : Nat) (hm : ShallowerMembers f) (he : ShallowerElements f) :
    ShallowerValue (f + 1) := by
  intro d s res h
  cases s with
  | nil => simp [scanValue_succ_nil] at h
  | cons c r =>
    rw [scanValue_succ_cons] at h ⊢
    by_cases h1 : c = '"'
    · rw [if_pos h1] at h ⊢
      exact h
    rw [if_neg h1] at h ⊢
    by_cases h2 : c = '{'
    · rw [if_pos h2] at h ⊢
      by_cases hdep : d + 1 < maxNestingDepth
      swap
      · rw [if_neg hdep] at h
        cases h
      rw [if_pos hdep] at h
      rw [if_pos (Nat.lt_of_succ_lt hdep)]
      cases hsk : skipSpace r with
      | nil => simp [hsk] at h
      | cons e r1 =>
        simp only [hsk] at h ⊢
        by_cases hd : e = '}'
        · rw [if_pos hd] at h ⊢
          exact h
        · rw [if_neg hd] at h ⊢
          obtain ⟨o1, ho1, hout⟩ := (emit_eq_some_iff _ _ _ _).mp h
          rw [hm _ _ _ ho1]
          exact (emit_eq_some_iff _ _ _ _).mpr ⟨o1, rfl, hout⟩
    rw [if_neg h2] at h ⊢
    by_cases h3 : c = '['
    · rw [if_pos h3] at h ⊢
      by_cases hdep : d + 1 < maxNestingDepth
      swap
      · rw [if_neg hdep] at h
        cases h
      rw [if_pos hdep] at h
      rw [if_pos (Nat.lt_of_succ_lt hdep)]
      cases hsk : skipSpace r with
      | nil => simp [hsk] at h
      | cons e r1 =>
        simp only [hsk] at h ⊢
        by_cases hd : e = ']'
        · rw [if_pos hd] at h ⊢
          exact h
        · rw [if_neg hd] at h ⊢
          obtain ⟨o1, ho1, hout⟩ := (emit_eq_some_iff _ _ _ _).mp h
          rw [he _ _ _ ho1]
          exact (emit_eq_some_iff _ _ _ _).mpr ⟨o1, rfl, hout⟩
    rw [if_neg h3] at h ⊢
    exact h

theorem shallowerMembers_succ (f : Nat) (hv : ShallowerValue f) (hm : ShallowerMembers f) :
    ShallowerMembers (f + 1) := by
  intro d s res h
  cases s with
  | nil => simp [scanMembers_succ_nil] at h
  | cons c r =>
    rw [scanMembers_succ_cons] at h ⊢
    by_cases hc : c = '"'
    swap
    · simp [hc] at h
    rw [if_pos hc] at h ⊢
    cases hkey : scanString r with
    | none => simp [hkey] at h
    | some kr =>
      rcases kr with ⟨key, r1⟩
      simp only [hkey] at h ⊢
      cases hsk : skipSpace r1 with
      | nil => simp [hsk] at h
      | cons e r2 =>
        simp only [hsk] at h ⊢
        by_cases hd : e = ':'
        swap
        · simp [hd] at h
        rw [if_pos hd] at h ⊢
        cases hval : scanValue f (d + 1) (skipSpace r2) with
        | none => simp [hval] at h
        | some vr =>
          rcases vr with ⟨val, r3⟩
          simp only [hval] at h
          rw [hv _ _ _ hval]
          simp only
          cases hsk3 : skipSpace r3 with
          | nil => simp [hsk3] at h
          | cons e1 r4 =>
            simp only [hsk3] at h ⊢
            by_cases hclose : e1 = '}'
            · rw [if_pos hclose] at h ⊢
              exact h
            · rw [if_neg hclose] at h ⊢
              by_cases hcomma : e1 = ','
              swap
              · simp [hcomma] at h
              rw [if_pos hcomma] at h ⊢
              obtain ⟨o1, ho1, hout⟩ := (emit_eq_some_iff _ _ _ _).mp h
              rw [hm _ _ _ ho1]
              exact (emit_eq_some_iff _ _ _ _).mpr ⟨o1, rfl, hout⟩

theorem shallowerElements_succ (f : Nat) (hv : ShallowerValue f) (he : ShallowerElements f) :
    ShallowerElements (f + 1) := by
  intro d s res h
  rw [scanElements_succ] at h ⊢
  cases hval : scanValue f (d + 1) s with
  | none => simp [hval] at h
  | some vr =>
    rcases vr with ⟨val, r1⟩
    simp only [hval] at h
    rw [hv _ _ _ hval]
    simp only
    cases hsk : skipSpace r1 with
    | nil => simp [hsk] at h
    | cons e r2 =>
      simp only [hsk] at h ⊢
      by_cases hclose : e = ']'
      · rw [if_pos hclose] at h ⊢
        exact h
      · rw [if_neg hclose] at h ⊢
        by_cases hcomma : e = ','
        swap
        · simp [hcomma] at h
        rw [if_pos hcomma] at h ⊢
        obtain ⟨o1, ho1, hout⟩ := (emit_eq_some_iff _ _ _ _).mp h
        rw [he _ _ _ ho1]
        exact (emit_eq_some_iff _ _ _ _).mpr ⟨o1, rfl, hout⟩

/-- Whatever the fuel, what the scanner accepts at a depth it accepts, with the same
outcome, at a lesser depth. -/
theorem shallower_all (f : Nat) :
    ShallowerValue f ∧ ShallowerMembers f ∧ ShallowerElements f := by
  induction f with
  | zero =>
    refine ⟨?_, ?_, ?_⟩
    · intro d s res h
      simp [scanValue_zero] at h
    · intro d s res h
      simp [scanMembers_zero] at h
    · intro d s res h
      simp [scanElements_zero] at h
  | succ f ih =>
    exact ⟨shallowerValue_succ f ih.2.1 ih.2.2, shallowerMembers_succ f ih.1 ih.2.1,
      shallowerElements_succ f ih.1 ih.2.2⟩

theorem scanValue_shallower (f : Nat) (d d1 : Nat) (hd : d1 ≤ d) (s : Text)
    (res : Text × Text) (h : scanValue f d s = some res) : scanValue f d1 s = some res := by
  induction d with
  | zero =>
    have : d1 = 0 := Nat.le_zero.mp hd
    rw [this]
    exact h
  | succ d ih =>
    rcases Nat.lt_or_ge d1 (d + 1) with hlt | hge
    · exact ih (Nat.lt_succ_iff.mp hlt) ((shallower_all f).1 _ _ _ h)
    · have : d1 = d + 1 := Nat.le_antisymm hd hge
      rw [this]
      exact h

/-! ## Digits and string literals read back -/

theorem hexVal_digitChar (d : Nat) (h : d < 16) : hexVal (digitChar d) = some d := by
  interval_cases d <;> rfl

theorem decVal_digitChar (d : Nat) (h : d < 10) : decVal (digitChar d) = some d := by
  interval_cases d <;> rfl

theorem isHex_digitChar (d : Nat) (h : d < 16) : isHex (digitChar d) = true := by
  interval_cases d <;> rfl

theorem isDigit_digitChar (d : Nat) (h : d < 10) : isDigit (digitChar d) = true := by
  interval_cases d <;> rfl

theorem digitChar_toNat_sub (d : Nat) (h : d < 10) : (digitChar d).toNat - 48 = d := by
  interval_cases d <;> rfl

/-- Reading back a number written with a fixed number of digits. -/
theorem readDigits_digitsFixed (val : Char → Option Nat) (base : Nat) (hb : 0 < base)
    (hval : ∀ d, d < base → val (digitChar d) = some d) (w n acc : Nat) (rest : Text) :
    readDigits val base w acc (digitsFixed base w n ++ rest)
      = some (acc * base ^ w + n % base ^ w, rest) := by
  induction w generalizing acc with
  | zero => simp [readDigits, digitsFixed, Nat.mod_one]
  | succ w ih =>
    simp only [digitsFixed, List.cons_append, readDigits]
    rw [hval _ (Nat.mod_lt _ hb)]
    simp only [List.append_eq]
    rw [ih]
    congr 2
    have h1 : n % base ^ (w + 1) = (n / base ^ w % base) * base ^ w + n % base ^ w := by
      rw [pow_succ, Nat.mod_mul, Nat.mul_comm (base ^ w)]
      omega
    rw [h1, pow_succ]
    ring

theorem char_ofNat_toNat (c : Char) : Char.ofNat c.toNat = c := by
  have hv : c.toNat.isValidChar := c.valid
  unfold Char.ofNat
  simp only [hv, dite_true]
  rfl

theorem digitsFixed_16_4 (n : Nat) :
    digitsFixed 16 4 n = [digitChar (n / 4096 % 16), digitChar (n / 256 % 16),
      digitChar (n / 16 % 16), digitChar (n % 16)] := by
  simp [digitsFixed]

theorem hex4_digitChar (n : Nat) (h : n < 65536) :
    hex4 (digitChar (n / 4096 % 16)) (digitChar (n / 256 % 16)) (digitChar (n / 16 % 16))
      (digitChar (n % 16)) = some n := by
  unfold hex4
  rw [hexVal_digitChar _ (Nat.mod_lt _ (by decide)), hexVal_digitChar _ (Nat.mod_lt _ (by decide)),
    hexVal_digitChar _ (Nat.mod_lt _ (by decide)), hexVal_digitChar _ (Nat.mod_lt _ (by decide))]
  simp only [Option.some.injEq]
  omega

/-- The characters the encoder writes as a `\u` escape: the control characters without
a short escape, and `<`, `>`, `&`, U+2028, U+2029. -/
theorem escaped_code_bound (c : Char)
    (h : (decide (c.toNat < 0x20) || decide (c = '<') || decide (c = '>') || decide (c = '&')
      || decide (c.toNat = 0x2028) || decide (c.toNat = 0x2029)) = true) :
    c.toNat < 0xD800 := by
  simp only [Bool.or_eq_true, decide_eq_true_eq] at h
  rcases h with ((((h | rfl) | rfl) | rfl) | h) | h
  · omega
  · decide
  · decide
  · decide
  · omega
  · omega

theorem readStringFrom_cons_plain (c : Char) (x : Text) (h1 : c ≠ '"') (h2 : c ≠ '\\')
    (h3 : ¬ c.toNat < 0x20) :
    readStringFrom none (c :: x) = consChar c (readStringFrom none x) := by
  rw [readStringFrom.eq_def]
  simp [h1, h2, h3, flushPending]

theorem readStringFrom_escape (e d : Char) (x : Text) (hu : e ≠ 'u')
    (h : unescape e = some d) :
    readStringFrom none ('\\' :: e :: x) = consChar d (readStringFrom none x) := by
  rw [readStringFrom.eq_def]
  simp [hu, h, flushPending]

theorem readStringFrom_hex (n : Nat) (x : Text) (h : n < 0xD800) :
    readStringFrom none ('\\' :: 'u' :: digitsFixed 16 4 n ++ x)
      = consChar (Char.ofNat n) (readStringFrom none x) := by
  rw [digitsFixed_16_4]
  simp only [List.cons_append, List.nil_append]
  rw [readStringFrom.eq_def]
  simp only [show ¬ ('\\' : Char) = '"' by decide, if_false, if_true]
  rw [hex4_digitChar n (by omega)]
  have h1 : (decide (0xDC00 ≤ n) && decide (n < 0xE000)) = false := by
    simp only [Bool.and_eq_false_iff, decide_eq_false_iff_not]
    left
    omega
  have h2 : (decide (0xD800 ≤ n) && decide (n < 0xDC00)) = false := by
    simp only [Bool.and_eq_false_iff, decide_eq_false_iff_not]
    left
    omega
  simp only [h1, h2, Bool.false_eq_true, if_false, flushPending]

/-- Decoding what the encoder wrote for one character gives the character back. -/
theorem readStringFrom_escapeChar (c : Char) (x : Text) :
    readStringFrom none (escapeChar c ++ x) = consChar c (readStringFrom none x) := by
  unfold escapeChar
  split_ifs with h1 h2 h3 h4 h5 h6 h7 h8
  · subst h1
    exact readStringFrom_escape '"' '"' x (by decide) rfl
  · subst h2
    exact readStringFrom_escape '\\' '\\' x (by decide) rfl
  · have hc : c = Char.ofNat 8 := by rw [← char_ofNat_toNat c, h3]
    subst hc
    exact readStringFrom_escape 'b' _ x (by decide) rfl
  · have hc : c = Char.ofNat 12 := by rw [← char_ofNat_toNat c, h4]
    subst hc
    exact readStringFrom_escape 'f' _ x (by decide) rfl
  · subst h5
    exact readStringFrom_escape 'n' '\n' x (by decide) rfl
  · subst h6
    exact readStringFrom_escape 'r' '\r' x (by decide) rfl
  · subst h7
    exact readStringFrom_escape 't' '\t' x (by decide) rfl
  · have := readStringFrom_hex c.toNat x (escaped_code_bound c h8)
    rw [char_ofNat_toNat] at this
    simpa using this
  · simp only [Bool.or_eq_true, decide_eq_true_eq, not_or] at h8
    exact readStringFrom_cons_plain c x h1 h2 h8.1.1.1.1.1

/-- Decoding an encoded string gives the string back, and the input after the closing
quote. -/
theorem readString_escapeText (s rest : Text) :
    readString (escapeText s ++ '"' :: rest) = some (s, rest) := by
  unfold readString
  induction s with
  | nil =>
    simp only [escapeText, List.nil_append]
    rw [readStringFrom.eq_def]
    simp [flushPending]
  | cons c r ih =>
    simp only [escapeText, List.append_assoc]
    rw [readStringFrom_escapeChar, ih]
    rfl

theorem isHex_digitsFixed_16_4 (n : Nat) (x : Text) :
    scanString ('\\' :: 'u' :: digitsFixed 16 4 n ++ x)
      = emit ('\\' :: 'u' :: digitsFixed 16 4 n) (scanString x) := by
  rw [digitsFixed_16_4]
  simp only [List.cons_append, List.nil_append]
  rw [scanString.eq_def]
  simp [isHex_digitChar _ (Nat.mod_lt _ (show 0 < 16 by decide))]

theorem scanString_short_escape (e : Char) (x : Text)
    (h : (e = '"' || e = '\\' || e = '/' || e = 'b' || e = 'f' || e = 'n' || e = 'r'
      || e = 't') = true) :
    scanString ('\\' :: e :: x) = emit ['\\', e] (scanString x) := by
  rw [scanString.eq_def]
  simp only [show ¬ ('\\' : Char) = '"' by decide, if_false, if_true, h]

/-- What the encoder wrote for one character is a valid piece of a string body that
`compact` leaves as it is. -/
theorem scanString_escapeChar (c : Char) (x : Text) :
    scanString (escapeChar c ++ x) = emit (escapeChar c) (scanString x) := by
  unfold escapeChar
  split_ifs with h1 h2 h3 h4 h5 h6 h7 h8
  · exact scanString_short_escape '"' x (by decide)
  · exact scanString_short_escape '\\' x (by decide)
  · exact scanString_short_escape 'b' x (by decide)
  · exact scanString_short_escape 'f' x (by decide)
  · exact scanString_short_escape 'n' x (by decide)
  · exact scanString_short_escape 'r' x (by decide)
  · exact scanString_short_escape 't' x (by decide)
  · exact isHex_digitsFixed_16_4 c.toNat x
  · simp only [Bool.or_eq_true, decide_eq_true_eq, not_or] at h8
    have hc : compactChar c = [c] := by
      simp [compactChar, h8.1.1.1.1.2, h8.1.1.1.2, h8.1.1.2, h8.1.2, h8.2]
    have := scanString_compactChar c h1 h2 h8.1.1.1.1.1 x
    rw [hc] at this
    exact this

theorem scanString_escapeText (s rest : Text) :
    scanString (escapeText s ++ '"' :: rest) = some (escapeText s ++ ['"'], rest) := by
  induction s with
  | nil =>
    simp only [escapeText, List.nil_append]
    rw [scanString.eq_def]
    simp
  | cons c r ih =>
    simp only [escapeText, List.append_assoc]
    rw [scanString_escapeChar, ih]
    rfl

theorem escapeChar_plain (c : Char) (h : plainChar c = true) : escapeChar c = [c] := by
  unfold plainChar at h
  simp only [Bool.not_eq_true', Bool.or_eq_false_iff, decide_eq_false_iff_not] at h
  obtain ⟨⟨⟨⟨⟨⟨⟨h1, h2⟩, h3⟩, h4⟩, h5⟩, h6⟩, h7⟩, h8⟩ := h
  have c8 : c.toNat ≠ 8 := by omega
  have c12 : c.toNat ≠ 12 := by omega
  have cn : c ≠ '\n' := by
    rintro rfl
    exact h3 (by decide)
  have cr : c ≠ '\r' := by
    rintro rfl
    exact h3 (by decide)
  have ct : c ≠ '\t' := by
    rintro rfl
    exact h3 (by decide)
  simp [escapeChar, h1, h2, h3, h4, h5, h6, h7, h8, c8, c12, cn, cr, ct]

theorem escapeText_plain (s : Text) (h : isPlainText s = true) : escapeText s = s := by
  induction s with
  | nil => rfl
  | cons c r ih =>
    simp only [isPlainText, List.all_cons, Bool.and_eq_true] at h
    simp only [escapeText]
    rw [escapeChar_plain c h.1, ih h.2]
    rfl

/-- An encoded string is one compact JSON value, at any depth. -/
theorem scannable_encodeString (depth : Nat) (s : Text) :
    Scannable depth (encodeString s) := by
  refine ⟨⟨'"', escapeText s ++ ['"'], rfl, by decide⟩, ?_⟩
  intro d _ g tail _ hg
  cases g with
  | zero => simp at hg
  | succ g =>
    unfold encodeString
    simp only [List.cons_append, List.append_assoc, List.singleton_append]
    rw [scanValue_succ_cons, if_pos rfl, scanString_escapeText]
    rfl

/-- A quoted plain text is one compact JSON value, at any depth. -/
theorem scannable_quoted (depth : Nat) (s : Text) (h : isPlainText s = true) :
    Scannable depth ('"' :: s ++ ['"']) := by
  have := scannable_encodeString depth s
  unfold encodeString at this
  rw [escapeText_plain s h] at this
  exact this

/-- The quoted text of a plain string decodes to the string. -/
theorem readString_plain (s rest : Text) (h : isPlainText s = true) :
    readString (s ++ '"' :: rest) = some (s, rest) := by
  have := readString_escapeText s rest
  rw [escapeText_plain s h] at this
  exact this

theorem scannable_null (depth : Nat) : Scannable depth ['n', 'u', 'l', 'l'] := by
  refine ⟨⟨'n', ['u', 'l', 'l'], rfl, by decide⟩, ?_⟩
  intro d _ g tail _ hg
  cases g with
  | zero => simp at hg
  | succ g =>
    simp only [List.cons_append, List.nil_append]
    rw [scanValue_succ_cons, if_neg (by decide), if_neg (by decide), if_neg (by decide),
      if_neg (by decide), if_neg (by decide), if_pos rfl]
    simp [scanLiteral, hasPrefix]

/-- The compacted text of a document that is valid at a depth is one compact JSON value
at that depth. -/
theorem scannable_of_scanDocumentAt (depth : Nat) (p out : Text)
    (h : scanDocumentAt depth p = some out) : Scannable depth out := by
  unfold scanDocumentAt at h
  cases hs : scanValue (p.length + 1) depth (skipSpace p) with
  | none => simp [hs] at h
  | some vr =>
    rcases vr with ⟨o, r⟩
    simp only [hs] at h
    by_cases hr : skipSpace r = []
    · simp only [hr, if_true, Option.some.injEq] at h
      subst h
      obtain ⟨hstart, hre⟩ := (rescan_all _).1 _ _ _ _ hs
      exact ⟨hstart, fun d hd g tail ht hg =>
        scanValue_shallower g depth d hd _ _ (hre g tail ht hg)⟩
    · simp [hr] at h

/-- A document that is valid at a depth is valid, with the same compacted text, as a
document of its own. -/
theorem scanDocument_of_scanDocumentAt (depth : Nat) (p out : Text)
    (h : scanDocumentAt depth p = some out) : scanDocument p = some out := by
  unfold scanDocumentAt at h
  unfold scanDocument
  cases hs : scanValue (p.length + 1) depth (skipSpace p) with
  | none => simp [hs] at h
  | some vr =>
    rw [scanValue_shallower _ depth 0 (Nat.zero_le _) _ _ hs]
    rw [hs] at h
    exact h

/-- A value that scans at a depth scans at every lesser depth. -/
theorem scannable_mono (d1 d : Nat) (h : d1 ≤ d) (v : Text) (hv : Scannable d v) :
    Scannable d1 v :=
  ⟨hv.1, fun e he g tail ht hg => hv.2 e (Nat.le_trans he h) g tail ht hg⟩

/-- The text of a compact value before a delimiter is read verbatim. -/
theorem rawValue_scannable (depth : Nat) (v tail : Text) (hv : Scannable depth v)
    (ht : startsWithDelimiter tail = true) : rawValue (v ++ tail) = some (v, tail) := by
  unfold rawValue
  rw [hv.2 0 (Nat.zero_le _) _ tail ht (by simp only [List.length_append]; omega)]
  simp

/-! ## Objects written by the encoder are read back member by member -/

theorem renderMembers_single (k : String) (v : Text) :
    renderMembers [(k, v)] = '"' :: (k.data ++ '"' :: ':' :: (v ++ ['}'])) := by
  simp [renderMembers]

theorem renderMembers_cons_cons (k : String) (v : Text) (m : String × Text)
    (rest : List (String × Text)) :
    renderMembers ((k, v) :: m :: rest)
      = '"' :: (k.data ++ '"' :: ':' :: (v ++ ',' :: renderMembers (m :: rest))) := by
  simp [renderMembers]

theorem renderMembers_head (m : String × Text) (rest : List (String × Text)) :
    ∃ r, renderMembers (m :: rest) = '"' :: r := by
  rcases m with ⟨k, v⟩
  cases rest with
  | nil => exact ⟨_, renderMembers_single k v⟩
  | cons m1 rest1 => exact ⟨_, renderMembers_cons_cons k v m1 rest1⟩

theorem renderMembers_length (ms : List (String × Text)) :
    ms.length ≤ (renderMembers ms).length := by
  induction ms with
  | nil => simp
  | cons m rest ih =>
    rcases m with ⟨k, v⟩
    cases rest with
    | nil => simp [renderMembers_single]
    | cons m1 rest1 =>
      rw [renderMembers_cons_cons]
      simp only [List.length_cons, List.length_append] at ih ⊢
      omega

theorem member_scan_step (dep : Nat) (k v after : Text) (hk : isPlainText k = true)
    (hv : Scannable dep v) (ha : startsWithDelimiter after = true) (g : Nat)
    (hg : v.length < g) :
    scanMembers (g + 1) dep ('"' :: (k ++ '"' :: ':' :: (v ++ after))) =
      match skipSpace after with
      | [] => none
      | e :: r4 =>
        if e = '}' then some ('"' :: (k ++ '"' :: ':' :: (v ++ ['}'])), r4)
        else if e = ',' then
          emit ('"' :: (k ++ '"' :: ':' :: (v ++ [','])))
            (scanMembers g dep (skipSpace r4))
        else none := by
  obtain ⟨⟨v0, vs, hvs, hstart⟩, hre⟩ := hv
  have hkey : scanString (k ++ '"' :: ':' :: (v ++ after))
      = some (k ++ ['"'], ':' :: (v ++ after)) := by
    have := scanString_escapeText k (':' :: (v ++ after))
    rw [escapeText_plain k hk] at this
    exact this
  have hskv : skipSpace (v ++ after) = v ++ after := by
    rw [hvs]
    exact skipSpace_cons_of_not_space _ _ (isValueStart_not_space v0 hstart)
  rw [scanMembers_succ_cons, if_pos rfl, hkey]
  simp only []
  rw [skipSpace_cons_of_not_space _ _ (by decide)]
  simp only [if_true]
  rw [hskv, hre dep (Nat.le_refl _) g after ha hg]
  simp only [List.cons_append, List.append_assoc, List.nil_append]

/-- The members the encoder wrote scan to themselves. -/
theorem scanMembers_render (dep : Nat) (ms : List (String × Text)) (hne : ms ≠ [])
    (hok : ∀ kv ∈ ms, isPlainText kv.1.data = true ∧ Scannable dep kv.2) :
    ∀ g tail, (renderMembers ms).length < g →
      scanMembers g dep (renderMembers ms ++ tail) = some (renderMembers ms, tail) := by
  induction ms with
  | nil => exact absurd rfl hne
  | cons m rest ih =>
    rcases m with ⟨k, v⟩
    obtain ⟨hk, hv⟩ := hok (k, v) (List.mem_cons_self _ _)
    intro g tail hg
    cases g with
    | zero => simp at hg
    | succ g =>
      cases rest with
      | nil =>
        rw [renderMembers_single] at hg ⊢
        simp only [List.cons_append, List.append_assoc, List.nil_append]
        rw [member_scan_step dep k.data v ('}' :: tail) hk hv (by simp [startsWithDelimiter]) g (by
          simp at hg
          omega)]
        rw [skipSpace_cons_of_not_space _ _ (by decide)]
        simp
      | cons m1 rest1 =>
        have ih1 := ih (by simp) (fun kv hkv => hok kv (List.mem_cons_of_mem _ hkv))
        obtain ⟨r1, hr1⟩ := renderMembers_head m1 rest1
        rw [renderMembers_cons_cons] at hg ⊢
        simp only [List.cons_append, List.append_assoc, List.nil_append]
        rw [member_scan_step dep k.data v (',' :: (renderMembers (m1 :: rest1) ++ tail)) hk hv
          (by simp [startsWithDelimiter]) g (by
            simp at hg
            omega)]
        rw [skipSpace_cons_of_not_space _ _ (by decide)]
        simp only [if_neg (show ¬ (',' : Char) = '}' by decide), if_true]
        have hsk : skipSpace (renderMembers (m1 :: rest1) ++ tail)
            = renderMembers (m1 :: rest1) ++ tail := by
          rw [hr1]
          exact skipSpace_cons_of_not_space _ _ (by decide)
        rw [hsk, ih1 g tail (by
          simp at hg
          omega)]
        simp [emit]

/-- The object the encoder wrote for a struct scans to itself, whatever follows, at a
depth under the nesting limit where its members scan one level deeper. -/
theorem scanValue_renderObject (dep : Nat) (hdep : dep < maxNestingDepth)
    (ms : List (String × Text)) (hne : ms ≠ [])
    (hok : ∀ kv ∈ ms, isPlainText kv.1.data = true ∧ Scannable (dep + 1) kv.2) (g : Nat)
    (tail : Text) (hg : (renderObject ms).length < g) :
    scanValue g dep (renderObject ms ++ tail) = some (renderObject ms, tail) := by
  cases g with
  | zero => simp at hg
  | succ g =>
    cases ms with
    | nil => exact absurd rfl hne
    | cons m rest =>
      obtain ⟨r1, hr1⟩ := renderMembers_head m rest
      have := scanMembers_render (dep + 1) (m :: rest) hne hok g tail (by
        unfold renderObject at hg
        simp at hg
        omega)
      unfold renderObject
      simp only [List.cons_append]
      rw [scanValue_succ_cons, if_neg (by decide), if_pos rfl, if_pos hdep]
      rw [hr1] at this ⊢
      simp only [List.cons_append] at this ⊢
      rw [skipSpace_cons_of_not_space _ _ (by decide)]
      simp only [if_neg (show ¬ ('"' : Char) = '}' by decide)]
      rw [this]
      rfl

/-- The object the encoder wrote for a struct is one compact JSON value, at a depth
under the nesting limit where its members scan one level deeper. -/
theorem scannable_renderObject (depth : Nat) (hdepth : depth < maxNestingDepth)
    (ms : List (String × Text)) (hne : ms ≠ [])
    (hok : ∀ kv ∈ ms, isPlainText kv.1.data = true ∧ Scannable (depth + 1) kv.2) :
    Scannable depth (renderObject ms) :=
  ⟨⟨'{', renderMembers ms, rfl, by decide⟩,
    fun d hd g tail _ hg =>
      scanValue_renderObject d (Nat.lt_of_le_of_lt hd hdepth) ms hne
        (fun kv hkv => ⟨(hok kv hkv).1,
          scannable_mono (d + 1) (depth + 1) (Nat.succ_le_succ hd) _ (hok kv hkv).2⟩)
        g tail hg⟩

/-- The object the encoder wrote for a struct is a valid document, already compact. -/
theorem scanDocument_renderObject (ms : List (String × Text)) (hne : ms ≠ [])
    (hok : ∀ kv ∈ ms, isPlainText kv.1.data = true ∧ Scannable 1 kv.2) :
    scanDocument (renderObject ms) = some (renderObject ms) := by
  have h := scanValue_renderObject 0 (by decide) ms hne hok ((renderObject ms).length + 1) []
    (by omega)
  rw [List.append_nil] at h
  have hsk : skipSpace (renderObject ms) = renderObject ms :=
    skipSpace_cons_of_not_space _ _ (by decide)
  unfold scanDocument
  rw [hsk, h]
  simp [skipSpace]

theorem decodeMembers_succ_cons {α : Type}
    (dec : Text → Option (Text → α → Except GoError α)) (fuel : Nat) (c : Char) (r : Text)
    (a : α) :
    decodeMembers dec (fuel + 1) (c :: r) a =
      if c = '"' then
        match readString r with
        | none => .error syntaxError
        | some (key, r1) =>
          match skipSpace r1 with
          | [] => .error syntaxError
          | d :: r2 =>
            if d = ':' then
              match rawValue (skipSpace r2) with
              | none => .error syntaxError
              | some (raw, r3) =>
                match (match dec key with
                       | some f => f raw a
                       | none => .ok a) with
                | .error err => .error err
                | .ok a1 =>
                  match skipSpace r3 with
                  | [] => .error syntaxError
                  | e :: r4 =>
                    if e = ',' then decodeMembers dec fuel (skipSpace r4) a1
                    else if e = '}' then .ok a1
                    else .error syntaxError
            else .error syntaxError
      else .error syntaxError := by
  rw [decodeMembers]

theorem member_decode_step {α : Type} {depth : Nat}
    (dec : Text → Option (Text → α → Except GoError α))
    (k v after : Text) (hk : isPlainText k = true) (hv : Scannable depth v)
    (ha : startsWithDelimiter after = true) (fuel : Nat) (a : α) :
    decodeMembers dec (fuel + 1) ('"' :: (k ++ '"' :: ':' :: (v ++ after))) a =
      match (match dec k with
             | some f => f v a
             | none => .ok a) with
      | .error err => .error err
      | .ok a1 =>
        match skipSpace after with
        | [] => .error syntaxError
        | e :: r4 =>
          if e = ',' then decodeMembers dec fuel (skipSpace r4) a1
          else if e = '}' then .ok a1
          else .error syntaxError := by
  have hskv : skipSpace (v ++ after) = v ++ after := by
    obtain ⟨⟨v0, vs, hvs, hstart⟩, _⟩ := hv
    rw [hvs]
    exact skipSpace_cons_of_not_space _ _ (isValueStart_not_space v0 hstart)
  rw [decodeMembers_succ_cons, if_pos rfl, readString_plain k _ hk]
  simp only []
  rw [skipSpace_cons_of_not_space _ _ (by decide)]
  simp only [if_true]
  rw [hskv, rawValue_scannable depth v after hv ha]

/-- Decoding the members the encoder wrote applies the field decoders in order. -/
theorem decodeMembers_render {α : Type} {depth : Nat}
    (dec : Text → Option (Text → α → Except GoError α))
    (ms : List (String × Text)) (hne : ms ≠ [])
    (hok : ∀ kv ∈ ms, isPlainText kv.1.data = true ∧ Scannable depth kv.2) :
    ∀ fuel tail a, ms.length ≤ fuel →
      decodeMembers dec fuel (renderMembers ms ++ tail) a = applyMembers dec ms a := by
  induction ms with
  | nil => exact absurd rfl hne
  | cons m rest ih =>
    rcases m with ⟨k, v⟩
    obtain ⟨hk, hv⟩ := hok (k, v) (List.mem_cons_self _ _)
    intro fuel tail a hf
    cases fuel with
    | zero => simp at hf
    | succ fuel =>
      cases rest with
      | nil =>
        rw [renderMembers_single]
        simp only [List.cons_append, List.append_assoc, List.nil_append]
        rw [member_decode_step dec k.data v ('}' :: tail) hk hv (by simp [startsWithDelimiter])]
        rw [skipSpace_cons_of_not_space _ _ (by decide)]
        simp only [applyMembers]
        cases hdec : dec k.data with
        | none => simp
        | some fd =>
          cases hfd : fd v a with
          | error err => simp [hfd]
          | ok a1 => simp [hfd]
      | cons m1 rest1 =>
        have ih1 := ih (by simp) (fun kv hkv => hok kv (List.mem_cons_of_mem _ hkv))
        obtain ⟨r1, hr1⟩ := renderMembers_head m1 rest1
        have hsk : skipSpace (renderMembers (m1 :: rest1) ++ tail)
            = renderMembers (m1 :: rest1) ++ tail := by
          rw [hr1]
          exact skipSpace_cons_of_not_space _ _ (by decide)
        rw [renderMembers_cons_cons]
        simp only [List.cons_append, List.append_assoc, List.nil_append]
        rw [member_decode_step dec k.data v (',' :: (renderMembers (m1 :: rest1) ++ tail)) hk hv
          (by simp [startsWithDelimiter])]
        rw [skipSpace_cons_of_not_space _ _ (by decide)]
        rw [applyMembers]
        cases hdec : dec k.data with
        | none =>
          simp only [if_true]
          rw [hsk]
          exact ih1 fuel tail a (by simp at hf ⊢; omega)
        | some fd =>
          cases hfd : fd v a with
          | error err => simp [hfd]
          | ok a1 =>
            simp only [hfd, if_true]
            rw [hsk]
            exact ih1 fuel tail a1 (by simp at hf ⊢; omega)

/-- Decoding the object the encoder wrote for a struct applies the field decoders in
order. -/
theorem decodeStruct_render {α : Type} {depth : Nat} (goType : String)
    (dec : Text → Option (Text → α → Except GoError α))
    (ms : List (String × Text)) (hne : ms ≠ [])
    (hok : ∀ kv ∈ ms, isPlainText kv.1.data = true ∧ Scannable depth kv.2) (a : α) :
    decodeStruct goType dec (renderObject ms) a = applyMembers dec ms a := by
  cases ms with
  | nil => exact absurd rfl hne
  | cons m rest =>
    obtain ⟨r1, hr1⟩ := renderMembers_head m rest
    have := decodeMembers_render dec (m :: rest) hne hok (r1.length + 1) [] a (by
      have := renderMembers_length (m :: rest)
      rw [hr1] at this
      simpa using this)
    unfold decodeStruct renderObject
    rw [hr1] at this ⊢
    simp only [List.append_nil] at this
    simp only [if_true]
    rw [skipSpace_cons_of_not_space _ _ (by decide)]
    simp only [if_neg (show ¬ ('"' : Char) = '}' by decide)]
    exact this

/-! ## Identifiers read back -/

theorem plainChar_digitChar (d : Nat) (h : d < 16) : plainChar (digitChar d) = true := by
  interval_cases d <;> rfl

theorem isPlainText_append (a b : Text) (ha : isPlainText a = true) (hb : isPlainText b = true) :
    isPlainText (a ++ b) = true := by
  simp only [isPlainText, List.all_append, Bool.and_eq_true] at *
  exact ⟨ha, hb⟩

theorem isPlainText_cons (c : Char) (b : Text) (hc : plainChar c = true)
    (hb : isPlainText b = true) : isPlainText (c :: b) = true := by
  simp only [isPlainText, List.all_cons, Bool.and_eq_true] at *
  exact ⟨hc, hb⟩

theorem isPlainText_digitsFixed (base : Nat) (hb : 0 < base) (hb16 : base ≤ 16) (w n : Nat) :
    isPlainText (digitsFixed base w n) = true := by
  induction w with
  | zero => rfl
  | succ w ih =>
    simp only [digitsFixed]
    exact isPlainText_cons _ _
      (plainChar_digitChar _ (Nat.lt_of_lt_of_le (Nat.mod_lt _ hb) hb16)) ih

theorem isPlainText_UUID_String (u : UUID) : isPlainText u.String = true := by
  unfold UUID.String
  have d := fun w n => isPlainText_digitsFixed 16 (by decide) (by decide) w n
  refine isPlainText_append _ _ (isPlainText_append _ _ (isPlainText_append _ _
    (isPlainText_append _ _ (d _ _) ?_) ?_) ?_) ?_
  all_goals exact isPlainText_cons _ _ (by decide) (d _ _)

theorem readHex (w n : Nat) (hn : n < 16 ^ w) (rest : Text) :
    readDigits hexVal 16 w 0 (digitsFixed 16 w n ++ rest) = some (n, rest) := by
  rw [readDigits_digitsFixed hexVal 16 (by decide) hexVal_digitChar, Nat.mod_eq_of_lt hn]
  simp

theorem readDec (w n : Nat) (hn : n < 10 ^ w) (rest : Text) :
    readDigits decVal 10 w 0 (digitsFixed 10 w n ++ rest) = some (n, rest) := by
  rw [readDigits_digitsFixed decVal 10 (by decide) decVal_digitChar, Nat.mod_eq_of_lt hn]
  simp

/-- The canonical text of an identifier parses back to the identifier. -/
theorem ParseUUID_String (u : UUID) : ParseUUID u.String = some u := by
  unfold ParseUUID UUID.String
  simp only [List.append_assoc, List.cons_append]
  rw [readHex 8 _ u.timeLow.isLt]
  simp only [expectChar, if_true]
  rw [readHex 4 _ u.timeMid.isLt]
  simp only [expectChar, if_true]
  rw [readHex 4 _ u.timeHiAndVersion.isLt]
  simp only [expectChar, if_true]
  rw [readHex 4 _ u.clockSeq.isLt]
  simp only [expectChar, if_true]
  have := readHex 12 _ u.node.isLt []
  simp only [List.append_nil] at this
  rw [this]
  simp only [if_true]
  rw [dif_pos ⟨u.timeLow.isLt, u.timeMid.isLt, u.timeHiAndVersion.isLt, u.clockSeq.isLt,
    u.node.isLt⟩]

/-- The JSON form of an identifier is one compact JSON value, at any depth. -/
theorem scannable_marshalUUID (depth : Nat) (u : UUID) : Scannable depth (marshalUUID u) :=
  scannable_quoted depth u.String (isPlainText_UUID_String u)

/-- The JSON form of an identifier decodes to the identifier. -/
theorem decodeUUID_marshalUUID (u cur : UUID) : decodeUUID (marshalUUID u) cur = .ok u := by
  unfold decodeUUID marshalUUID
  simp only [List.cons_append, if_true]
  rw [readString_plain u.String [] (isPlainText_UUID_String u)]
  simp only [ParseUUID_String]

theorem scannable_marshalNullableUUID (depth : Nat) (n : NullableUUID) :
    Scannable depth (marshalNullableUUID n) := by
  unfold marshalNullableUUID
  split_ifs
  · exact scannable_marshalUUID _ _
  · exact scannable_null _

/-- The JSON form of a nullable identifier decodes to the identifier when it is valid
and to the absent identifier when it is not. -/
theorem decodeNullableUUID_marshal (n cur : NullableUUID) :
    decodeNullableUUID (marshalNullableUUID n) cur
      = .ok (if n.Valid then n else NewNullUUID) := by
  unfold marshalNullableUUID
  by_cases hv : n.Valid = true
  · simp only [hv, if_true]
    unfold decodeNullableUUID marshalUUID
    simp only [List.cons_append, if_true]
    rw [readString_plain n.UUID.String [] (isPlainText_UUID_String _)]
    simp only [ParseUUID_String]
    rcases n with ⟨u, v⟩
    simp only at hv
    rw [hv]
  · simp only [hv, Bool.false_eq_true, if_false]
    unfold decodeNullableUUID
    simp

/-! ## Times read back -/

theorem fractionValue_zeros (w acc : Nat) (zs : Text) (hz : ∀ c ∈ zs, c = '0') :
    fractionValue w acc zs = fractionValue w acc [] := by
  induction w generalizing acc zs with
  | zero => simp [fractionValue]
  | succ w ih =>
    cases zs with
    | nil => rfl
    | cons c r =>
      have hc : c = '0' := hz c (List.mem_cons_self _ _)
      subst hc
      simp only [fractionValue]
      rw [ih _ r (fun c hc => hz c (List.mem_cons_of_mem _ hc))]
      rfl

theorem fractionValue_append_zeros (w acc : Nat) (xs zs : Text) (hz : ∀ c ∈ zs, c = '0') :
    fractionValue w acc (xs ++ zs) = fractionValue w acc xs := by
  induction xs generalizing w acc with
  | nil => simpa using fractionValue_zeros w acc zs hz
  | cons c r ih =>
    cases w with
    | zero => simp [fractionValue]
    | succ w =>
      simp only [List.cons_append, fractionValue]
      exact ih _ _

theorem fractionValue_digitsFixed (w n acc : Nat) :
    fractionValue w acc (digitsFixed 10 w n) = acc * 10 ^ w + n % 10 ^ w := by
  induction w generalizing acc with
  | zero => simp [fractionValue, digitsFixed, Nat.mod_one]
  | succ w ih =>
    simp only [digitsFixed, fractionValue]
    rw [digitChar_toNat_sub _ (Nat.mod_lt _ (by decide)), ih]
    have h1 : n % 10 ^ (w + 1) = (n / 10 ^ w % 10) * 10 ^ w + n % 10 ^ w := by
      rw [pow_succ, Nat.mod_mul, Nat.mul_comm (10 ^ w)]
      omega
    rw [h1, pow_succ]
    ring

theorem trimZeros_split (s : Text) :
    ∃ zs, s = trimZeros s ++ zs ∧ ∀ c ∈ zs, c = '0' := by
  refine ⟨(s.reverse.takeWhile (fun c => c = '0')).reverse, ?_, ?_⟩
  · unfold trimZeros
    rw [← List.reverse_append, List.takeWhile_append_dropWhile, List.reverse_reverse]
  · intro c hc
    rw [List.mem_reverse] at hc
    have := List.mem_takeWhile_imp hc
    simpa using this

theorem trimZeros_subset (s : Text) : ∀ c ∈ trimZeros s, c ∈ s := by
  intro c hc
  obtain ⟨zs, hs, _⟩ := trimZeros_split s
  rw [hs]
  exact List.mem_append_left _ hc

theorem isDigit_of_mem_digitsFixed (w n : Nat) :
    ∀ c ∈ digitsFixed 10 w n, isDigit c = true := by
  induction w with
  | zero => simp [digitsFixed]
  | succ w ih =>
    simp only [digitsFixed, List.mem_cons]
    rintro c (rfl | hc)
    · exact isDigit_digitChar _ (Nat.mod_lt _ (by decide))
    · exact ih c hc

/-- The fractional second written by the layout reads back to the nanoseconds. -/
theorem readFraction_formatFraction (n : Nat) (hn : n < 1000000000) :
    readFraction (formatFraction n ++ ['Z']) = (n, ['Z']) := by
  unfold formatFraction
  by_cases h0 : n % 1000000000 = 0
  · have : n = 0 := by omega
    subst this
    simp [readFraction]
  · simp only [h0, if_false, List.cons_append]
    obtain ⟨zs, hsplit, hzs⟩ := trimZeros_split (digitsFixed 10 9 n)
    have hval : fractionValue 9 0 (trimZeros (digitsFixed 10 9 n)) = n := by
      have h1 := fractionValue_append_zeros 9 0 (trimZeros (digitsFixed 10 9 n)) zs hzs
      rw [← hsplit, fractionValue_digitsFixed] at h1
      rw [← h1]
      simp only [Nat.zero_mul, Nat.zero_add]
      exact Nat.mod_eq_of_lt hn
    have hdig : ∀ c ∈ trimZeros (digitsFixed 10 9 n), isDigit c = true :=
      fun c hc => isDigit_of_mem_digitsFixed 9 n c (trimZeros_subset _ c hc)
    have hne : trimZeros (digitsFixed 10 9 n) ≠ [] := by
      intro hnil
      rw [hnil] at hval
      simp only [fractionValue] at hval
      omega
    have hsp := spanDigits_append (trimZeros (digitsFixed 10 9 n)) ['Z'] hdig (by
      intro c r hc
      simp only [List.cons.injEq] at hc
      rw [← hc.1]
      decide)
    unfold readFraction
    simp only [hsp, hval, ne_eq, hne, not_false_eq_true, decide_True, Bool.and_true,
      decide_eq_true_eq, if_true]

theorem daysIn_le (month year : Nat) : daysIn month year ≤ 31 := by
  unfold daysIn
  split_ifs <;> omega

/-- The `RFC3339Nano` text of a well-formed UTC time in the years 0 to 9999 parses back
to the time. -/
theorem parseRFC3339_format (t : Time) (hwf : t.wellFormed = true) (hy : t.year ≤ 9999)
    (hloc : t.loc = .utc) : parseRFC3339 (formatRFC3339Nano t) = some t := by
  rcases t with ⟨year, month, day, hour, minute, second, nano, loc⟩
  simp only at hloc hy
  subst hloc
  simp only [Time.wellFormed, Bool.and_eq_true, decide_eq_true_eq] at hwf
  obtain ⟨⟨⟨⟨⟨⟨⟨⟨hm1, hm2⟩, hd1⟩, hd2⟩, hh⟩, hmi⟩, hs⟩, hn⟩, _⟩ := hwf
  have hd3 := daysIn_le month year
  unfold parseRFC3339 formatRFC3339Nano formatZone
  simp only [List.append_assoc, List.cons_append]
  rw [readDec 4 year (by omega)]
  simp only [expectChar, if_true]
  rw [readDec 2 month (by omega)]
  simp only [expectChar, if_true]
  rw [readDec 2 day (by omega)]
  simp only [expectChar, if_true]
  rw [readDec 2 hour (by omega)]
  simp only [expectChar, if_true]
  rw [readDec 2 minute (by omega)]
  simp only [expectChar, if_true]
  rw [readDec 2 second (by omega)]
  simp only []
  rw [readFraction_formatFraction nano hn]
  simp [readZone, hm1, hm2, hd1, hd2, hh, hmi, hs]

theorem isPlainText_of_digits (s : Text) (h : ∀ c ∈ s, isDigit c = true) :
    isPlainText s = true := by
  induction s with
  | nil => rfl
  | cons c r ih =>
    refine isPlainText_cons c r ?_ (ih (fun d hd => h d (List.mem_cons_of_mem _ hd)))
    have hc := h c (List.mem_cons_self _ _)
    unfold isDigit at hc
    simp only [Bool.and_eq_true, decide_eq_true_eq] at hc
    have h48 : ('0' : Char).toNat = 48 := rfl
    have h57 : ('9' : Char).toNat = 57 := rfl
    rw [h48, h57] at hc
    unfold plainChar
    simp only [Bool.not_eq_true', Bool.or_eq_false_iff, decide_eq_false_iff_not]
    refine ⟨⟨⟨⟨⟨⟨⟨?_, ?_⟩, ?_⟩, ?_⟩, ?_⟩, ?_⟩, ?_⟩, ?_⟩
    · rintro rfl
      revert hc
      decide
    · rintro rfl
      revert hc
      decide
    · omega
    · rintro rfl
      revert hc
      decide
    · rintro rfl
      revert hc
      decide
    · rintro rfl
      revert hc
      decide
    · omega
    · omega

theorem isPlainText_formatFraction (n : Nat) : isPlainText (formatFraction n) = true := by
  unfold formatFraction
  split_ifs
  · rfl
  · exact isPlainText_cons _ _ (by decide) (isPlainText_of_digits _
      (fun c hc => isDigit_of_mem_digitsFixed 9 n c (trimZeros_subset _ c hc)))

/-- The `RFC3339Nano` text of a UTC time needs no escaping. -/
theorem isPlainText_formatRFC3339Nano (t : Time) (hloc : t.loc = .utc) :
    isPlainText (formatRFC3339Nano t) = true := by
  unfold formatRFC3339Nano
  rw [hloc]
  have d := fun w n => isPlainText_digitsFixed 10 (by decide) (by decide) w n
  have c := fun (ch : Char) (b : Text) (h1 : plainChar ch = true) (h2 : isPlainText b = true) =>
    isPlainText_cons ch b h1 h2
  have a := isPlainText_append
  refine a _ _ (a _ _ (a _ _ (a _ _ (a _ _ (a _ _ (a _ _ (d _ _) ?_) ?_) ?_) ?_) ?_) ?_) ?_
  · exact c _ _ (by decide) (d _ _)
  · exact c _ _ (by decide) (d _ _)
  · exact c _ _ (by decide) (d _ _)
  · exact c _ _ (by decide) (d _ _)
  · exact c _ _ (by decide) (d _ _)
  · exact isPlainText_formatFraction _
  · rfl

/-- Marshalling a well-formed UTC time in the years 0 to 9999 succeeds; the text is one
compact JSON value at any depth and decodes to the time. -/
theorem marshalTime_roundtrip (depth : Nat) (t cur : Time) (hwf : t.wellFormed = true)
    (hy : t.year ≤ 9999) (hloc : t.loc = .utc) :
    marshalTime t = .ok ('"' :: formatRFC3339Nano t ++ ['"']) ∧
    Scannable depth ('"' :: formatRFC3339Nano t ++ ['"']) ∧
    decodeTime ('"' :: formatRFC3339Nano t ++ ['"']) cur = .ok t := by
  refine ⟨?_, scannable_quoted depth _ (isPlainText_formatRFC3339Nano t hloc), ?_⟩
  · unfold marshalTime
    simp [hy, hloc]
  · unfold decodeTime
    have hne : ('"' :: formatRFC3339Nano t ++ ['"']) ≠ ['n', 'u', 'l', 'l'] := by
      simp
    rw [if_neg hne]
    simp only [List.cons_append]
    have hlast : (formatRFC3339Nano t ++ ['"']).getLast? = some '"' := by simp
    have hdrop : (formatRFC3339Nano t ++ ['"']).dropLast = formatRFC3339Nano t := by simp
    simp only [hlast, hdrop, decide_True, Bool.and_self, if_true, parseStrictRFC3339,
      parseRFC3339_format t hwf hy hloc]

/-- An encoded Go string decodes to the string. -/
theorem decodeString_encodeString (s cur : String) :
    decodeString (encodeString s.data) cur = .ok s := by
  unfold decodeString encodeString
  simp only [List.cons_append, if_true]
  rw [readString_escapeText]

theorem headerField_eventId : headerField "eventId".data
    = some (fun raw h => (decodeUUID raw h.EventID).map (fun v => { h with EventID := v })) := by
  unfold headerField
  rw [if_pos (by decide)]

theorem headerField_eventType : headerField "eventType".data
    = some (fun raw h =>
        (decodeString raw h.EventType).map (fun v => { h with EventType := v })) := by
  unfold headerField
  rw [if_neg (by decide), if_pos (by decide)]

theorem headerField_timestamp : headerField "timestamp".data
    = some (fun raw h =>
        (decodeTime raw h.Timestamp).map (fun v => { h with Timestamp := v })) := by
  unfold headerField
  rw [if_neg (by decide), if_neg (by decide), if_pos (by decide)]

theorem headerField_source : headerField "source".data
    = some (fun raw h => (decodeString raw h.Source).map (fun v => { h with Source := v })) := by
  unfold headerField
  rw [if_neg (by decide), if_neg (by decide), if_neg (by decide), if_pos (by decide)]

theorem headerField_jsonSchemaVersion : headerField "jsonSchemaVersion".data
    = some (fun raw h =>
        (decodeString raw h.SchemaVersion).map (fun v => { h with SchemaVersion := v })) := by
  unfold headerField
  rw [if_neg (by decide), if_neg (by decide), if_neg (by decide), if_neg (by decide),
    if_pos (by decide)]

theorem contextField_correlationId : contextField "correlationId".data
    = some (fun raw c =>
        (decodeUUID raw c.CorrelationID).map (fun v => { c with CorrelationID := v })) := by
  unfold contextField
  rw [if_pos (by decide)]

theorem contextField_userId : contextField "userId".data
    = some (fun raw c =>
        (decodeNullableUUID raw c.UserID).map (fun v => { c with UserID := v })) := by
  unfold contextField
  rw [if_neg (by decide), if_pos (by decide)]

theorem metadataField_traceId : metadataField "traceId".data
    = some (fun raw m => (decodeUUID raw m.TraceID).map (fun v => { m with TraceID := v })) := by
  unfold metadataField
  rw [if_pos (by decide)]

theorem metadataField_previousEventId : metadataField "previousEventId".data
    = some (fun raw m =>
        (decodeNullableUUID raw m.PreviousEventID).map
          (fun v => { m with PreviousEventID := v })) := by
  unfold metadataField
  rw [if_neg (by decide), if_pos (by decide)]

theorem metadataField_causationId : metadataField "causationId".data
    = some (fun raw m =>
        (decodeNullableUUID raw m.CausationID).map (fun v => { m with CausationID := v })) := by
  unfold metadataField
  rw [if_neg (by decide), if_neg (by decide), if_pos (by decide)]

theorem eventField_header : eventField "header".data
    = some (fun raw e =>
        (decodeStruct "event.EventHeader" headerField raw e.Header).map
          (fun v => { e with Header := v })) := by
  unfold eventField
  rw [if_pos (by decide)]

theorem eventField_context : eventField "context".data
    = some (fun raw e =>
        (decodeStruct "event.EventContext" contextField raw e.Context).map
          (fun v => { e with Context := v })) := by
  unfold eventField
  rw [if_neg (by decide), if_pos (by decide)]

theorem eventField_metadata : eventField "metadata".data
    = some (fun raw e =>
        (decodeStruct "event.EventMetadata" metadataField raw e.Metadata).map
          (fun v => { e with Metadata := v })) := by
  unfold eventField
  rw [if_neg (by decide), if_neg (by decide), if_pos (by decide)]

theorem eventField_payload : eventField "payload".data
    = some (fun raw e => .ok { e with Payload := some raw }) := by
  unfold eventField
  rw [if_neg (by decide), if_neg (by decide), if_neg (by decide), if_pos (by decide)]

/-! ## Envelopes read back -/

theorem exceptMap_ok {ε α β : Type} (f : α → β) (a : α) :
    Except.map f (Except.ok a : Except ε α) = Except.ok (f a) := rfl

theorem applyMembers_nil {α : Type} (dec : Text → Option (Text → α → Except GoError α))
    (a : α) : applyMembers dec [] a = .ok a := rfl

theorem applyMembers_cons {α : Type} (dec : Text → Option (Text → α → Except GoError α))
    (k : String) (v : Text) (rest : List (String × Text)) (a : α) :
    applyMembers dec ((k, v) :: rest) a =
      match (match dec k.data with
             | some f => f v a
             | none => .ok a) with
      | .error err => .error err
      | .ok a1 => applyMembers dec rest a1 := rfl

/-- The header of an envelope stamped with a well-formed UTC time in the years 0 to
9999 is marshalled to one compact JSON value, readable as a member of the envelope, which
decodes to the header. -/
theorem header_roundtrip (h cur : EventHeader) (hwf : h.Timestamp.wellFormed = true)
    (hy : h.Timestamp.year ≤ 9999) (hloc : h.Timestamp.loc = .utc) :
    ∃ hv, marshalEventHeader h = .ok hv ∧ Scannable 1 hv ∧
      decodeStruct "event.EventHeader" headerField hv cur = .ok h := by
  obtain ⟨hm, hs, hd⟩ := marshalTime_roundtrip 2 h.Timestamp cur.Timestamp hwf hy hloc
  have hok : ∀ kv ∈ [("eventId", marshalUUID h.EventID),
      ("eventType", encodeString h.EventType.data),
      ("timestamp", '"' :: formatRFC3339Nano h.Timestamp ++ ['"']),
      ("source", encodeString h.Source.data),
      ("jsonSchemaVersion", encodeString h.SchemaVersion.data)],
      isPlainText kv.1.data = true ∧ Scannable 2 kv.2 := by
    intro kv hkv
    simp only [List.mem_cons, List.mem_singleton, List.not_mem_nil, or_false] at hkv
    rcases hkv with rfl | rfl | rfl | rfl | rfl
    · exact ⟨(by decide : isPlainText "eventId".data = true), scannable_marshalUUID _ _⟩
    · exact ⟨(by decide : isPlainText "eventType".data = true), scannable_encodeString _ _⟩
    · exact ⟨(by decide : isPlainText "timestamp".data = true), hs⟩
    · exact ⟨(by decide : isPlainText "source".data = true), scannable_encodeString _ _⟩
    · exact ⟨(by decide : isPlainText "jsonSchemaVersion".data = true),
        scannable_encodeString _ _⟩
  refine ⟨_, by unfold marshalEventHeader; rw [hm],
    scannable_renderObject 1 (by decide) _ (by simp) hok, ?_⟩
  rw [decodeStruct_render _ _ _ (by simp) hok]
  rw [applyMembers_cons, headerField_eventId]
  simp only [decodeUUID_marshalUUID, exceptMap_ok]
  rw [applyMembers_cons, headerField_eventType]
  simp only [decodeString_encodeString, exceptMap_ok]
  rw [applyMembers_cons, headerField_timestamp]
  simp only [hd, exceptMap_ok]
  rw [applyMembers_cons, headerField_source]
  simp only [decodeString_encodeString, exceptMap_ok]
  rw [applyMembers_cons, headerField_jsonSchemaVersion]
  simp only [decodeString_encodeString, exceptMap_ok, applyMembers_nil]

/-- The context of an envelope is marshalled to one compact JSON value, readable as a
member of the envelope, which decodes to the context, an absent actor identifier coming
back as the zero value. -/
theorem context_roundtrip (c cur : EventContext) :
    Scannable 1 (marshalEventContext c) ∧
      decodeStruct "event.EventContext" contextField (marshalEventContext c) cur
        = .ok ⟨c.CorrelationID, if c.UserID.Valid then c.UserID else NewNullUUID⟩ := by
  have hok : ∀ kv ∈ [("correlationId", marshalUUID c.CorrelationID),
      ("userId", marshalNullableUUID c.UserID)],
      isPlainText kv.1.data = true ∧ Scannable 2 kv.2 := by
    intro kv hkv
    simp only [List.mem_cons, List.mem_singleton, List.not_mem_nil, or_false] at hkv
    rcases hkv with rfl | rfl
    · exact ⟨(by decide : isPlainText "correlationId".data = true),
        scannable_marshalUUID _ _⟩
    · exact ⟨(by decide : isPlainText "userId".data = true),
        scannable_marshalNullableUUID _ _⟩
  have hm : marshalEventContext c = renderObject [("correlationId", marshalUUID c.CorrelationID),
      ("userId", marshalNullableUUID c.UserID)] := by
    simp [marshalEventContext, NullableUUID.isEmptyValue]
  rw [hm]
  refine ⟨scannable_renderObject 1 (by decide) _ (by simp) hok, ?_⟩
  rw [decodeStruct_render _ _ _ (by simp) hok]
  rw [applyMembers_cons, contextField_correlationId]
  simp only [decodeUUID_marshalUUID, exceptMap_ok]
  rw [applyMembers_cons, contextField_userId]
  simp only [decodeNullableUUID_marshal, exceptMap_ok, applyMembers_nil]

/-- The metadata of an envelope is marshalled to one compact JSON value, readable as a
member of the envelope, which decodes to the metadata, absent identifiers coming back as
the zero value. -/
theorem metadata_roundtrip (m cur : EventMetadata) :
    Scannable 1 (marshalEventMetadata m) ∧
      decodeStruct "event.EventMetadata" metadataField (marshalEventMetadata m) cur
        = .ok ⟨m.TraceID, if m.PreviousEventID.Valid then m.PreviousEventID else NewNullUUID,
            if m.CausationID.Valid then m.CausationID else NewNullUUID⟩ := by
  have hok : ∀ kv ∈ [("traceId", marshalUUID m.TraceID),
      ("previousEventId", marshalNullableUUID m.PreviousEventID),
      ("causationId", marshalNullableUUID m.CausationID)],
      isPlainText kv.1.data = true ∧ Scannable 2 kv.2 := by
    intro kv hkv
    simp only [List.mem_cons, List.mem_singleton, List.not_mem_nil, or_false] at hkv
    rcases hkv with rfl | rfl | rfl
    · exact ⟨(by decide : isPlainText "traceId".data = true), scannable_marshalUUID _ _⟩
    · exact ⟨(by decide : isPlainText "previousEventId".data = true),
        scannable_marshalNullableUUID _ _⟩
    · exact ⟨(by decide : isPlainText "causationId".data = true),
        scannable_marshalNullableUUID _ _⟩
  have hm : marshalEventMetadata m = renderObject [("traceId", marshalUUID m.TraceID),
      ("previousEventId", marshalNullableUUID m.PreviousEventID),
      ("causationId", marshalNullableUUID m.CausationID)] := by
    simp [marshalEventMetadata, NullableUUID.isEmptyValue]
  rw [hm]
  refine ⟨scannable_renderObject 1 (by decide) _ (by simp) hok, ?_⟩
  rw [decodeStruct_render _ _ _ (by simp) hok]
  rw [applyMembers_cons, metadataField_traceId]
  simp only [decodeUUID_marshalUUID, exceptMap_ok]
  rw [applyMembers_cons, metadataField_previousEventId]
  simp only [decodeNullableUUID_marshal, exceptMap_ok]
  rw [applyMembers_cons, metadataField_causationId]
  simp only [decodeNullableUUID_marshal, exceptMap_ok, applyMembers_nil]

/-- An envelope stamped with a well-formed UTC time in the years 0 to 9999 and carrying
a payload that is valid as a member of the envelope, one level down, is marshalled to a
document that unmarshals to the envelope with its payload compacted and its absent
identifiers as the zero value. -/
theorem event_roundtrip (e : Event) (p out : Text)
    (hwf : e.Header.Timestamp.wellFormed = true) (hy : e.Header.Timestamp.year ≤ 9999)
    (hloc : e.Header.Timestamp.loc = .utc) (hp : e.Payload = some p)
    (hout : scanDocumentAt 1 p = some out) :
    ∃ data, jsonMarshalEvent e = .ok data ∧
      jsonUnmarshalEvent data = .ok
        { Header := e.Header
          Context := ⟨e.Context.CorrelationID,
            if e.Context.UserID.Valid then e.Context.UserID else NewNullUUID⟩
          Metadata := ⟨e.Metadata.TraceID,
            if e.Metadata.PreviousEventID.Valid then e.Metadata.PreviousEventID
            else NewNullUUID,
            if e.Metadata.CausationID.Valid then e.Metadata.CausationID else NewNullUUID⟩
          Payload := some out } := by
  obtain ⟨hv, hhm, hhs, hhd⟩ := header_roundtrip e.Header Event.zero.Header hwf hy hloc
  obtain ⟨hcs, hcd⟩ := context_roundtrip e.Context Event.zero.Context
  obtain ⟨hms, hmd⟩ := metadata_roundtrip e.Metadata Event.zero.Metadata
  have hps : Scannable 1 out := scannable_of_scanDocumentAt 1 p out hout
  have hok : ∀ kv ∈ [("header", hv), ("context", marshalEventContext e.Context),
      ("metadata", marshalEventMetadata e.Metadata), ("payload", out)],
      isPlainText kv.1.data = true ∧ Scannable 1 kv.2 := by
    intro kv hkv
    simp only [List.mem_cons, List.mem_singleton, List.not_mem_nil, or_false] at hkv
    rcases hkv with rfl | rfl | rfl | rfl
    · exact ⟨(by decide : isPlainText "header".data = true), hhs⟩
    · exact ⟨(by decide : isPlainText "context".data = true), hcs⟩
    · exact ⟨(by decide : isPlainText "metadata".data = true), hms⟩
    · exact ⟨(by decide : isPlainText "payload".data = true), hps⟩
  have hmarshal : jsonMarshalEvent e = .ok (renderObject [("header", hv),
      ("context", marshalEventContext e.Context),
      ("metadata", marshalEventMetadata e.Metadata), ("payload", out)]) := by
    unfold jsonMarshalEvent
    rw [hhm, hp]
    simp only [marshalRawMessage, scanDocument_of_scanDocumentAt 1 p out hout]
  refine ⟨_, hmarshal, ?_⟩
  unfold jsonUnmarshalEvent
  rw [scanDocument_renderObject _ (by simp) hok]
  simp only []
  have hsk : ∀ ms, skipSpace (renderObject ms) = renderObject ms :=
    fun ms => skipSpace_cons_of_not_space _ _ (by decide)
  rw [hsk, decodeStruct_render "event.Event" eventField _ (by simp) hok Event.zero]
  rw [applyMembers_cons, eventField_header]
  simp only [hhd, exceptMap_ok]
  rw [applyMembers_cons, eventField_context]
  simp only [hcd, exceptMap_ok]
  rw [applyMembers_cons, eventField_metadata]
  simp only [hmd, exceptMap_ok]
  rw [applyMembers_cons, eventField_payload]
  simp only [applyMembers_nil]

/-! ## Timestamps the decoder reads -/

/-- Timestamps outside RFC 3339 that `Time.UnmarshalJSON` reads through `time.Parse`: a
comma before the fraction, a one-digit hour, a zone offset of 24 hours or of 60 minutes;
and texts it rejects: a zone offset of 25 hours, a one-digit month, the 30th of
February, text after the zone. -/
theorem parseStrictRFC3339_examples :
    parseStrictRFC3339 "2025-06-01T12:30:45,5Z".data
      = some ⟨2025, 6, 1, 12, 30, 45, 500000000, .utc⟩ ∧
    parseStrictRFC3339 "2025-06-01T1:30:45Z".data = some ⟨2025, 6, 1, 1, 30, 45, 0, .utc⟩ ∧
    parseStrictRFC3339 "2025-06-01T12:30:45+24:00".data
      = some ⟨2025, 6, 1, 12, 30, 45, 0, .fixed 1440⟩ ∧
    parseStrictRFC3339 "2025-06-01T12:30:45+23:60".data
      = some ⟨2025, 6, 1, 12, 30, 45, 0, .fixed 1440⟩ ∧
    parseStrictRFC3339 "2025-06-01T12:30:45.123456789-07:00".data
      = some ⟨2025, 6, 1, 12, 30, 45, 123456789, .fixed (-420)⟩ ∧
    parseStrictRFC3339 "2025-06-01T12:30:45+25:00".data = none ∧
    parseStrictRFC3339 "2025-6-01T12:30:45Z".data = none ∧
    parseStrictRFC3339 "2025-02-30T12:30:45Z".data = none ∧
    parseStrictRFC3339 "2025-06-01T12:30:45Zx".data = none := by
  decide

/-- A body whose timestamp has a one-digit hour and a comma before the fraction is
decoded by `json.Unmarshal`. -/
theorem jsonUnmarshalEvent_lenient_timestamp :
    jsonUnmarshalEvent
        "\x7b\"header\":\x7b\"timestamp\":\"2025-06-01T1:30:45,5Z\"\x7d\x7d".data
      = .ok { Event.zero with
          Header := { Event.zero.Header with
            Timestamp := ⟨2025, 6, 1, 1, 30, 45, 500000000, .utc⟩ } } := by
  decide

/-! ## Payloads at the nesting limit -/

/-- Nested arrays that fit under the nesting limit scan to themselves. -/
theorem scanValue_nestedArrays (n : Nat) :
    ∀ d g tail, d + (n + 1) ≤ maxNestingDepth → 2 * n < g →
      scanValue g d (nestedArrays (n + 1) ++ tail) = some (nestedArrays (n + 1), tail) := by
  induction n with
  | zero =>
    intro d g tail hd hg
    cases g with
    | zero => omega
    | succ g =>
      simp only [nestedArrays, List.nil_append, List.cons_append]
      rw [scanValue_succ_cons, if_neg (by decide), if_neg (by decide), if_pos rfl,
        if_pos (by omega), skipSpace_cons_of_not_space _ _ (by decide)]
      simp
  | succ n ih =>
    intro d g tail hd hg
    cases g with
    | zero => omega
    | succ g =>
      cases g with
      | zero => omega
      | succ g =>
        have hin := ih (d + 1) g (']' :: tail) (by omega) (by omega)
        have hshape : nestedArrays (n + 1 + 1) ++ tail
            = '[' :: (nestedArrays (n + 1) ++ ']' :: tail) := by
          simp [nestedArrays]
        have hhead : ∃ r, nestedArrays (n + 1) ++ ']' :: tail = '[' :: r :=
          ⟨nestedArrays n ++ ']' :: ']' :: tail, by simp [nestedArrays]⟩
        obtain ⟨r, hr⟩ := hhead
        rw [hshape, scanValue_succ_cons, if_neg (by decide), if_neg (by decide), if_pos rfl,
          if_pos (by omega)]
        rw [hr, skipSpace_cons_of_not_space _ _ (by decide)]
        simp only [if_neg (show ¬ ('[' : Char) = ']' by decide)]
        rw [← hr, scanElements_succ, hin]
        simp only []
        rw [skipSpace_cons_of_not_space _ _ (by decide)]
        simp [emit, nestedArrays]

/-- Nested arrays that reach beyond the nesting limit are rejected, whatever the fuel. -/
theorem scanValue_nestedArrays_too_deep (n : Nat) :
    ∀ d g tail, maxNestingDepth < d + (n + 1) →
      scanValue g d (nestedArrays (n + 1) ++ tail) = none := by
  induction n with
  | zero =>
    intro d g tail hd
    cases g with
    | zero => exact scanValue_zero _ _
    | succ g =>
      simp only [nestedArrays, List.nil_append, List.cons_append]
      rw [scanValue_succ_cons, if_neg (by decide), if_neg (by decide), if_pos rfl,
        if_neg (by omega)]
  | succ n ih =>
    intro d g tail hd
    cases g with
    | zero => exact scanValue_zero _ _
    | succ g =>
      have hshape : nestedArrays (n + 1 + 1) ++ tail
          = '[' :: (nestedArrays (n + 1) ++ ']' :: tail) := by
        simp [nestedArrays]
      have hhead : ∃ r, nestedArrays (n + 1) ++ ']' :: tail = '[' :: r :=
        ⟨nestedArrays n ++ ']' :: ']' :: tail, by simp [nestedArrays]⟩
      obtain ⟨r, hr⟩ := hhead
      rw [hshape, scanValue_succ_cons, if_neg (by decide), if_neg (by decide), if_pos rfl]
      by_cases hdep : d < maxNestingDepth
      · rw [if_pos hdep, hr, skipSpace_cons_of_not_space _ _ (by decide)]
        simp only [if_neg (show ¬ ('[' : Char) = ']' by decide)]
        rw [← hr]
        cases g with
        | zero =>
          rw [scanElements_zero]
          rfl
        | succ g =>
          rw [scanElements_succ, ih (d + 1) g (']' :: tail) (by omega)]
          rfl
      · rw [if_neg hdep]

theorem nestedArrays_length (n : Nat) : (nestedArrays n).length = 2 * n := by
  induction n with
  | zero => rfl
  | succ n ih =>
    simp only [nestedArrays, List.length_cons, List.length_append, List.length_nil, ih]
    omega

theorem scanDocument_nestedArrays (n : Nat) (h : n + 1 ≤ maxNestingDepth) :
    scanDocument (nestedArrays (n + 1)) = some (nestedArrays (n + 1)) := by
  have hs := scanValue_nestedArrays n 0 ((nestedArrays (n + 1)).length + 1) []
    (by omega) (by rw [nestedArrays_length]; omega)
  rw [List.append_nil] at hs
  have hsk : skipSpace (nestedArrays (n + 1)) = nestedArrays (n + 1) := by
    have : nestedArrays (n + 1) = '[' :: (nestedArrays n ++ [']']) := rfl
    rw [this]
    exact skipSpace_cons_of_not_space _ _ (by decide)
  unfold scanDocument
  rw [hsk, hs]
  simp [skipSpace]

/-- A member whose value the scanner rejects makes the scanner reject the members. -/
theorem member_scan_rejected (dep : Nat) (k v after : Text) (hk : isPlainText k = true)
    (hstart : ∃ c r, v = c :: r ∧ isValueStart c = true)
    (hbad : ∀ g tail, scanValue g dep (v ++ tail) = none) (g : Nat) :
    scanMembers g dep ('"' :: (k ++ '"' :: ':' :: (v ++ after))) = none := by
  cases g with
  | zero => exact scanMembers_zero _ _
  | succ g =>
    obtain ⟨v0, vs, hvs, hv0⟩ := hstart
    have hkey : scanString (k ++ '"' :: ':' :: (v ++ after))
        = some (k ++ ['"'], ':' :: (v ++ after)) := by
      have := scanString_escapeText k (':' :: (v ++ after))
      rw [escapeText_plain k hk] at this
      exact this
    have hskv : skipSpace (v ++ after) = v ++ after := by
      rw [hvs]
      exact skipSpace_cons_of_not_space _ _ (isValueStart_not_space v0 hv0)
    rw [scanMembers_succ_cons, if_pos rfl, hkey]
    simp only []
    rw [skipSpace_cons_of_not_space _ _ (by decide)]
    simp only [if_true]
    rw [hskv, hbad]

/-- Members the encoder wrote, the last of which holds a value the scanner rejects at
their depth, are rejected. -/
theorem scanMembers_render_rejected (dep : Nat) (k : String) (bad : Text)
    (hk : isPlainText k.data = true)
    (hstart : ∃ c r, bad = c :: r ∧ isValueStart c = true)
    (hbad : ∀ g tail, scanValue g dep (bad ++ tail) = none)
    (ms : List (String × Text))
    (hok : ∀ kv ∈ ms, isPlainText kv.1.data = true ∧ Scannable dep kv.2) :
    ∀ g tail, (renderMembers (ms ++ [(k, bad)])).length < g →
      scanMembers g dep (renderMembers (ms ++ [(k, bad)]) ++ tail) = none := by
  induction ms with
  | nil =>
    intro g tail _
    simp only [List.nil_append]
    rw [renderMembers_single]
    simp only [List.cons_append, List.append_assoc, List.nil_append]
    exact member_scan_rejected dep k.data bad ('}' :: tail) hk hstart hbad g
  | cons m rest ih =>
    rcases m with ⟨k1, v1⟩
    obtain ⟨hk1, hv1⟩ := hok (k1, v1) (List.mem_cons_self _ _)
    have ih1 := ih (fun kv hkv => hok kv (List.mem_cons_of_mem _ hkv))
    intro g tail hg
    cases g with
    | zero => exact scanMembers_zero _ _
    | succ g =>
      obtain ⟨m1, rest1, hrest⟩ : ∃ m1 rest1, rest ++ [(k, bad)] = m1 :: rest1 := by
        cases rest with
        | nil => exact ⟨_, _, rfl⟩
        | cons a b => exact ⟨_, _, rfl⟩
      obtain ⟨r1, hr1⟩ := renderMembers_head m1 rest1
      rw [List.cons_append, hrest] at hg ⊢
      rw [hrest] at ih1
      rw [renderMembers_cons_cons] at hg ⊢
      simp only [List.cons_append, List.append_assoc, List.nil_append]
      rw [member_scan_step dep k1.data v1 (',' :: (renderMembers (m1 :: rest1) ++ tail)) hk1 hv1
        (by simp [startsWithDelimiter]) g (by
          simp at hg
          omega)]
      rw [skipSpace_cons_of_not_space _ _ (by decide)]
      simp only [if_neg (show ¬ (',' : Char) = '}' by decide), if_true]
      have hsk : skipSpace (renderMembers (m1 :: rest1) ++ tail)
          = renderMembers (m1 :: rest1) ++ tail := by
        rw [hr1]
        exact skipSpace_cons_of_not_space _ _ (by decide)
      rw [hsk, ih1 g tail (by
        simp at hg
        omega)]
      rfl

/-- An envelope whose payload is `maxNestingDepth` arrays nested in one another, which
`json.Valid` accepts, is serialized without error, and the serialization is not read
back: inside the envelope the payload is one level over the nesting limit. -/
theorem deep_payload_not_read_back (e : Event)
    (hwf : e.Header.Timestamp.wellFormed = true) (hy : e.Header.Timestamp.year ≤ 9999)
    (hloc : e.Header.Timestamp.loc = .utc)
    (hp : e.Payload = some (nestedArrays maxNestingDepth)) :
    jsonValid (nestedArrays maxNestingDepth) = true ∧
    ∃ data, jsonMarshalEvent e = .ok data ∧ jsonUnmarshalEvent data = .error syntaxError := by
  obtain ⟨n, hn⟩ : ∃ n, maxNestingDepth = n + 1 := ⟨9999, rfl⟩
  have hle : n + 1 ≤ maxNestingDepth := by omega
  have hover : maxNestingDepth < 1 + (n + 1) := by omega
  rw [hn] at hp ⊢
  obtain ⟨hv, hhm, hhs, _⟩ := header_roundtrip e.Header Event.zero.Header hwf hy hloc
  obtain ⟨hcs, _⟩ := context_roundtrip e.Context Event.zero.Context
  obtain ⟨hms, _⟩ := metadata_roundtrip e.Metadata Event.zero.Metadata
  have hvalid := scanDocument_nestedArrays n hle
  have hmarshal : jsonMarshalEvent e = .ok (renderObject [("header", hv),
      ("context", marshalEventContext e.Context),
      ("metadata", marshalEventMetadata e.Metadata),
      ("payload", nestedArrays (n + 1))]) := by
    unfold jsonMarshalEvent
    rw [hhm, hp]
    simp only [marshalRawMessage, hvalid]
  refine ⟨by unfold jsonValid; rw [hvalid]; rfl, _, hmarshal, ?_⟩
  · have hok : ∀ kv ∈ [("header", hv), ("context", marshalEventContext e.Context),
        ("metadata", marshalEventMetadata e.Metadata)],
        isPlainText kv.1.data = true ∧ Scannable 1 kv.2 := by
      intro kv hkv
      simp only [List.mem_cons, List.mem_singleton, List.not_mem_nil, or_false] at hkv
      rcases hkv with rfl | rfl | rfl
      · exact ⟨(by decide : isPlainText "header".data = true), hhs⟩
      · exact ⟨(by decide : isPlainText "context".data = true), hcs⟩
      · exact ⟨(by decide : isPlainText "metadata".data = true), hms⟩
    have hmem := scanMembers_render_rejected 1 "payload" (nestedArrays (n + 1)) (by decide)
      ⟨'[', nestedArrays n ++ [']'], rfl, by decide⟩
      (fun g tail => scanValue_nestedArrays_too_deep n 1 g tail hover) _ hok
    have hscan : scanDocument (renderObject ([("header", hv),
        ("context", marshalEventContext e.Context),
        ("metadata", marshalEventMetadata e.Metadata)]
          ++ [("payload", nestedArrays (n + 1))])) = none := by
      have hm := hmem (renderMembers ([("header", hv),
        ("context", marshalEventContext e.Context),
        ("metadata", marshalEventMetadata e.Metadata)]
          ++ [("payload", nestedArrays (n + 1))])).length.succ [] (Nat.lt_succ_self _)
      rw [List.append_nil] at hm
      obtain ⟨r1, hr1⟩ := renderMembers_head ("header", hv)
        ([("context", marshalEventContext e.Context),
          ("metadata", marshalEventMetadata e.Metadata)]
            ++ [("payload", nestedArrays (n + 1))])
      unfold scanDocument renderObject
      rw [skipSpace_cons_of_not_space _ _ (by decide)]
      simp only [List.length_cons]
      rw [scanValue_succ_cons, if_neg (by decide), if_pos rfl, if_pos (by decide)]
      simp only [List.cons_append] at hm hr1 ⊢
      rw [hr1] at hm ⊢
      rw [skipSpace_cons_of_not_space _ _ (by decide)]
      simp only [if_neg (show ¬ ('"' : Char) = '}' by decide)]
      rw [hm]
      rfl
    unfold jsonUnmarshalEvent
    simp only [List.cons_append, List.nil_append] at hscan
    rw [hscan]

/-- The constructor `NewEvent` accepts a payload of `maxNestingDepth` arrays nested in
one another, and the envelope it returns is serialized without error to a document that
`json.Unmarshal` rejects. -/
theorem NewEvent_deepPayload_not_read_back :
    ∃ e data, NewEvent Env.sample EventInput.deepPayload = .ok e ∧
      jsonMarshalEvent e = .ok data ∧ jsonUnmarshalEvent data = .error syntaxError := by
  have hvalid : jsonValid (nestedArrays maxNestingDepth) = true :=
    (deep_payload_not_read_back
      { Event.spacedPayload with Payload := some (nestedArrays maxNestingDepth) }
      (by decide) (by decide) rfl rfl).1
  have hp : EventInput.deepPayload.Payload = some (nestedArrays maxNestingDepth) := rfl
  have hnew : NewEvent Env.sample EventInput.deepPayload
      = .ok { Event.spacedPayload with Payload := some (nestedArrays maxNestingDepth) } := by
    unfold NewEvent
    rw [if_neg (by decide), if_neg (by decide), if_neg (by decide), if_neg (by decide),
      if_neg (by decide), hp]
    simp only [hvalid, Bool.not_true, Bool.false_eq_true, if_false]
    rfl
  obtain ⟨data, hm, hu⟩ := (deep_payload_not_read_back
    { Event.spacedPayload with Payload := some (nestedArrays maxNestingDepth) }
    (by decide) (by decide) rfl rfl).2
  exact ⟨_, data, hnew, hm, hu⟩

/-! ## Round trip of an envelope through its wire form -/

/-- What a successful `NewEvent` returns, and what it has checked. -/
theorem NewEvent_ok_inv (env : Env) (input : EventInput) (e : Event)
    (h : NewEvent env input = .ok e) :
    ∃ id p, env.newUUID = .ok id ∧ input.Payload = some p ∧ jsonValid p = true ∧
      input.EventType ≠ "" ∧ input.Source ≠ "" ∧ input.EventVersion ≠ "" ∧
      input.CorrelationID ≠ UUID.Nil ∧ input.TraceID ≠ UUID.Nil ∧
      e = { Header := ⟨id, input.EventType, nowUTC env.clock, input.Source, input.EventVersion⟩
            Context := ⟨input.CorrelationID, input.UserID⟩
            Metadata := ⟨input.TraceID, input.PreviousEventID, input.CausationID⟩
            Payload := some p } := by
  unfold NewEvent NewEventHeader at h
  by_cases h1 : input.EventType = ""
  · simp [h1] at h
  by_cases h2 : input.Source = ""
  · simp [h1, h2] at h
  by_cases h3 : input.EventVersion = ""
  · simp [h1, h2, h3] at h
  by_cases h4 : input.CorrelationID = UUID.Nil
  · simp [h1, h2, h3, h4, UUID.IsNil] at h
  by_cases h5 : input.TraceID = UUID.Nil
  · simp [h1, h2, h3, h4, h5, UUID.IsNil] at h
  cases hp : input.Payload with
  | none => simp [h1, h2, h3, h4, h5, UUID.IsNil, hp] at h
  | some p =>
    by_cases h7 : jsonValid p = true
    · cases hg : env.newUUID with
      | error err => simp [h1, h2, h3, h4, h5, UUID.IsNil, hp, h7, hg] at h
      | ok id =>
        simp only [h1, h2, h3, h4, h5, UUID.IsNil, hp, h7, hg, if_false, decide_False,
          Bool.false_eq_true, Bool.not_true, Except.ok.injEq, NewEventContext,
          NewEventMetadata] at h
        exact ⟨id, p, rfl, rfl, h7, h1, h2, h3, h4, h5, h.symm⟩
    · simp [h1, h2, h3, h4, h5, UUID.IsNil, hp, h7] at h

/-- C9, as stated, fails: the envelope `NewEvent` builds from a payload with
insignificant whitespace and a `<` character comes back from its JSON serialization
with a different payload, the compacted and escaped text. -/
theorem C9_roundtrip_counterexample :
    NewEvent Env.sample EventInput.spacedPayload = .ok Event.spacedPayload ∧
    (match jsonMarshalEvent Event.spacedPayload with
      | .ok data => jsonUnmarshalEvent data
      | .error err => .error err)
      = .ok { Event.spacedPayload with Payload := some "\x7b\"note\":\"a\\u003cb\"\x7d".data } ∧
    (some "\x7b\"note\":\"a\\u003cb\"\x7d".data : RawMessage) ≠ Event.spacedPayload.Payload := by
  decide!

/-- C9, amended. For every envelope returned by a successful `NewEvent` while the clock
reads a date of the calendar in the years 0 to 9999, and whose payload is still valid
JSON when read one level down, as a member of the envelope (its arrays and objects nest
at most 9999 deep, one less than `json.Valid` allows), the JSON serialization succeeds
and deserializing it succeeds and yields an envelope with the same header, correlation
ID and trace ID, with each nullable UUID of the same validity and, when valid, the same
value (an absent one comes back as the zero value), and with the payload in compacted
form: insignificant whitespace dropped and `<`, `>`, `&`, U+2028, U+2029 escaped. The
result is the envelope itself when the payload is already in that form and every absent
nullable UUID holds the nil value. -/
theorem C9_roundtrip_up_to_compaction (env : Env) (input : EventInput) (e : Event)
    (h : NewEvent env input = .ok e) (hclock : (nowUTC env.clock).wellFormed = true)
    (hyear : env.clock.year ≤ 9999)
    (hdepth : ∀ p, e.Payload = some p → (scanDocumentAt 1 p).isSome = true) :
    ∃ data p out, jsonMarshalEvent e = .ok data ∧ e.Payload = some p ∧
      scanDocument p = some out ∧
      jsonUnmarshalEvent data = .ok
        { Header := e.Header
          Context := ⟨e.Context.CorrelationID,
            if e.Context.UserID.Valid then e.Context.UserID else NewNullUUID⟩
          Metadata := ⟨e.Metadata.TraceID,
            if e.Metadata.PreviousEventID.Valid then e.Metadata.PreviousEventID
            else NewNullUUID,
            if e.Metadata.CausationID.Valid then e.Metadata.CausationID else NewNullUUID⟩
          Payload := some out } ∧
      (out = p → (e.Context.UserID.Valid = false → e.Context.UserID = NewNullUUID) →
        (e.Metadata.PreviousEventID.Valid = false → e.Metadata.PreviousEventID = NewNullUUID) →
        (e.Metadata.CausationID.Valid = false → e.Metadata.CausationID = NewNullUUID) →
        jsonUnmarshalEvent data = .ok e) := by
  obtain ⟨id, p, _, _, hvalid, _, _, _, _, _, he⟩ := NewEvent_ok_inv env input e h
  have hts : e.Header.Timestamp = nowUTC env.clock := by rw [he]
  have hpay : e.Payload = some p := by rw [he]
  obtain ⟨out, hout⟩ := Option.isSome_iff_exists.mp (hdepth p hpay)
  obtain ⟨data, hm, hu⟩ := event_roundtrip e p out (by rw [hts]; exact hclock)
    (by rw [hts]; exact hyear) (by rw [hts]; rfl) hpay hout
  refine ⟨data, p, out, hm, hpay, scanDocument_of_scanDocumentAt 1 p out hout, hu, ?_⟩
  intro hcompact hu1 hu2 hu3
  rw [hu]
  have fix : ∀ n : NullableUUID, (n.Valid = false → n = NewNullUUID) →
      (if n.Valid then n else NewNullUUID) = n := by
    intro n hn
    by_cases hv : n.Valid = true
    · simp [hv]
    · simp only [hv, Bool.false_eq_true, if_false]
      exact (hn (by simpa using hv)).symm
  rw [fix _ hu1, fix _ hu2, fix _ hu3, hcompact, ← hpay]

/-- C9, amended, at the envelope built from the payload with whitespace and `<`. -/
theorem C9_roundtrip_up_to_compaction_witness :
    ∃ data p out, jsonMarshalEvent Event.spacedPayload = .ok data ∧
      Event.spacedPayload.Payload = some p ∧ scanDocument p = some out ∧
      jsonUnmarshalEvent data = .ok
        { Header := Event.spacedPayload.Header
          Context := ⟨Event.spacedPayload.Context.CorrelationID,
            if Event.spacedPayload.Context.UserID.Valid then Event.spacedPayload.Context.UserID
            else NewNullUUID⟩
          Metadata := ⟨Event.spacedPayload.Metadata.TraceID,
            if Event.spacedPayload.Metadata.PreviousEventID.Valid
            then Event.spacedPayload.Metadata.PreviousEventID else NewNullUUID,
            if Event.spacedPayload.Metadata.CausationID.Valid
            then Event.spacedPayload.Metadata.CausationID else NewNullUUID⟩
          Payload := some out } ∧
      (out = p →
        (Event.spacedPayload.Context.UserID.Valid = false →
          Event.spacedPayload.Context.UserID = NewNullUUID) →
        (Event.spacedPayload.Metadata.PreviousEventID.Valid = false →
          Event.spacedPayload.Metadata.PreviousEventID = NewNullUUID) →
        (Event.spacedPayload.Metadata.CausationID.Valid = false →
          Event.spacedPayload.Metadata.CausationID = NewNullUUID) →
        jsonUnmarshalEvent data = .ok Event.spacedPayload) :=
  C9_roundtrip_up_to_compaction Env.sample EventInput.spacedPayload Event.spacedPayload
    (by decide!) (by decide) (by decide) (by
      intro p hp
      cases hp
      decide)

/-! ## Bodies that decode without encoding a valid envelope -/

/-- C11, as stated, fails: the bodies `{}` and `null` are well-formed JSON and leave
event type, source, schema version, correlation ID, trace ID and payload empty, yet
the consume callback hands the zero envelope to the handler, acknowledges when the
handler succeeds, and never terminates the message. -/
theorem C11_empty_envelope_counterexample :
    jsonValid "\x7b\x7d".data = true ∧ jsonValid "null".data = true ∧
    jsonUnmarshalEvent "\x7b\x7d".data = .ok Event.zero ∧
    jsonUnmarshalEvent "null".data = .ok Event.zero ∧
    Event.zero.Header.EventType = "" ∧ Event.zero.Header.Source = "" ∧
    Event.zero.Header.SchemaVersion = "" ∧ Event.zero.Context.CorrelationID = UUID.Nil ∧
    Event.zero.Metadata.TraceID = UUID.Nil ∧ Event.zero.Payload = none ∧
    consumeCallback EventHandler.succeeding ⟨"\x7b\x7d".data, none, none⟩
      = [.handler Event.zero, .ack, .log .debug logEventProcessed] ∧
    consumeCallback EventHandler.succeeding ⟨"null".data, none, none⟩
      = [.handler Event.zero, .ack, .log .debug logEventProcessed] ∧
    consumeCallback EventHandler.failing ⟨"\x7b\x7d".data, none, none⟩
      = [.handler Event.zero, .log .error logEventHandlerFailed] := by
  decide!

/-- C11, amended. The consume callback terminates a message, without invoking the
handler, exactly when `json.Unmarshal` of the body into an `Event` fails; every body
that decodes is handed to the handler, whatever construction invariants the decoded
envelope violates, and is not terminated. The handler has no access to the message:
its own calls hold no `Term`. -/
theorem C11_terminated_iff_undecodable (handler : EventHandler) (natsMsg : NatsMsg)
    (hterm : ∀ e, Call.term ∉ (handler e).1) :
    (Call.term ∈ consumeCallback handler natsMsg ↔
      ∃ err, jsonUnmarshalEvent natsMsg.Data = .error err) ∧
    ((∃ e, Call.handler e ∈ consumeCallback handler natsMsg) ↔
      ∃ e, jsonUnmarshalEvent natsMsg.Data = .ok e) ∧
    (∀ e, jsonUnmarshalEvent natsMsg.Data = .ok e →
      Call.handler e ∈ consumeCallback handler natsMsg ∧
      Call.term ∉ consumeCallback handler natsMsg) := by
  cases hdec : jsonUnmarshalEvent natsMsg.Data with
  | error err =>
    refine ⟨⟨fun _ => ⟨err, rfl⟩, fun _ => ?_⟩, ⟨?_, ?_⟩, ?_⟩
    · unfold consumeCallback
      rw [hdec]
      simp
    · rintro ⟨e, he⟩
      unfold consumeCallback at he
      rw [hdec] at he
      rcases htr : natsMsg.termResult with _ | t <;> simp [htr] at he
    · rintro ⟨e, he⟩
      cases he
    · intro e he
      cases he
  | ok evt =>
    have ht := hterm evt
    have hboth : Call.handler evt ∈ consumeCallback handler natsMsg ∧
        Call.term ∉ consumeCallback handler natsMsg := by
      unfold consumeCallback
      rw [hdec]
      rcases hh : handler evt with ⟨calls, res⟩
      rw [hh] at ht
      cases res with
      | none => rcases hack : natsMsg.ackResult with _ | t <;> simpa [hh, hack] using ht
      | some err => simpa [hh] using ht
    refine ⟨⟨fun h => absurd h hboth.2, ?_⟩, ⟨fun _ => ⟨evt, rfl⟩, fun _ => ⟨evt, hboth.1⟩⟩, ?_⟩
    · rintro ⟨err, he⟩
      cases he
    · intro e he
      cases he
      exact hboth

/-- C11, amended, at the body `{}` and a handler that succeeds without a call. -/
theorem C11_terminated_iff_undecodable_witness :
    (Call.term ∈ consumeCallback EventHandler.succeeding ⟨"\x7b\x7d".data, none, none⟩ ↔
      ∃ err, jsonUnmarshalEvent (NatsMsg.mk "\x7b\x7d".data none none).Data = .error err) ∧
    ((∃ e, Call.handler e ∈ consumeCallback EventHandler.succeeding ⟨"\x7b\x7d".data, none, none⟩) ↔
      ∃ e, jsonUnmarshalEvent (NatsMsg.mk "\x7b\x7d".data none none).Data = .ok e) ∧
    (∀ e, jsonUnmarshalEvent (NatsMsg.mk "\x7b\x7d".data none none).Data = .ok e →
      Call.handler e ∈ consumeCallback EventHandler.succeeding ⟨"\x7b\x7d".data, none, none⟩ ∧
      Call.term ∉ consumeCallback EventHandler.succeeding ⟨"\x7b\x7d".data, none, none⟩) :=
  C11_terminated_iff_undecodable EventHandler.succeeding ⟨"\x7b\x7d".data, none, none⟩
    (fun _ => by simp [EventHandler.succeeding])

/-! ## Subscription setup -/

/-- C12. For every subject for which `findStreamNameForSubject` fails, `Subscribe`
returns that error, and its only call is the log entry of the failure: it neither
creates or updates a durable consumer nor registers a consume callback, whatever the
broker would have answered. -/
theorem C12_unrouted_subscribe_aborts (js : JetStream) (eventType : EventType)
    (handler : EventHandler) (err : GoError)
    (h : findStreamNameForSubject eventType = .error err) :
    (Subscribe js eventType handler).2 = some err ∧
    (Subscribe js eventType handler).1 = [.log .error logNoStreamForSubject] ∧
    (∀ stream cfg, Call.createOrUpdateConsumer stream cfg ∉ (Subscribe js eventType handler).1) ∧
    Call.consume ∉ (Subscribe js eventType handler).1 := by
  unfold Subscribe
  rw [h]
  simp

/-- C12 at the subject `unknown.thing`, which no stream owns, with a broker that
would accept every call. -/
theorem C12_unrouted_subscribe_aborts_witness :
    findStreamNameForSubject "unknown.thing"
      = .error (.new "no stream configured for subject: unknown.thing") ∧
    (Subscribe JetStream.accepting "unknown.thing" EventHandler.succeeding).2
      = some (.new "no stream configured for subject: unknown.thing") ∧
    (Subscribe JetStream.accepting "unknown.thing" EventHandler.succeeding).1
      = [.log .error logNoStreamForSubject] ∧
    (∀ stream cfg, Call.createOrUpdateConsumer stream cfg ∉
      (Subscribe JetStream.accepting "unknown.thing" EventHandler.succeeding).1) ∧
    Call.consume ∉ (Subscribe JetStream.accepting "unknown.thing" EventHandler.succeeding).1 :=
  ⟨by decide,
    C12_unrouted_subscribe_aborts JetStream.accepting "unknown.thing" EventHandler.succeeding
      (.new "no stream configured for subject: unknown.thing") (by decide)⟩

/-! ## What `NewEvent` returns -/

/-- C13. For every input on which `NewEvent` succeeds, the returned envelope has a
non-nil `Header.EventID`, identifier generation never yielding the nil UUID, and a
`Header.Timestamp` whose location is UTC. -/
theorem C13_fresh_identifier_and_utc (env : Env) (input : EventInput) (e : Event)
    (hgen : env.generatesIdentifier = true) (h : NewEvent env input = .ok e) :
    e.Header.EventID.IsNil = false ∧ e.Header.EventID ≠ UUID.Nil ∧
    e.Header.Timestamp.Location = .utc := by
  obtain ⟨id, p, hid, _, _, _, _, _, _, _, he⟩ := NewEvent_ok_inv env input e h
  have hne : id ≠ UUID.Nil := by
    intro hnil
    rw [hnil] at hid
    simp [Env.generatesIdentifier, hid] at hgen
  rw [he]
  refine ⟨?_, hne, rfl⟩
  simpa [UUID.IsNil] using hne

/-- C13 at the sample input. -/
theorem C13_fresh_identifier_and_utc_witness :
    Event.spacedPayload.Header.EventID.IsNil = false ∧
    Event.spacedPayload.Header.EventID ≠ UUID.Nil ∧
    Event.spacedPayload.Header.Timestamp.Location = .utc :=
  C13_fresh_identifier_and_utc Env.sample EventInput.spacedPayload Event.spacedPayload
    (by decide) (by decide!)

/-- C14. For every input on which `NewEvent` succeeds, the returned envelope carries
the input unchanged: event type, schema version and source in the header; correlation
ID and user ID (value and validity flag) in the context; trace ID, previous-event ID
and causation ID in the metadata; and the payload, byte for byte. -/
theorem C14_input_carried_unchanged (env : Env) (input : EventInput) (e : Event)
    (h : NewEvent env input = .ok e) :
    e.Header.EventType = input.EventType ∧ e.Header.SchemaVersion = input.EventVersion ∧
    e.Header.Source = input.Source ∧
    e.Context.CorrelationID = input.CorrelationID ∧ e.Context.UserID = input.UserID ∧
    e.Metadata.TraceID = input.TraceID ∧
    e.Metadata.PreviousEventID = input.PreviousEventID ∧
    e.Metadata.CausationID = input.CausationID ∧
    e.Payload = input.Payload := by
  obtain ⟨id, p, _, hp, _, _, _, _, _, _, he⟩ := NewEvent_ok_inv env input e h
  rw [he, hp]
  exact ⟨rfl, rfl, rfl, rfl, rfl, rfl, rfl, rfl, rfl⟩

/-- C14 at the sample input with a payload holding whitespace. -/
theorem C14_input_carried_unchanged_witness :
    Event.spacedPayload.Header.EventType = EventInput.spacedPayload.EventType ∧
    Event.spacedPayload.Header.SchemaVersion = EventInput.spacedPayload.EventVersion ∧
    Event.spacedPayload.Header.Source = EventInput.spacedPayload.Source ∧
    Event.spacedPayload.Context.CorrelationID = EventInput.spacedPayload.CorrelationID ∧
    Event.spacedPayload.Context.UserID = EventInput.spacedPayload.UserID ∧
    Event.spacedPayload.Metadata.TraceID = EventInput.spacedPayload.TraceID ∧
    Event.spacedPayload.Metadata.PreviousEventID = EventInput.spacedPayload.PreviousEventID ∧
    Event.spacedPayload.Metadata.CausationID = EventInput.spacedPayload.CausationID ∧
    Event.spacedPayload.Payload = EventInput.spacedPayload.Payload :=
  C14_input_carried_unchanged Env.sample EventInput.spacedPayload Event.spacedPayload
    (by decide!)

/-! ## Ownership of subjects by streams -/

theorem findStreamIn_some_mem (subject : String) (configs : List StreamConfig) (name : String)
    (h : findStreamIn subject configs = some name) :
    ∃ sc ∈ configs, sc.Name = name ∧ matchesAnySubject subject sc.Subjects = true := by
  obtain ⟨pre, sc, post, heq, hname, hm, _⟩ :=
    (findStreamIn_eq_some_iff subject configs name).mp h
  exact ⟨sc, by simp [heq], hname, hm⟩

/-- When at most one definition of a list matches a subject, the outcome of the outer
loop is the same over every reordering of the list. -/
theorem findStreamIn_perm (subject : String) (l₁ l₂ : List StreamConfig) (hp : l₁.Perm l₂)
    (huniq : ∀ a ∈ l₂, ∀ b ∈ l₂, matchesAnySubject subject a.Subjects = true →
      matchesAnySubject subject b.Subjects = true → a = b) :
    findStreamIn subject l₁ = findStreamIn subject l₂ := by
  cases h₂ : findStreamIn subject l₂ with
  | none =>
    rw [findStreamIn_eq_none_iff] at h₂ ⊢
    exact fun sc hsc => h₂ sc (hp.mem_iff.mp hsc)
  | some name =>
    obtain ⟨sc, hsc, hname, hm⟩ := findStreamIn_some_mem subject l₂ name h₂
    cases h₁ : findStreamIn subject l₁ with
    | none =>
      rw [findStreamIn_eq_none_iff] at h₁
      have := h₁ sc (hp.mem_iff.mpr hsc)
      rw [hm] at this
      exact absurd this (by simp)
    | some name' =>
      obtain ⟨sc', hsc', hname', hm'⟩ := findStreamIn_some_mem subject l₁ name' h₁
      have := huniq sc' (hp.mem_iff.mp hsc') sc hsc hm' hm
      rw [← hname, ← hname', this]

/-- C15. Among the stream definitions of `GetStreamConfigs`, no pattern of one
definition, stripped of `.*`, is a prefix of a stripped pattern of another; so for
every subject at most one definition matches, and the outcome of the router's loop is
the same for every order in which the definitions could be declared. -/
theorem C15_stream_prefixes_disjoint :
    (∀ a ∈ GetStreamConfigs, ∀ b ∈ GetStreamConfigs, a ≠ b →
      ∀ p ∈ a.Subjects, ∀ q ∈ b.Subjects,
        hasPrefix (trimSuffix q.data ".*".data) (trimSuffix p.data ".*".data) = false) ∧
    (∀ subject : String, ∀ a ∈ GetStreamConfigs, ∀ b ∈ GetStreamConfigs,
      matchesAnySubject subject a.Subjects = true →
      matchesAnySubject subject b.Subjects = true → a = b) ∧
    (∀ (subject : String) (configs : List StreamConfig), configs.Perm GetStreamConfigs →
      findStreamIn subject configs = findStreamIn subject GetStreamConfigs ∧
      (match findStreamIn subject configs with
        | some name => Except.ok name
        | none => .error (.new ("no stream configured for subject: " ++ subject)))
        = findStreamNameForSubject subject) := by
  have hdisj : ∀ a ∈ GetStreamConfigs, ∀ b ∈ GetStreamConfigs, a ≠ b →
      ∀ p ∈ a.Subjects, ∀ q ∈ b.Subjects,
        hasPrefix (trimSuffix q.data ".*".data) (trimSuffix p.data ".*".data) = false := by
    decide
  have huniq : ∀ subject : String, ∀ a ∈ GetStreamConfigs, ∀ b ∈ GetStreamConfigs,
      matchesAnySubject subject a.Subjects = true →
      matchesAnySubject subject b.Subjects = true → a = b := by
    intro subject a ha b hb hma hmb
    by_contra hab
    obtain ⟨p, hp, hpp⟩ := (matchesAnySubject_iff subject a.Subjects).mp hma
    obtain ⟨q, hq, hqq⟩ := (matchesAnySubject_iff subject b.Subjects).mp hmb
    have h1 := hdisj a ha b hb hab p hp q hq
    have h2 := hdisj b hb a ha (Ne.symm hab) q hq p hp
    simp only [hasPrefix, List.isPrefixOf_iff_prefix] at hpp hqq
    rcases Nat.le_total (trimSuffix p.data ".*".data).length
        (trimSuffix q.data ".*".data).length with hle | hle
    · have := List.prefix_of_prefix_length_le hpp hqq hle
      rw [← List.isPrefixOf_iff_prefix] at this
      simp only [hasPrefix] at h1
      rw [this] at h1
      exact absurd h1 (by simp)
    · have := List.prefix_of_prefix_length_le hqq hpp hle
      rw [← List.isPrefixOf_iff_prefix] at this
      simp only [hasPrefix] at h2
      rw [this] at h2
      exact absurd h2 (by simp)
  refine ⟨hdisj, huniq, ?_⟩
  intro subject configs hperm
  have := findStreamIn_perm subject configs GetStreamConfigs hperm (huniq subject)
  refine ⟨this, ?_⟩
  rw [this]
  rfl

/-! ## The audit subscriber -/

/-- The three ways `Handle` runs, by the outcome of payload decoding, of record
construction and of the repository. -/
theorem Handle_cases (env : Env) (repo : AuditLog → Option GoError) (e : Event) :
    (∃ err, jsonUnmarshalUserCreatedPayload e.Payload = .error err ∧
      Handle env repo e
        = ([.log .error "failed to unmarshal user.created event payload for auditing"],
            some err)) ∨
    (∃ p err, jsonUnmarshalUserCreatedPayload e.Payload = .ok p ∧
      NewAuditLog env (Handle.input e) = .error err ∧
      Handle env repo e
        = ([.log .error "failed to create audit log entity from event"], some err)) ∨
    (∃ p record level message, jsonUnmarshalUserCreatedPayload e.Payload = .ok p ∧
      NewAuditLog env (Handle.input e) = .ok record ∧
      Handle env repo e = ([.registerAuditLog record, .log level message], repo record)) := by
  unfold Handle
  cases hp : jsonUnmarshalUserCreatedPayload e.Payload with
  | error err => exact Or.inl ⟨err, rfl, rfl⟩
  | ok p =>
    right
    cases hl : NewAuditLog env (Handle.input e) with
    | error err =>
      left
      refine ⟨p, err, rfl, rfl, ?_⟩
      simp only [Handle.input] at hl
      simp only [hl]
    | ok record =>
      right
      simp only [Handle.input] at hl
      simp only [hl]
      cases hrepo : repo record with
      | none =>
        exact ⟨p, record, .info, "user.created event audited successfully", rfl, rfl,
          by simp [hrepo]⟩
      | some err =>
        exact ⟨p, record, .error, "failed to save audit log to repository", rfl, rfl,
          by simp [hrepo]⟩

/-- C16. For every envelope, `Handle` returns nil if and only if the payload decodes
into the `UserCreatedPayload` shape, `NewAuditLog` succeeds on the envelope's header,
context and metadata, and the repository returns nil; when the repository returns an
error, `Handle` returns that same error; and when payload decoding or record
construction fails, `Handle` returns the failure and the repository is never
invoked. -/
theorem C16_handle_outcome (env : Env) (repo : AuditLog → Option GoError) (e : Event) :
    ((Handle env repo e).2 = none ↔
      ∃ p record, jsonUnmarshalUserCreatedPayload e.Payload = .ok p ∧
        NewAuditLog env (Handle.input e) = .ok record ∧ repo record = none) ∧
    (∀ p record err, jsonUnmarshalUserCreatedPayload e.Payload = .ok p →
      NewAuditLog env (Handle.input e) = .ok record → repo record = some err →
      (Handle env repo e).2 = some err ∧
      (Handle env repo e).1.countP Call.isRegisterAuditLog = 1) ∧
    (∀ err, jsonUnmarshalUserCreatedPayload e.Payload = .error err →
      (Handle env repo e).2 = some err ∧
      ∀ c ∈ (Handle env repo e).1, c.isRegisterAuditLog = false) ∧
    (∀ p err, jsonUnmarshalUserCreatedPayload e.Payload = .ok p →
      NewAuditLog env (Handle.input e) = .error err →
      (Handle env repo e).2 = some err ∧
      ∀ c ∈ (Handle env repo e).1, c.isRegisterAuditLog = false) := by
  rcases Handle_cases env repo e with ⟨err, hp, hH⟩ | ⟨p, err, hp, hl, hH⟩ |
    ⟨p, record, level, message, hp, hl, hH⟩
  · rw [hH]
    refine ⟨⟨fun h => by simp at h, ?_⟩, ?_, ?_, ?_⟩
    · rintro ⟨p, _, hp', _⟩
      rw [hp] at hp'
      cases hp'
    · intro p _ _ hp'
      rw [hp] at hp'
      cases hp'
    · intro err' hp'
      rw [hp] at hp'
      cases hp'
      exact ⟨rfl, by simp [Call.isRegisterAuditLog]⟩
    · intro p _ hp'
      rw [hp] at hp'
      cases hp'
  · rw [hH]
    refine ⟨⟨fun h => by simp at h, ?_⟩, ?_, ?_, ?_⟩
    · rintro ⟨_, _, _, hl', _⟩
      rw [hl] at hl'
      cases hl'
    · intro _ _ _ _ hl'
      rw [hl] at hl'
      cases hl'
    · intro _ hp'
      rw [hp] at hp'
      cases hp'
    · intro _ err' _ hl'
      rw [hl] at hl'
      cases hl'
      exact ⟨rfl, by simp [Call.isRegisterAuditLog]⟩
  · rw [hH]
    refine ⟨⟨fun h => ⟨p, record, hp, hl, h⟩, ?_⟩, ?_, ?_, ?_⟩
    · rintro ⟨_, record', _, hl', hr⟩
      rw [hl] at hl'
      cases hl'
      exact hr
    · intro _ record' err _ hl' hr
      rw [hl] at hl'
      cases hl'
      exact ⟨hr, by simp [List.countP_cons, Call.isRegisterAuditLog]⟩
    · intro _ hp'
      rw [hp] at hp'
      cases hp'
    · intro _ _ _ hl'
      rw [hl] at hl'
      cases hl'

/-- The record `NewAuditLog` returns, field by field. -/
theorem NewAuditLog_ok_fields (env : Env) (input : NewAuditLogInput) (record : AuditLog)
    (h : NewAuditLog env input = .ok record) :
    env.newUUID = .ok record.ID ∧ record.EventID = input.EventID ∧
    record.EventType = input.EventType ∧ record.EventVersion = input.EventVersion ∧
    record.EventContext = some (marshalEventContext input.EventContext) ∧
    record.TraceID = input.TraceID ∧ record.UserAuthorID = input.UserAuthorID ∧
    record.Payload = input.Payload ∧ record.CreatedAt = nowUTC env.clock := by
  obtain ⟨h1, h2, h3, id, hg⟩ := NewAuditLog_ok_valid env input record h
  unfold NewAuditLog at h
  simp only [h1, h2, h3, hg, Bool.false_eq_true, if_false, Except.ok.injEq] at h
  rw [← h]
  exact ⟨hg, rfl, rfl, rfl, rfl, rfl, rfl, rfl, rfl⟩

/-- C17. For every envelope on which `Handle` reaches the repository, the record it
passes has a non-nil own ID (identifier generation never yielding the nil UUID), the
envelope's event type (`user.created` for a `user.created` envelope), event ID, schema
version, trace ID and user ID, and a stored payload that is the envelope's payload and
parses into the same `userId`, `name`, `email` and `phone`. -/
theorem C17_audit_record_fields (env : Env) (repo : AuditLog → Option GoError) (e : Event)
    (record : AuditLog) (hgen : env.generatesIdentifier = true)
    (h : Call.registerAuditLog record ∈ (Handle env repo e).1) :
    record.ID ≠ UUID.Nil ∧ record.EventType = e.Header.EventType ∧
    (e.Header.EventType = "user.created" → record.EventType = "user.created") ∧
    record.EventID = e.Header.EventID ∧ record.EventVersion = e.Header.SchemaVersion ∧
    record.TraceID = e.Metadata.TraceID ∧ record.UserAuthorID = e.Context.UserID ∧
    record.Payload = e.Payload ∧
    ∃ p, jsonUnmarshalUserCreatedPayload e.Payload = .ok p ∧
      jsonUnmarshalUserCreatedPayload record.Payload = .ok p := by
  rcases Handle_cases env repo e with ⟨err, hp, hH⟩ | ⟨p, err, hp, hl, hH⟩ |
    ⟨p, record', level, message, hp, hl, hH⟩
  · rw [hH] at h
    simp at h
  · rw [hH] at h
    simp at h
  · rw [hH] at h
    simp only [List.mem_cons, Call.registerAuditLog.injEq, List.mem_singleton,
      List.not_mem_nil, or_false, reduceCtorEq] at h
    subst h
    obtain ⟨hid, f1, f2, f3, _, f5, f6, f7, _⟩ := NewAuditLog_ok_fields env _ record hl
    have hne : record.ID ≠ UUID.Nil := by
      intro hnil
      rw [hnil] at hid
      simp [Env.generatesIdentifier, hid] at hgen
    refine ⟨hne, f2, fun ht => ?_, f1, f3, f5, f6, f7, p, hp, ?_⟩
    · rw [f2]
      exact ht
    · rw [f7]
      exact hp

/-- C17 at the sample `user.created` envelope: the record's event type is
`user.created` and its stored payload parses into the four fields of the envelope's
payload. -/
theorem C17_audit_record_fields_witness :
    (Handle Env.sample repoSucceeding Event.userCreated).1.head?
      = some (.registerAuditLog
          { ID := ⟨0x9f1c2b3a, 0x4d5e, 0x4f60, 0x8a7b, 0x0c1d2e3f4a5b⟩
            EventID := Event.userCreated.Header.EventID
            EventType := "user.created"
            EventVersion := "v1.0.0"
            EventContext := some (marshalEventContext Event.userCreated.Context)
            TraceID := Event.userCreated.Metadata.TraceID
            UserAuthorID := NewNullUUID
            Payload := Event.userCreated.Payload
            CreatedAt := nowUTC Env.sample.clock }) ∧
    jsonUnmarshalUserCreatedPayload Event.userCreated.Payload
      = .ok ⟨⟨0xb, 0xc, 0xd, 0xe, 0xf⟩, "Ada", "ada@example.com", "+15550100"⟩ ∧
    ((⟨0x9f1c2b3a, 0x4d5e, 0x4f60, 0x8a7b, 0x0c1d2e3f4a5b⟩ : UUID) ≠ UUID.Nil ∧
      ("user.created" : EventType) = Event.userCreated.Header.EventType ∧
      (Event.userCreated.Header.EventType = "user.created" →
        ("user.created" : EventType) = "user.created") ∧
      Event.userCreated.Header.EventID = Event.userCreated.Header.EventID ∧
      ("v1.0.0" : EventVersion) = Event.userCreated.Header.SchemaVersion ∧
      Event.userCreated.Metadata.TraceID = Event.userCreated.Metadata.TraceID ∧
      NewNullUUID = Event.userCreated.Context.UserID ∧
      Event.userCreated.Payload = Event.userCreated.Payload ∧
      ∃ p, jsonUnmarshalUserCreatedPayload Event.userCreated.Payload = .ok p ∧
        jsonUnmarshalUserCreatedPayload Event.userCreated.Payload = .ok p) :=
  ⟨by decide!, by decide!,
    C17_audit_record_fields Env.sample repoSucceeding Event.userCreated
      { ID := ⟨0x9f1c2b3a, 0x4d5e, 0x4f60, 0x8a7b, 0x0c1d2e3f4a5b⟩
        EventID := Event.userCreated.Header.EventID
        EventType := "user.created"
        EventVersion := "v1.0.0"
        EventContext := some (marshalEventContext Event.userCreated.Context)
        TraceID := Event.userCreated.Metadata.TraceID
        UserAuthorID := NewNullUUID
        Payload := Event.userCreated.Payload
        CreatedAt := nowUTC Env.sample.clock }
      (by decide) (by decide!)⟩

/-- C18. For every input, identifier generation succeeding and the serialization of
the event context being total, `NewAuditLog` returns an error if and only if the event
ID is the nil UUID, or the event type is empty, or the trace ID is the nil UUID; it
returns a record exactly when none of the three holds, and never both. -/
theorem C18_audit_validation (env : Env) (input : NewAuditLogInput) (id : UUID)
    (hg : env.newUUID = .ok id) :
    ((∃ err, NewAuditLog env input = .error err) ↔
      input.EventID = UUID.Nil ∨ input.EventType = "" ∨ input.TraceID = UUID.Nil) ∧
    ((∃ record, NewAuditLog env input = .ok record) ↔
      ¬ (input.EventID = UUID.Nil ∨ input.EventType = "" ∨ input.TraceID = UUID.Nil)) ∧
    (∀ err, NewAuditLog env input = .error err → ∀ record, NewAuditLog env input ≠ .ok record) := by
  have herr : (∃ err, NewAuditLog env input = .error err) ↔
      input.EventID = UUID.Nil ∨ input.EventType = "" ∨ input.TraceID = UUID.Nil := by
    unfold NewAuditLog
    by_cases h1 : input.EventID = UUID.Nil
    · simp [h1, UUID.IsNil]
    by_cases h2 : input.EventType = ""
    · simp [h1, h2, UUID.IsNil]
    by_cases h3 : input.TraceID = UUID.Nil
    · simp [h1, h2, h3, UUID.IsNil]
    simp [h1, h2, h3, UUID.IsNil, hg]
  refine ⟨herr, ?_, ?_⟩
  · rw [← herr]
    cases NewAuditLog env input <;> simp
  · intro err he record hr
    rw [he] at hr
    cases hr

/-- C18 at an input with an empty event type, identifier generation succeeding. -/
theorem C18_audit_validation_witness :
    ((∃ err, NewAuditLog Env.sample ⟨⟨1, 2, 3, 4, 5⟩, "", "v1", ⟨⟨1, 2, 3, 4, 5⟩, NewNullUUID⟩,
        ⟨6, 7, 8, 9, 10⟩, NewNullUUID, none⟩ = .error err) ↔
      (⟨1, 2, 3, 4, 5⟩ : UUID) = UUID.Nil ∨ ("" : EventType) = "" ∨
        (⟨6, 7, 8, 9, 10⟩ : UUID) = UUID.Nil) ∧
    ((∃ record, NewAuditLog Env.sample ⟨⟨1, 2, 3, 4, 5⟩, "", "v1",
        ⟨⟨1, 2, 3, 4, 5⟩, NewNullUUID⟩, ⟨6, 7, 8, 9, 10⟩, NewNullUUID, none⟩ = .ok record) ↔
      ¬ ((⟨1, 2, 3, 4, 5⟩ : UUID) = UUID.Nil ∨ ("" : EventType) = "" ∨
        (⟨6, 7, 8, 9, 10⟩ : UUID) = UUID.Nil)) ∧
    (∀ err, NewAuditLog Env.sample ⟨⟨1, 2, 3, 4, 5⟩, "", "v1", ⟨⟨1, 2, 3, 4, 5⟩, NewNullUUID⟩,
        ⟨6, 7, 8, 9, 10⟩, NewNullUUID, none⟩ = .error err →
      ∀ record, NewAuditLog Env.sample ⟨⟨1, 2, 3, 4, 5⟩, "", "v1",
        ⟨⟨1, 2, 3, 4, 5⟩, NewNullUUID⟩, ⟨6, 7, 8, 9, 10⟩, NewNullUUID, none⟩ ≠ .ok record) :=
  C18_audit_validation Env.sample _ ⟨0x9f1c2b3a, 0x4d5e, 0x4f60, 0x8a7b, 0x0c1d2e3f4a5b⟩ rfl

/-! ## The create-user command -/

/-- C19, as stated, fails: when the use case succeeds with an output that holds no
user, as the use case double of the tests does by default, `Execute` dereferences the
nil user: it does not return and never calls the publisher. -/
theorem C19_empty_output_counterexample :
    useCaseEmptyOutput CreateUserCommandInput.sample.NewUserInput = .ok ⟨none⟩ ∧
    (createUserCommand.Execute useCaseEmptyOutput publisherSucceeding
      CreateUserCommandInput.sample).2 = none ∧
    (createUserCommand.Execute useCaseEmptyOutput publisherSucceeding
      CreateUserCommandInput.sample).1.countP CommandCall.isPublishUserCreatedEvent = 0 := by
  decide

/-- C19, amended. For every command input, if the use case succeeds with an output `o`
that holds a user, `Execute` calls the publisher exactly once, with the identifiers of
the input and the user's ID, name, e-mail and phone as payload, and returns `(o, nil)`
whether or not `PublishUserCreatedEvent` returns an error. -/
theorem C19_publish_failure_ignored (useCase : NewUserInput → Except GoError CreateUserOutput)
    (publisher : USerCreatedEventInput → Option GoError) (input : CreateUserCommandInput)
    (o : CreateUserOutput) (u : User)
    (huc : useCase input.NewUserInput = .ok o) (hu : o.User = some u) :
    (createUserCommand.Execute useCase publisher input).2 = some (o, none) ∧
    (createUserCommand.Execute useCase publisher input).1.countP
      CommandCall.isPublishUserCreatedEvent = 1 ∧
    CommandCall.publishUserCreatedEvent
      { CorrelationID := input.CorrelationID
        UserID := input.UserAuthorID
        TraceID := input.TraceID
        PreviousEventID := input.PreviousEventID
        CausationID := input.CausationID
        Payload := ⟨u.ID, u.Name, u.Email.String, u.Phone.String⟩ }
      ∈ (createUserCommand.Execute useCase publisher input).1 := by
  unfold createUserCommand.Execute
  simp only [huc, hu]
  cases publisher _ <;>
    simp [List.countP_cons, CommandCall.isPublishUserCreatedEvent]

/-- C19, amended, at the sample input with a publisher that fails. -/
theorem C19_publish_failure_ignored_witness :
    (createUserCommand.Execute useCaseSucceeding publisherFailing
      CreateUserCommandInput.sample).2 = some (⟨some User.sample⟩, none) ∧
    (createUserCommand.Execute useCaseSucceeding publisherFailing
      CreateUserCommandInput.sample).1.countP CommandCall.isPublishUserCreatedEvent = 1 ∧
    CommandCall.publishUserCreatedEvent
      { CorrelationID := CreateUserCommandInput.sample.CorrelationID
        UserID := CreateUserCommandInput.sample.UserAuthorID
        TraceID := CreateUserCommandInput.sample.TraceID
        PreviousEventID := CreateUserCommandInput.sample.PreviousEventID
        CausationID := CreateUserCommandInput.sample.CausationID
        Payload := ⟨User.sample.ID, User.sample.Name, User.sample.Email.String,
          User.sample.Phone.String⟩ }
      ∈ (createUserCommand.Execute useCaseSucceeding publisherFailing
          CreateUserCommandInput.sample).1 :=
  C19_publish_failure_ignored useCaseSucceeding publisherFailing CreateUserCommandInput.sample
    ⟨some User.sample⟩ User.sample rfl rfl

/-- C20. For every command input, if the use case returns an error, `Execute` returns
the empty output together with exactly that error and never calls the publisher. -/
theorem C20_use_case_error_returned (useCase : NewUserInput → Except GoError CreateUserOutput)
    (publisher : USerCreatedEventInput → Option GoError) (input : CreateUserCommandInput)
    (err : GoError) (huc : useCase input.NewUserInput = .error err) :
    (createUserCommand.Execute useCase publisher input).2 = some (⟨none⟩, some err) ∧
    (∀ c ∈ (createUserCommand.Execute useCase publisher input).1,
      c.isPublishUserCreatedEvent = false) ∧
    ∀ eventInput, CommandCall.publishUserCreatedEvent eventInput ∉
      (createUserCommand.Execute useCase publisher input).1 := by
  unfold createUserCommand.Execute
  simp [huc, CommandCall.isPublishUserCreatedEvent]

/-- C20 at the sample input with a use case that fails. -/
theorem C20_use_case_error_returned_witness :
    (createUserCommand.Execute useCaseFailing publisherSucceeding
      CreateUserCommandInput.sample).2 = some (⟨none⟩, some (.new "use case failed")) ∧
    (∀ c ∈ (createUserCommand.Execute useCaseFailing publisherSucceeding
        CreateUserCommandInput.sample).1, c.isPublishUserCreatedEvent = false) ∧
    ∀ eventInput, CommandCall.publishUserCreatedEvent eventInput ∉
      (createUserCommand.Execute useCaseFailing publisherSucceeding
        CreateUserCommandInput.sample).1 :=
  C20_use_case_error_returned useCaseFailing publisherSucceeding CreateUserCommandInput.sample
    (.new "use case failed") rfl

/-! ## The durable consumer -/

theorem replaceDots_no_dot (s : Text) : '.' ∉ replaceDots s := by
  unfold replaceDots
  intro h
  obtain ⟨c, _, hc⟩ := List.mem_map.mp h
  by_cases hd : c = '.'
  · simp [hd] at hc
  · simp [hd] at hc

/-- The consumer request of `Subscribe`: the only `CreateOrUpdateConsumer` call it makes
is on the stream that owns the subject, with the configuration derived from the
subject; and it makes that call whenever a stream owns the subject. -/
theorem Subscribe_consumer_request (js : JetStream) (subject : EventType)
    (handler : EventHandler) :
    (∀ stream cfg, Call.createOrUpdateConsumer stream cfg ∈ (Subscribe js subject handler).1 →
      findStreamNameForSubject subject = .ok stream ∧ cfg = consumerConfigFor subject) ∧
    (∀ stream, findStreamNameForSubject subject = .ok stream →
      Call.createOrUpdateConsumer stream (consumerConfigFor subject)
        ∈ (Subscribe js subject handler).1) := by
  unfold Subscribe
  cases hf : findStreamNameForSubject subject with
  | error err => simp
  | ok name =>
    cases hc : js.createOrUpdateConsumer name (consumerConfigFor subject) with
    | none =>
      simp only [hc]
      refine ⟨fun stream cfg h => ?_, fun stream h => ?_⟩
      · simp at h
        exact ⟨by rw [h.1], h.2⟩
      · cases h
        simp
    | some err =>
      simp only [hc]
      refine ⟨fun stream cfg h => ?_, fun stream h => ?_⟩
      · simp at h
        exact ⟨by rw [h.1], h.2⟩
      · cases h
        simp

/-- C21. For every subject, the durable consumer name `Subscribe` passes to the broker
is the subject with every `.` replaced by `-`, followed by `-processor`
(`user.created` gives `user-created-processor`); the name holds no `.`; and it depends
on the subject alone: two `Subscribe` calls with the same subject, whatever the broker
and the handler, request the same stream and the same consumer configuration. -/
theorem C21_durable_name_of_subject (js js' : JetStream) (subject : EventType)
    (handler handler' : EventHandler) :
    (∀ stream cfg, Call.createOrUpdateConsumer stream cfg ∈ (Subscribe js subject handler).1 →
      cfg.Durable = String.mk (replaceDots subject.data) ++ "-processor" ∧
      cfg.Durable.data = replaceDots subject.data ++ "-processor".data ∧
      '.' ∉ cfg.Durable.data) ∧
    (replaceDots subject.data).length = subject.data.length ∧
    (∀ i : Nat, (replaceDots subject.data)[i]?
      = (subject.data[i]?).map (fun c => if c = '.' then '-' else c)) ∧
    (consumerConfigFor "user.created").Durable = "user-created-processor" ∧
    (∀ stream cfg stream' cfg',
      Call.createOrUpdateConsumer stream cfg ∈ (Subscribe js subject handler).1 →
      Call.createOrUpdateConsumer stream' cfg' ∈ (Subscribe js' subject handler').1 →
      stream = stream' ∧ cfg = cfg' ∧ cfg.Durable = cfg'.Durable) := by
  refine ⟨?_, ?_, ?_, by decide, ?_⟩
  · intro stream cfg h
    obtain ⟨_, hcfg⟩ := (Subscribe_consumer_request js subject handler).1 stream cfg h
    rw [hcfg]
    refine ⟨rfl, rfl, ?_⟩
    show '.' ∉ replaceDots subject.data ++ "-processor".data
    rw [List.mem_append]
    rintro (h1 | h2)
    · exact replaceDots_no_dot _ h1
    · revert h2
      decide
  · simp [replaceDots]
  · intro i
    simp [replaceDots]
  · intro stream cfg stream' cfg' h h'
    obtain ⟨hs, hcfg⟩ := (Subscribe_consumer_request js subject handler).1 stream cfg h
    obtain ⟨hs', hcfg'⟩ := (Subscribe_consumer_request js' subject handler').1 stream' cfg' h'
    rw [hs] at hs'
    cases hs'
    rw [hcfg, hcfg']
    exact ⟨rfl, rfl, rfl⟩

/-- C22. For every subject, the consumer configuration `Subscribe` requests uses the
explicit acknowledgment policy, at most 5 deliveries, a 30-second acknowledgment wait
and the backoff schedule 1s, 2s, 4s, 8s, 16s, which is strictly increasing and no
longer than the maximum delivery count; the request is made for every subject that a
stream owns. -/
theorem C22_delivery_policy (js : JetStream) (subject : EventType) (handler : EventHandler) :
    (∀ stream cfg, Call.createOrUpdateConsumer stream cfg ∈ (Subscribe js subject handler).1 →
      cfg.AckPolicy = .explicit ∧ cfg.MaxDeliver = 5 ∧ cfg.AckWait = 30 * Second ∧
      cfg.BackOff = [1 * Second, 2 * Second, 4 * Second, 8 * Second, 16 * Second] ∧
      cfg.BackOff.Pairwise (fun a b => a < b) ∧
      (cfg.BackOff.length : Int) ≤ cfg.MaxDeliver ∧
      cfg.FilterSubject = subject) ∧
    (∀ stream, findStreamNameForSubject subject = .ok stream →
      Call.createOrUpdateConsumer stream (consumerConfigFor subject)
        ∈ (Subscribe js subject handler).1) ∧
    (30 * Second : Duration) = 30000000000 := by
  refine ⟨?_, (Subscribe_consumer_request js subject handler).2, by decide⟩
  intro stream cfg h
  obtain ⟨_, hcfg⟩ := (Subscribe_consumer_request js subject handler).1 stream cfg h
  rw [hcfg]
  refine ⟨rfl, rfl, rfl, rfl, ?_, ?_, rfl⟩
  · simp only [consumerConfigFor]
    decide
  · simp only [consumerConfigFor]
    decide

/-- C27, evaluated: with a broker whose `consumer.Consume` returns an error,
`Subscribe` to `user.created` still returns nil, and it logs nothing about the
failure. -/
theorem C27_consume_error_dropped :
    JetStream.consumeFailing.consume = some (.new "nats: consumer closed") ∧
    Subscribe JetStream.consumeFailing "user.created" EventHandler.succeeding
      = ([.log .info logFoundStreamForSub,
          .createOrUpdateConsumer "identity-stream" (consumerConfigFor "user.created"),
          .consume], none) ∧
    Subscribe JetStream.consumeFailing "user.created" EventHandler.succeeding
      = Subscribe JetStream.accepting "user.created" EventHandler.succeeding := by
  decide

/-! ## Prefix routing against the broker's wildcards -/

/-- C28, as stated, fails: `user`, `username.created` and `user.a.b` do not match
`user.*` in the broker's wildcard sense, yet `findStreamNameForSubject` resolves each
of them to `identity-stream`, the stream declared for `user.*`. -/
theorem C28_prefix_routing_counterexample :
    wildcardMatches "user.created" "user.*" = true ∧
    wildcardMatches "user" "user.*" = false ∧
    wildcardMatches "username.created" "user.*" = false ∧
    wildcardMatches "user.a.b" "user.*" = false ∧
    (∀ sc ∈ GetStreamConfigs, ∀ p ∈ sc.Subjects,
      wildcardMatches "user" p = false ∧ wildcardMatches "username.created" p = false ∧
      wildcardMatches "user.a.b" p = false) ∧
    findStreamNameForSubject "user" = .ok "identity-stream" ∧
    findStreamNameForSubject "username.created" = .ok "identity-stream" ∧
    findStreamNameForSubject "user.a.b" = .ok "identity-stream" := by
  decide

/-- C28, amended. For every subject, `findStreamNameForSubject` succeeds with a stream
only if the subject starts with one of that stream's declared patterns stripped of
`.*`: the test is a literal prefix test on the aggregate, which asks for no dot and no
single token after it. -/
theorem C28_success_needs_aggregate_prefix (s name : String)
    (h : findStreamNameForSubject s = .ok name) :
    ∃ sc ∈ GetStreamConfigs, sc.Name = name ∧
      ∃ p ∈ sc.Subjects, hasPrefix s.data (trimSuffix p.data ".*".data) = true ∧
        ∃ rest, s.data = trimSuffix p.data ".*".data ++ rest := by
  unfold findStreamNameForSubject at h
  cases hf : findStreamIn s GetStreamConfigs with
  | none => simp [hf] at h
  | some n =>
    simp only [hf, Except.ok.injEq] at h
    subst h
    obtain ⟨sc, hsc, hname, hm⟩ := findStreamIn_some_mem s GetStreamConfigs n hf
    obtain ⟨p, hp, hpre⟩ := (matchesAnySubject_iff s sc.Subjects).mp hm
    refine ⟨sc, hsc, hname, p, hp, hpre, ?_⟩
    simp only [hasPrefix, List.isPrefixOf_iff_prefix] at hpre
    obtain ⟨rest, hrest⟩ := hpre
    exact ⟨rest, hrest.symm⟩

/-- C28, amended, at `username.created`, which starts with the aggregate `user`. -/
theorem C28_success_needs_aggregate_prefix_witness :
    ∃ sc ∈ GetStreamConfigs, sc.Name = "identity-stream" ∧
      ∃ p ∈ sc.Subjects,
        hasPrefix "username.created".data (trimSuffix p.data ".*".data) = true ∧
        ∃ rest, "username.created".data = trimSuffix p.data ".*".data ++ rest :=
  C28_success_needs_aggregate_prefix "username.created" "identity-stream" (by decide)

/-! ## Durable names of distinct subjects -/

theorem replaceDots_injective_without_dash (s t : Text) (hs : '-' ∉ s) (ht : '-' ∉ t)
    (h : replaceDots s = replaceDots t) : s = t := by
  induction s generalizing t with
  | nil =>
    cases t with
    | nil => rfl
    | cons d t => simp [replaceDots] at h
  | cons c s ih =>
    cases t with
    | nil => simp [replaceDots] at h
    | cons d t =>
      simp only [replaceDots, List.map_cons, List.cons.injEq] at h
      simp only [List.mem_cons, not_or] at hs ht
      have htail : s = t := ih t hs.2 ht.2 h.2
      have hhead : c = d := by
        have h1 := h.1
        by_cases hc : c = '.' <;> by_cases hd : d = '.'
        · rw [hc, hd]
        · simp only [hc, if_true, hd, if_false] at h1
          exact absurd h1 ht.1
        · simp only [hc, if_false, hd, if_true] at h1
          exact absurd h1.symm hs.1
        · simpa [hc, hd] using h1
      rw [hhead, htail]

/-- C29, as stated, fails: the distinct subjects `user.created` and `user-created`
derive the same durable name, `user-created-processor`. -/
theorem C29_durable_name_collision :
    ("user.created" : EventType) ≠ "user-created" ∧
    (consumerConfigFor "user.created").Durable = "user-created-processor" ∧
    (consumerConfigFor "user-created").Durable = "user-created-processor" ∧
    (consumerConfigFor "user.created").Durable = (consumerConfigFor "user-created").Durable := by
  decide

/-- C29, amended. The durable name derivation is injective on subjects that hold no
`-`: two distinct such subjects derive distinct durable names. In general two subjects
derive the same name exactly when they agree once every `.` is replaced by `-`. -/
theorem C29_durable_name_injective_without_dash (s t : EventType)
    (hs : '-' ∉ s.data) (ht : '-' ∉ t.data) (hne : s ≠ t) :
    (consumerConfigFor s).Durable ≠ (consumerConfigFor t).Durable ∧
    ∀ a b : EventType, (consumerConfigFor a).Durable = (consumerConfigFor b).Durable ↔
      replaceDots a.data = replaceDots b.data := by
  have key : ∀ a b : EventType, (consumerConfigFor a).Durable = (consumerConfigFor b).Durable ↔
      replaceDots a.data = replaceDots b.data := by
    intro a b
    simp only [consumerConfigFor]
    constructor
    · intro h
      have hd := congrArg String.data h
      simp only [String.data_append] at hd
      exact List.append_cancel_right hd
    · intro h
      rw [h]
  refine ⟨fun h => hne ?_, key⟩
  have := replaceDots_injective_without_dash s.data t.data hs ht ((key s t).mp h)
  exact String.ext this

/-- C29, amended, at the subjects `user.created` and `wallet.created`. -/
theorem C29_durable_name_injective_without_dash_witness :
    (consumerConfigFor "user.created").Durable ≠ (consumerConfigFor "wallet.created").Durable ∧
    ∀ a b : EventType, (consumerConfigFor a).Durable = (consumerConfigFor b).Durable ↔
      replaceDots a.data = replaceDots b.data :=
  C29_durable_name_injective_without_dash "user.created" "wallet.created" (by decide)
    (by decide) (by decide)

/-! ## Password rules -/

theorem isDigit_iff (c : Char) : isDigit c = true ↔ '0' ≤ c ∧ c ≤ '9' := by
  simp [isDigit, Char.le_def, UInt32.le_def, Char.toNat]
  try rfl

theorem isUpperASCII_iff (c : Char) : isUpperASCII c = true ↔ 'A' ≤ c ∧ c ≤ 'Z' := by
  simp [isUpperASCII, Char.le_def, UInt32.le_def, Char.toNat]
  try rfl

theorem isLowerASCII_iff (c : Char) : isLowerASCII c = true ↔ 'a' ≤ c ∧ c ≤ 'z' := by
  simp [isLowerASCII, Char.le_def, UInt32.le_def, Char.toNat]
  try rfl

theorem ne_empty_of_length (s : String) (h : 10 ≤ s.data.length) : s ≠ "" := by
  intro h0
  rw [h0] at h
  exact absurd h (by decide)

theorem validatePassword_empty : validatePassword "" =
    some (.codedNoCause .invalid "Password cannot be empty.") := by
  decide

theorem validatePassword_short (s : String) (h0 : s ≠ "") (h1 : s.data.length < 10) :
    validatePassword s =
      some (.codedNoCause .invalid "Password must be at least 10 characters long.") := by
  unfold validatePassword
  rw [if_neg h0, if_pos (show s.data.length < MinPasswordLength from h1)]
  decide

theorem validatePassword_long (s : String) (h1 : 10 ≤ s.data.length) :
    validatePassword s =
      if hasNumber s = false then
        some (.codedNoCause .invalid "Password must contain at least one numeric character (0-9).")
      else if hasUpper s = false then
        some (.codedNoCause .invalid "Password must contain at least one uppercase letter (A-Z).")
      else if hasLower s = false then
        some (.codedNoCause .invalid "Password must contain at least one lowercase letter (a-z).")
      else if hasSymbol s = false then
        some (.codedNoCause .invalid "Password must contain at least one symbol.")
      else none := by
  unfold validatePassword
  rw [if_neg (ne_empty_of_length s h1),
    if_neg (show ¬ s.data.length < MinPasswordLength from Nat.not_lt.mpr h1)]
  simp only [NewValidationErrorNoCause, Bool.not_eq_true']

/-- C24. For every string, `NewPassword` succeeds if and only if the string has at
least 10 code points and holds a character in `0-9`, one in `A-Z`, one in `a-z` and one
outside `a-zA-Z0-9`; on success the password's `String()` is the input; on failure the
error is the validation error of the first violated rule, in the order empty, length,
numeric, uppercase, lowercase, symbol. -/
theorem C24_password_rules (s : String) :
    ((∃ p, NewPassword s = .ok p) ↔
      10 ≤ s.data.length ∧ (∃ c ∈ s.data, '0' ≤ c ∧ c ≤ '9') ∧
      (∃ c ∈ s.data, 'A' ≤ c ∧ c ≤ 'Z') ∧ (∃ c ∈ s.data, 'a' ≤ c ∧ c ≤ 'z') ∧
      (∃ c ∈ s.data, ¬ ('a' ≤ c ∧ c ≤ 'z') ∧ ¬ ('A' ≤ c ∧ c ≤ 'Z') ∧ ¬ ('0' ≤ c ∧ c ≤ '9'))) ∧
    (∀ p, NewPassword s = .ok p → Password.String p = s) ∧
    (s = "" → NewPassword s = .error (.codedNoCause .invalid "Password cannot be empty.")) ∧
    (s ≠ "" → s.data.length < 10 → NewPassword s
      = .error (.codedNoCause .invalid "Password must be at least 10 characters long.")) ∧
    (10 ≤ s.data.length → (¬ ∃ c ∈ s.data, '0' ≤ c ∧ c ≤ '9') → NewPassword s
      = .error (.codedNoCause .invalid
          "Password must contain at least one numeric character (0-9).")) ∧
    (10 ≤ s.data.length → (∃ c ∈ s.data, '0' ≤ c ∧ c ≤ '9') →
      (¬ ∃ c ∈ s.data, 'A' ≤ c ∧ c ≤ 'Z') → NewPassword s
      = .error (.codedNoCause .invalid
          "Password must contain at least one uppercase letter (A-Z).")) ∧
    (10 ≤ s.data.length → (∃ c ∈ s.data, '0' ≤ c ∧ c ≤ '9') →
      (∃ c ∈ s.data, 'A' ≤ c ∧ c ≤ 'Z') → (¬ ∃ c ∈ s.data, 'a' ≤ c ∧ c ≤ 'z') → NewPassword s
      = .error (.codedNoCause .invalid
          "Password must contain at least one lowercase letter (a-z).")) ∧
    (10 ≤ s.data.length → (∃ c ∈ s.data, '0' ≤ c ∧ c ≤ '9') →
      (∃ c ∈ s.data, 'A' ≤ c ∧ c ≤ 'Z') → (∃ c ∈ s.data, 'a' ≤ c ∧ c ≤ 'z') →
      (¬ ∃ c ∈ s.data, ¬ ('a' ≤ c ∧ c ≤ 'z') ∧ ¬ ('A' ≤ c ∧ c ≤ 'Z') ∧ ¬ ('0' ≤ c ∧ c ≤ '9')) →
      NewPassword s
        = .error (.codedNoCause .invalid "Password must contain at least one symbol.")) ∧
    NewPassword "ValidPass123!" = .ok "ValidPass123!" := by
  have hnum : hasNumber s = true ↔ ∃ c ∈ s.data, '0' ≤ c ∧ c ≤ '9' := by
    simp only [hasNumber, List.any_eq_true, isDigit_iff]
  have hup : hasUpper s = true ↔ ∃ c ∈ s.data, 'A' ≤ c ∧ c ≤ 'Z' := by
    simp only [hasUpper, List.any_eq_true, isUpperASCII_iff]
  have hlow : hasLower s = true ↔ ∃ c ∈ s.data, 'a' ≤ c ∧ c ≤ 'z' := by
    simp only [hasLower, List.any_eq_true, isLowerASCII_iff]
  have hsym : hasSymbol s = true ↔ ∃ c ∈ s.data,
      ¬ ('a' ≤ c ∧ c ≤ 'z') ∧ ¬ ('A' ≤ c ∧ c ≤ 'Z') ∧ ¬ ('0' ≤ c ∧ c ≤ '9') := by
    simp only [hasSymbol, List.any_eq_true, Bool.not_eq_true', ← Bool.not_eq_true,
      Bool.or_eq_true, not_or, isDigit_iff, isUpperASCII_iff, isLowerASCII_iff, and_assoc]
  rw [← hnum, ← hup, ← hlow, ← hsym]
  simp only [Bool.not_eq_true]
  refine ⟨⟨?_, ?_⟩, ?_, ?_, ?_, ?_, ?_, ?_, ?_, by decide⟩
  · rintro ⟨p, hp⟩
    unfold NewPassword at hp
    by_cases h0 : s = ""
    · rw [h0, validatePassword_empty] at hp
      cases hp
    by_cases h1 : s.data.length < 10
    · rw [validatePassword_short s h0 h1] at hp
      cases hp
    have h1' : 10 ≤ s.data.length := Nat.le_of_not_lt h1
    rw [validatePassword_long s h1'] at hp
    refine ⟨h1', ?_⟩
    cases h2 : hasNumber s <;> cases h3 : hasUpper s <;> cases h4 : hasLower s <;>
      cases h5 : hasSymbol s <;> simp [h2, h3, h4, h5] at hp ⊢
  · rintro ⟨h1, h2, h3, h4, h5⟩
    refine ⟨s, ?_⟩
    unfold NewPassword
    rw [validatePassword_long s h1]
    simp [h2, h3, h4, h5]
  · intro p hp
    unfold NewPassword at hp
    cases hv : validatePassword s with
    | some err => simp [hv] at hp
    | none =>
      simp only [hv, Except.ok.injEq] at hp
      exact hp.symm
  · intro h0
    unfold NewPassword
    rw [h0, validatePassword_empty]
  · intro h0 h1
    unfold NewPassword
    rw [validatePassword_short s h0 h1]
  · intro h1 h2
    unfold NewPassword
    rw [validatePassword_long s h1]
    simp [h2]
  · intro h1 h2 h3
    unfold NewPassword
    rw [validatePassword_long s h1]
    simp [h2, h3]
  · intro h1 h2 h3 h4
    unfold NewPassword
    rw [validatePassword_long s h1]
    simp [h2, h3, h4]
  · intro h1 h2 h3 h4 h5
    unfold NewPassword
    rw [validatePassword_long s h1]
    simp [h2, h3, h4, h5]

/-! ## The lifecycle of a user -/

theorem Archive_of_archived (env : UserEnv) (u : User) (h : u.IsArchived = true) :
    u.Archive env = u := by
  unfold User.Archive
  rw [if_neg (by simp [h])]

theorem Archive_of_not_archived (env : UserEnv) (u : User) (h : u.IsArchived = false) :
    u.Archive env =
      { u with
        ArchivedAt := NewArchivedAtNow env.now
        UpdatedAt := env.now
        Version := u.Version.Increment } := by
  unfold User.Archive
  rw [if_pos (by simp [h])]

/-- C26. For every user that is already archived, `Archive` changes no field, so
archiving twice is archiving once; and for every user that is not archived, `Archive`
makes `IsArchived` true and increments the version by exactly one. -/
theorem C26_archive_idempotent (env env' : UserEnv) (u : User) :
    (u.IsArchived = true → u.Archive env = u) ∧
    (u.IsArchived = false →
      (u.Archive env).IsArchived = true ∧ (u.Archive env).Version.n = u.Version.n + 1 ∧
      (u.Archive env).ArchivedAt = some env.now) ∧
    (u.Archive env).IsArchived = true ∧
    (u.Archive env).Archive env' = u.Archive env ∧
    User.sample.IsArchived = false ∧ (User.sample.Archive UserEnv.sample).Version = ⟨2⟩ := by
  have h1 : u.IsArchived = true → u.Archive env = u := Archive_of_archived env u
  have h2 : u.IsArchived = false →
      (u.Archive env).IsArchived = true ∧ (u.Archive env).Version.n = u.Version.n + 1 ∧
      (u.Archive env).ArchivedAt = some env.now := by
    intro h
    rw [Archive_of_not_archived env u h]
    exact ⟨rfl, rfl, rfl⟩
  have h3 : (u.Archive env).IsArchived = true := by
    cases h : u.IsArchived with
    | true => rw [h1 h]; exact h
    | false => exact (h2 h).1
  exact ⟨h1, h2, h3, Archive_of_archived env' _ h3, by decide, by decide⟩

/-! ## A failed update -/

theorem validate_fields (u : User) :
    (u.validate.1.Name = u.Name ∨ u.validate.1.Name = trimSpace u.Name) ∧
    u.validate.1.Email = u.Email ∧ u.validate.1.Phone = u.Phone ∧
    u.validate.1.Preferences = u.Preferences ∧ u.validate.1.UpdatedAt = u.UpdatedAt ∧
    u.validate.1.Version = u.Version := by
  unfold User.validate
  simp only
  split_ifs <;> simp

theorem updateFinish_error (env : UserEnv) (u : User) (changed : Bool) (err : GoError)
    (h : (User.updateFinish env u changed).2 = some err) :
    ((User.updateFinish env u changed).1.Name = u.Name ∨
      (User.updateFinish env u changed).1.Name = trimSpace u.Name) ∧
    (User.updateFinish env u changed).1.Email = u.Email ∧
    (User.updateFinish env u changed).1.Phone = u.Phone ∧
    (User.updateFinish env u changed).1.Preferences = u.Preferences ∧
    (User.updateFinish env u changed).1.UpdatedAt = u.UpdatedAt ∧
    (User.updateFinish env u changed).1.Version = u.Version := by
  have hv := validate_fields u
  unfold User.updateFinish at h ⊢
  cases changed with
  | false => simp at h
  | true =>
    simp only [Bool.not_true, Bool.false_eq_true, if_false] at h ⊢
    rcases hval : u.validate with ⟨u1, res⟩
    rw [hval] at hv
    cases res with
    | none => simp [hval] at h
    | some e => simpa [hval] using hv

theorem updatePreferences_error (env : UserEnv) (input : UpdateUserInput) (u : User)
    (changed : Bool) (err : GoError)
    (h : (User.updatePreferences env input u changed).2 = some err) :
    ((User.updatePreferences env input u changed).1.Name = u.Name ∨
      (User.updatePreferences env input u changed).1.Name = trimSpace u.Name) ∧
    (User.updatePreferences env input u changed).1.Email = u.Email ∧
    (User.updatePreferences env input u changed).1.Phone = u.Phone ∧
    ((User.updatePreferences env input u changed).1.Preferences = u.Preferences ∨
      (User.updatePreferences env input u changed).1.Preferences = input.Preferences ∨
      (User.updatePreferences env input u changed).1.Preferences = none) ∧
    (User.updatePreferences env input u changed).1.UpdatedAt = u.UpdatedAt ∧
    (User.updatePreferences env input u changed).1.Version = u.Version := by
  unfold User.updatePreferences at h ⊢
  cases hp : input.Preferences with
  | none =>
    simp only [hp] at h ⊢
    obtain ⟨a, b, c, d, e, f⟩ := updateFinish_error env u changed err h
    exact ⟨a, b, c, Or.inl d, e, f⟩
  | some p =>
    simp only [hp] at h ⊢
    by_cases hv : jsonValid p = true
    · simp only [hv, Bool.not_true, Bool.false_eq_true, if_false] at h ⊢
      by_cases hn : p = "null".data ∨ p.length = 0
      · simp only [hn, if_true] at h ⊢
        obtain ⟨a, b, c, d, e, f⟩ := updateFinish_error env _ true err h
        exact ⟨a, b, c, Or.inr (Or.inr d), e, f⟩
      · simp only [hn, if_false] at h ⊢
        obtain ⟨a, b, c, d, e, f⟩ := updateFinish_error env _ true err h
        exact ⟨a, b, c, Or.inr (Or.inl d), e, f⟩
    · simp [hv]

theorem updatePhone_error (env : UserEnv) (input : UpdateUserInput) (u : User)
    (changed : Bool) (err : GoError)
    (h : (User.updatePhone env input u changed).2 = some err) :
    ((User.updatePhone env input u changed).1.Name = u.Name ∨
      (User.updatePhone env input u changed).1.Name = trimSpace u.Name) ∧
    (User.updatePhone env input u changed).1.Email = u.Email ∧
    ((User.updatePhone env input u changed).1.Phone = u.Phone ∨
      env.NewPhone input.Phone = .ok (User.updatePhone env input u changed).1.Phone) ∧
    ((User.updatePhone env input u changed).1.Preferences = u.Preferences ∨
      (User.updatePhone env input u changed).1.Preferences = input.Preferences ∨
      (User.updatePhone env input u changed).1.Preferences = none) ∧
    (User.updatePhone env input u changed).1.UpdatedAt = u.UpdatedAt ∧
    (User.updatePhone env input u changed).1.Version = u.Version := by
  unfold User.updatePhone at h ⊢
  by_cases hi : input.Phone = ""
  · simp only [hi, ne_eq, not_true_eq_false, if_false] at h ⊢
    obtain ⟨a, b, c, d, e, f⟩ := updatePreferences_error env input u changed err h
    exact ⟨a, b, Or.inl c, d, e, f⟩
  · simp only [ne_eq, hi, not_false_eq_true, if_true] at h ⊢
    cases hn : env.NewPhone input.Phone with
    | error e0 => simp
    | ok phone =>
      simp only [hn] at h ⊢
      obtain ⟨a, b, c, d, e, f⟩ := updatePreferences_error env input _ true err h
      exact ⟨a, b, Or.inr (by rw [c]), d, e, f⟩

theorem updateEmail_error (env : UserEnv) (input : UpdateUserInput) (u : User)
    (changed : Bool) (err : GoError)
    (h : (User.updateEmail env input u changed).2 = some err) :
    ((User.updateEmail env input u changed).1.Name = u.Name ∨
      (User.updateEmail env input u changed).1.Name = trimSpace u.Name) ∧
    ((User.updateEmail env input u changed).1.Email = u.Email ∨
      env.NewEmail input.Email = .ok (User.updateEmail env input u changed).1.Email) ∧
    ((User.updateEmail env input u changed).1.Phone = u.Phone ∨
      env.NewPhone input.Phone = .ok (User.updateEmail env input u changed).1.Phone) ∧
    ((User.updateEmail env input u changed).1.Preferences = u.Preferences ∨
      (User.updateEmail env input u changed).1.Preferences = input.Preferences ∨
      (User.updateEmail env input u changed).1.Preferences = none) ∧
    (User.updateEmail env input u changed).1.UpdatedAt = u.UpdatedAt ∧
    (User.updateEmail env input u changed).1.Version = u.Version := by
  unfold User.updateEmail at h ⊢
  by_cases hi : input.Email = ""
  · simp only [hi, ne_eq, not_true_eq_false, if_false] at h ⊢
    obtain ⟨a, b, c, d, e, f⟩ := updatePhone_error env input u changed err h
    exact ⟨a, Or.inl b, c, d, e, f⟩
  · simp only [ne_eq, hi, not_false_eq_true, if_true] at h ⊢
    cases hn : env.NewEmail input.Email with
    | error e0 => simp
    | ok email =>
      simp only [hn] at h ⊢
      obtain ⟨a, b, c, d, e, f⟩ := updatePhone_error env input _ true err h
      exact ⟨a, Or.inr (by rw [b]), c, d, e, f⟩

/-- C30, as stated, fails: an update that supplies a new name and an e-mail that
`types.NewEmail` rejects returns an error after the name has been assigned, so the
user's name differs after the call. -/
theorem C30_failed_update_counterexample :
    (User.sample.Update UserEnv.sample ⟨"Updated Name", "invalid-email", "", none⟩).2
      = some (.codedNoCause .invalid "Invalid email format.") ∧
    User.sample.Name = "Test User" ∧
    (User.sample.Update UserEnv.sample ⟨"Updated Name", "invalid-email", "", none⟩).1.Name
      = "Updated Name" ∧
    (User.sample.Update UserEnv.sample ⟨"Updated Name", "invalid-email", "", none⟩).1
      ≠ User.sample := by
  decide

/-- C30, amended. For every user and every input on which `Update` returns an error,
`UpdatedAt` and `Version` are the same after the call as before it, and each of `Name`,
`Email`, `Phone` and `Preferences` holds either its old value or the value the input
supplied for it (the name possibly trimmed of surrounding white space, the preferences
possibly reset to nil): the fields assigned before the failing check stay assigned. -/
theorem C30_failed_update_keeps_version (env : UserEnv) (u : User) (input : UpdateUserInput)
    (err : GoError) (h : (u.Update env input).2 = some err) :
    (u.Update env input).1.UpdatedAt = u.UpdatedAt ∧
    (u.Update env input).1.Version = u.Version ∧
    ((u.Update env input).1.Name = u.Name ∨ (u.Update env input).1.Name = trimSpace u.Name ∨
      (u.Update env input).1.Name = input.Name ∨
      (u.Update env input).1.Name = trimSpace input.Name) ∧
    ((u.Update env input).1.Email = u.Email ∨
      env.NewEmail input.Email = .ok (u.Update env input).1.Email) ∧
    ((u.Update env input).1.Phone = u.Phone ∨
      env.NewPhone input.Phone = .ok (u.Update env input).1.Phone) ∧
    ((u.Update env input).1.Preferences = u.Preferences ∨
      (u.Update env input).1.Preferences = input.Preferences ∨
      (u.Update env input).1.Preferences = none) := by
  unfold User.Update at h ⊢
  by_cases hi : input.Name = ""
  · simp only [hi, ne_eq, not_true_eq_false, if_false] at h ⊢
    obtain ⟨a, b, c, d, e, f⟩ := updateEmail_error env input u false err h
    refine ⟨e, f, ?_, b, c, d⟩
    rcases a with a | a
    · exact Or.inl a
    · exact Or.inr (Or.inl a)
  · simp only [ne_eq, hi, not_false_eq_true, if_true] at h ⊢
    obtain ⟨a, b, c, d, e, f⟩ := updateEmail_error env input _ true err h
    refine ⟨e, f, ?_, b, c, d⟩
    rcases a with a | a
    · exact Or.inr (Or.inr (Or.inl a))
    · exact Or.inr (Or.inr (Or.inr a))

/-- C30, amended, at the update that supplies a new name and a rejected e-mail. -/
theorem C30_failed_update_keeps_version_witness :
    (User.sample.Update UserEnv.sample ⟨"Updated Name", "invalid-email", "", none⟩).1.UpdatedAt
      = User.sample.UpdatedAt ∧
    (User.sample.Update UserEnv.sample ⟨"Updated Name", "invalid-email", "", none⟩).1.Version
      = User.sample.Version ∧
    ((User.sample.Update UserEnv.sample ⟨"Updated Name", "invalid-email", "", none⟩).1.Name
        = User.sample.Name ∨
      (User.sample.Update UserEnv.sample ⟨"Updated Name", "invalid-email", "", none⟩).1.Name
        = trimSpace User.sample.Name ∨
      (User.sample.Update UserEnv.sample ⟨"Updated Name", "invalid-email", "", none⟩).1.Name
        = "Updated Name" ∨
      (User.sample.Update UserEnv.sample ⟨"Updated Name", "invalid-email", "", none⟩).1.Name
        = trimSpace "Updated Name") ∧
    ((User.sample.Update UserEnv.sample ⟨"Updated Name", "invalid-email", "", none⟩).1.Email
        = User.sample.Email ∨
      UserEnv.sample.NewEmail "invalid-email" = .ok
        (User.sample.Update UserEnv.sample ⟨"Updated Name", "invalid-email", "", none⟩).1.Email) ∧
    ((User.sample.Update UserEnv.sample ⟨"Updated Name", "invalid-email", "", none⟩).1.Phone
        = User.sample.Phone ∨
      UserEnv.sample.NewPhone "" = .ok
        (User.sample.Update UserEnv.sample ⟨"Updated Name", "invalid-email", "", none⟩).1.Phone) ∧
    ((User.sample.Update UserEnv.sample ⟨"Updated Name", "invalid-email", "", none⟩).1.Preferences
        = User.sample.Preferences ∨
      (User.sample.Update UserEnv.sample ⟨"Updated Name", "invalid-email", "", none⟩).1.Preferences
        = none ∨
      (User.sample.Update UserEnv.sample ⟨"Updated Name", "invalid-email", "", none⟩).1.Preferences
        = none) :=
  C30_failed_update_keeps_version UserEnv.sample User.sample
    ⟨"Updated Name", "invalid-email", "", none⟩
    (.codedNoCause .invalid "Invalid email format.") (by decide)

/-! ## The create-user use case -/

/-- C25. For every input whose e-mail and phone pass validation: if `UserExists`
reports that the user already exists, `Execute` returns an error carrying the conflict
code and never calls `CreateUser`; if `UserExists` itself fails, `Execute` returns an
error carrying the internal code and never calls `CreateUser`. In both cases its only
call on the repository is `UserExists`. -/
theorem C25_existing_user_rejected (env : UserEnv) (repo : CreateUserRepository)
    (input : NewUserInput) (email : Email) (phone : Phone)
    (he : env.NewEmail input.Email = .ok email) (hp : env.NewPhone input.Phone = .ok phone) :
    (repo.UserExists email phone = .ok true →
      (∃ err, (createUserUseCase.Execute env repo input).2 = .error err ∧
        err.Code = some .conflict) ∧
      (createUserUseCase.Execute env repo input).1 = [.userExists email phone] ∧
      ∀ c ∈ (createUserUseCase.Execute env repo input).1, c.isCreateUser = false) ∧
    (∀ cause, repo.UserExists email phone = .error cause →
      (∃ err, (createUserUseCase.Execute env repo input).2 = .error err ∧
        err.Code = some .internal) ∧
      (createUserUseCase.Execute env repo input).1 = [.userExists email phone] ∧
      ∀ c ∈ (createUserUseCase.Execute env repo input).1, c.isCreateUser = false) := by
  constructor
  · intro hx
    have hrun : createUserUseCase.Execute env repo input
        = ([.userExists email phone],
            .error (NewMessageErrorNoCause ErrUserAlreadyExists .conflict)) := by
      unfold createUserUseCase.Execute
      simp only [he, hp, hx]
    rw [hrun]
    exact ⟨⟨_, rfl, rfl⟩, rfl, by simp [RepositoryCall.isCreateUser]⟩
  · intro cause hx
    have hrun : createUserUseCase.Execute env repo input
        = ([.userExists email phone], .error (NewInternalError cause)) := by
      unfold createUserUseCase.Execute
      simp only [he, hp, hx]
    rw [hrun]
    exact ⟨⟨_, rfl, rfl⟩, rfl, by simp [RepositoryCall.isCreateUser]⟩

/-- C25 at the valid input of the tests, with a repository that reports the user as
existing and with one whose `UserExists` fails. -/
theorem C25_existing_user_rejected_witness :
    createUserUseCase.Execute UserEnv.sample repoUserExists NewUserInput.sample
      = ([.userExists ⟨"test@example.com"⟩ ⟨"+5562999998888"⟩],
          .error (.codedNoCause .conflict ErrUserAlreadyExists)) ∧
    createUserUseCase.Execute UserEnv.sample repoUserExistsFailing NewUserInput.sample
      = ([.userExists ⟨"test@example.com"⟩ ⟨"+5562999998888"⟩],
          .error (.coded .internal internalErrorMessage (.new "database connection error"))) ∧
    ((repoUserExists.UserExists ⟨"test@example.com"⟩ ⟨"+5562999998888"⟩ = .ok true →
      (∃ err, (createUserUseCase.Execute UserEnv.sample repoUserExists NewUserInput.sample).2
          = .error err ∧ err.Code = some .conflict) ∧
      (createUserUseCase.Execute UserEnv.sample repoUserExists NewUserInput.sample).1
        = [.userExists ⟨"test@example.com"⟩ ⟨"+5562999998888"⟩] ∧
      ∀ c ∈ (createUserUseCase.Execute UserEnv.sample repoUserExists NewUserInput.sample).1,
        c.isCreateUser = false) ∧
    (∀ cause, repoUserExists.UserExists ⟨"test@example.com"⟩ ⟨"+5562999998888"⟩
        = .error cause →
      (∃ err, (createUserUseCase.Execute UserEnv.sample repoUserExists NewUserInput.sample).2
          = .error err ∧ err.Code = some .internal) ∧
      (createUserUseCase.Execute UserEnv.sample repoUserExists NewUserInput.sample).1
        = [.userExists ⟨"test@example.com"⟩ ⟨"+5562999998888"⟩] ∧
      ∀ c ∈ (createUserUseCase.Execute UserEnv.sample repoUserExists NewUserInput.sample).1,
        c.isCreateUser = false)) :=
  ⟨by decide, by decide,
    C25_existing_user_rejected UserEnv.sample repoUserExists NewUserInput.sample
      ⟨"test@example.com"⟩ ⟨"+5562999998888"⟩ (by decide) (by decide)⟩

/-! ## The `user.created` event -/

theorem userCreatedPayloadField_userId : userCreatedPayloadField "userId".data
    = some (fun raw p => (decodeUUID raw p.UserID).map (fun v => { p with UserID := v })) := by
  unfold userCreatedPayloadField
  rw [if_pos (by decide)]

theorem userCreatedPayloadField_name : userCreatedPayloadField "name".data
    = some (fun raw p => (decodeString raw p.Name).map (fun v => { p with Name := v })) := by
  unfold userCreatedPayloadField
  rw [if_neg (by decide), if_pos (by decide)]

theorem userCreatedPayloadField_email : userCreatedPayloadField "email".data
    = some (fun raw p => (decodeString raw p.Email).map (fun v => { p with Email := v })) := by
  unfold userCreatedPayloadField
  rw [if_neg (by decide), if_neg (by decide), if_pos (by decide)]

theorem userCreatedPayloadField_phone : userCreatedPayloadField "phone".data
    = some (fun raw p => (decodeString raw p.Phone).map (fun v => { p with Phone := v })) := by
  unfold userCreatedPayloadField
  rw [if_neg (by decide), if_neg (by decide), if_neg (by decide), if_pos (by decide)]

/-- The JSON form of a `UserCreatedPayload` is valid JSON, already compact, and decodes
to the payload. -/
theorem userCreatedPayload_roundtrip (p : UserCreatedPayload) :
    scanDocument (marshalUserCreatedPayload p) = some (marshalUserCreatedPayload p) ∧
    jsonUnmarshalUserCreatedPayload (some (marshalUserCreatedPayload p)) = .ok p := by
  have hok : ∀ kv ∈ [("userId", marshalUUID p.UserID), ("name", encodeString p.Name.data),
      ("email", encodeString p.Email.data), ("phone", encodeString p.Phone.data)],
      isPlainText kv.1.data = true ∧ Scannable 1 kv.2 := by
    intro kv hkv
    simp only [List.mem_cons, List.mem_singleton, List.not_mem_nil, or_false] at hkv
    rcases hkv with rfl | rfl | rfl | rfl
    · exact ⟨(by decide : isPlainText "userId".data = true), scannable_marshalUUID _ _⟩
    · exact ⟨(by decide : isPlainText "name".data = true), scannable_encodeString _ _⟩
    · exact ⟨(by decide : isPlainText "email".data = true), scannable_encodeString _ _⟩
    · exact ⟨(by decide : isPlainText "phone".data = true), scannable_encodeString _ _⟩
  have hscan := scanDocument_renderObject _ (by simp) hok
  refine ⟨hscan, ?_⟩
  unfold jsonUnmarshalUserCreatedPayload
  simp only [Option.getD_some]
  unfold marshalUserCreatedPayload
  rw [hscan]
  simp only
  have hsk : ∀ ms, skipSpace (renderObject ms) = renderObject ms :=
    fun ms => skipSpace_cons_of_not_space _ _ (by decide)
  rw [hsk, decodeStruct_render _ _ _ (by simp) hok]
  rw [applyMembers_cons, userCreatedPayloadField_userId]
  simp only [decodeUUID_marshalUUID, exceptMap_ok]
  rw [applyMembers_cons, userCreatedPayloadField_name]
  simp only [decodeString_encodeString, exceptMap_ok]
  rw [applyMembers_cons, userCreatedPayloadField_email]
  simp only [decodeString_encodeString, exceptMap_ok]
  rw [applyMembers_cons, userCreatedPayloadField_phone]
  simp only [decodeString_encodeString, exceptMap_ok, applyMembers_nil]

/-- C23. For every input with non-nil correlation and trace IDs, identifier generation
succeeding, `NewUserCreatedEvent` succeeds and returns an envelope with event type
`user.created`, schema version `v1.0.0`, source `IdentityService`, the identifiers of
the input in its context and metadata (values and validity flags), and a payload that
decodes back to the user ID, name, e-mail and phone of the input's payload; it fails
when the correlation ID or the trace ID is nil. -/
theorem C23_user_created_event (env : Env) (input : USerCreatedEventInput) (id : UUID)
    (hg : env.newUUID = .ok id) :
    (input.CorrelationID ≠ UUID.Nil → input.TraceID ≠ UUID.Nil →
      ∃ e, NewUserCreatedEvent env input = .ok e ∧
        e.Header.EventID = id ∧
        e.Header.EventType = "user.created" ∧ e.Header.SchemaVersion = "v1.0.0" ∧
        e.Header.Source = "IdentityService" ∧
        e.Context = ⟨input.CorrelationID, input.UserID⟩ ∧
        e.Metadata = ⟨input.TraceID, input.PreviousEventID, input.CausationID⟩ ∧
        jsonUnmarshalUserCreatedPayload e.Payload = .ok input.Payload) ∧
    (input.CorrelationID = UUID.Nil ∨ input.TraceID = UUID.Nil →
      ∃ err, NewUserCreatedEvent env input = .error err) := by
  obtain ⟨hscan, hdec⟩ := userCreatedPayload_roundtrip input.Payload
  have hvalid : jsonValid (marshalUserCreatedPayload input.Payload) = true := by
    unfold jsonValid
    rw [hscan]
    rfl
  constructor
  · intro hc ht
    refine ⟨
      { Header := ⟨id, UserCreatedEventType, nowUTC env.clock, UserEventSource,
          UserCreatedEventVersion⟩
        Context := ⟨input.CorrelationID, input.UserID⟩
        Metadata := ⟨input.TraceID, input.PreviousEventID, input.CausationID⟩
        Payload := some (marshalUserCreatedPayload input.Payload) }, ?_, rfl, rfl, rfl, rfl,
      rfl, rfl, hdec⟩
    unfold NewUserCreatedEvent NewEvent NewEventHeader
    have h1 : UserCreatedEventType ≠ "" := by decide
    have h2 : UserEventSource ≠ "" := by decide
    have h3 : UserCreatedEventVersion ≠ "" := by decide
    simp [h1, h2, h3, hc, ht, UUID.IsNil, RawMessage.valid, hvalid, hg, NewEventContext,
      NewEventMetadata]
  · intro hnil
    unfold NewUserCreatedEvent NewEvent
    have h1 : UserCreatedEventType ≠ "" := by decide
    have h2 : UserEventSource ≠ "" := by decide
    have h3 : UserCreatedEventVersion ≠ "" := by decide
    by_cases hc : input.CorrelationID = UUID.Nil
    · simp [h1, h2, h3, hc, UUID.IsNil]
    · rcases hnil with hnil | hnil
      · exact absurd hnil hc
      · simp [h1, h2, h3, hc, hnil, UUID.IsNil]

/-- C23 at the sample input: the envelope built and its payload. -/
theorem C23_user_created_event_witness :
    (NewUserCreatedEvent Env.sample USerCreatedEventInput.sample).map (fun e => e.Payload)
      = .ok (some ("\x7b\"userId\":\"0000000b-000c-000d-000e-00000000000f\",\"name\":\"Ada\","
          ++ "\"email\":\"ada@example.com\",\"phone\":\"+15550100\"\x7d").data) ∧
    (USerCreatedEventInput.sample.CorrelationID ≠ UUID.Nil →
      USerCreatedEventInput.sample.TraceID ≠ UUID.Nil →
      ∃ e, NewUserCreatedEvent Env.sample USerCreatedEventInput.sample = .ok e ∧
        e.Header.EventID = ⟨0x9f1c2b3a, 0x4d5e, 0x4f60, 0x8a7b, 0x0c1d2e3f4a5b⟩ ∧
        e.Header.EventType = "user.created" ∧ e.Header.SchemaVersion = "v1.0.0" ∧
        e.Header.Source = "IdentityService" ∧
        e.Context = ⟨USerCreatedEventInput.sample.CorrelationID,
          USerCreatedEventInput.sample.UserID⟩ ∧
        e.Metadata = ⟨USerCreatedEventInput.sample.TraceID,
          USerCreatedEventInput.sample.PreviousEventID,
          USerCreatedEventInput.sample.CausationID⟩ ∧
        jsonUnmarshalUserCreatedPayload e.Payload = .ok USerCreatedEventInput.sample.Payload) ∧
    (USerCreatedEventInput.sample.CorrelationID = UUID.Nil ∨
        USerCreatedEventInput.sample.TraceID = UUID.Nil →
      ∃ err, NewUserCreatedEvent Env.sample USerCreatedEventInput.sample = .error err) :=
  ⟨by decide!,
    C23_user_created_event Env.sample USerCreatedEventInput.sample
      ⟨0x9f1c2b3a, 0x4d5e, 0x4f60, 0x8a7b, 0x0c1d2e3f4a5b⟩ rfl⟩

end EDA
